import Mathlib

/-!
# Object action executor and notification dispatch of `configwizard/sdk`

A shallow embedding of `object/object.go` (the five object operations and the
two writer/reader initialisers), of `notification/notifications.go` (the
records, the persisting emitter and the dispatch with its listener goroutine)
and of `TokenExpiryValue` from `pool/pool.go`.

Conventions of the embedding

* Every operation takes the history of effects performed so far and returns
  its outcome together with the extended history.  An effect is a call that
  leaves the executor: a remote call on the connection pool, a call on the
  payload writer, a `Read`/`Write` on the local stream, an `Emit` on the event
  emitter, or a send on the action channel.
* External collaborators are oracles.  Each oracle receives the history, so a
  collaborator may answer the same request differently on successive calls.
* Collaborator handles (pool, emitter, notifier, stream, action channel
  receiver, unlocked gate key) are present; the nil cases the source itself
  tests or flags (gate account, the token held by a token wrapper) are
  modelled, the latter as a Go panic.
-/

namespace Sdk

/-! ## Go values -/

/-- Go `error` values that the executor can observe.  `EOF` is the sentinel
`io.EOF`, which the source compares by identity; `New text` is
`errors.New(text)`; `NumError` is `*strconv.NumError`; `Wrap text inner` is
`fmt.Errorf(text + "%w", inner)`. -/
inductive GoError where
  | EOF
  | New (text : String)
  | NumError (func num reason : String)
  | Wrap (text : String) (inner : GoError)
  deriving DecidableEq, Repr

/-- The digit of `n < 16` in Go's `lowerhex`. -/
def strconv.lowerhex (n : Nat) : Char :=
  if n < 10 then Char.ofNat (48 + n) else Char.ofNat (87 + n)

/-- Go `strconv.IsPrint` on the runes up to U+00FF, where it is a range test;
above them it reads tables of the Unicode character database, and the rune is
taken as printable here. -/
def strconv.IsPrint (c : Char) : Bool :=
  if c.toNat ≤ 255 then
    (32 ≤ c.toNat && c.toNat ≤ 126) || (161 ≤ c.toNat && c.toNat ≠ 173)
  else true

/-- One rune of Go `strconv.Quote` (`appendEscapedRune` with the double quote
as delimiter). -/
def strconv.quoteRune (c : Char) : String :=
  let backslash := String.singleton (Char.ofNat 92)
  if c = Char.ofNat 34 ∨ c = Char.ofNat 92 then backslash ++ String.singleton c
  else if strconv.IsPrint c then String.singleton c
  else if c = Char.ofNat 7 then backslash ++ "a"
  else if c = Char.ofNat 8 then backslash ++ "b"
  else if c = Char.ofNat 12 then backslash ++ "f"
  else if c = Char.ofNat 10 then backslash ++ "n"
  else if c = Char.ofNat 13 then backslash ++ "r"
  else if c = Char.ofNat 9 then backslash ++ "t"
  else if c = Char.ofNat 11 then backslash ++ "v"
  else if c.toNat < 32 ∨ c.toNat = 127 then
    backslash ++ "x" ++ String.mk [strconv.lowerhex (c.toNat / 16), strconv.lowerhex (c.toNat % 16)]
  else
    backslash ++ "u00" ++
      String.mk [strconv.lowerhex (c.toNat / 16), strconv.lowerhex (c.toNat % 16)]

/-- Go `strconv.Quote`. -/
def strconv.Quote (s : String) : String :=
  String.singleton (Char.ofNat 34) ++ String.join (s.toList.map strconv.quoteRune)
    ++ String.singleton (Char.ofNat 34)

/-- Go `err.Error()`. -/
def GoError.Error : GoError → String
  | .EOF => "EOF"
  | .New text => text
  | .NumError func num reason =>
    "strconv." ++ func ++ ": parsing " ++ strconv.Quote num ++ ": " ++ reason
  | .Wrap text inner => text ++ inner.Error

/-- Result of a Go function whose only result is an `error`.
`returned none` is `return nil`; `panicked` is a run-time panic; `running`
means the function has consumed every result its stream delivers and is still
inside its loop (it has not returned). -/
inductive Outcome where
  | returned (err : Option GoError)
  | panicked
  | running
  deriving DecidableEq, Repr

/-- Result of a Go function returning a value and an `error`. -/
inductive Res (α : Type) where
  | ok (a : α)
  | error (e : GoError)
  | panicked
  deriving DecidableEq, Repr

/-! ## `notification` package -/

namespace notification

/-- Go `NotificationType` (`iota` constants). -/
inductive NotificationType where
  | ActionToast
  | ActionNotification
  | ActionClipboard
  deriving DecidableEq, Repr

def Success : String := "success"
def Info : String := "info"
def Warning : String := "warning"
def Error : String := "error"

/-- Go struct `NewNotification`. -/
structure NewNotification where
  Id : String := ""
  User : String := ""
  Title : String := ""
  Type_ : String := ""
  Action : NotificationType := .ActionToast
  Description : String := ""
  Meta : List (String × String) := []
  CreatedAt : String := ""
  MarkRead : Bool := false
  deriving DecidableEq, Repr

/-- Go `MockNotifier.GenerateIdentifier`. -/
def MockNotifier.GenerateIdentifier : String :=
  "mock-notifier-94d9a4c7-9999-4055-a549-f51383edfe57"

/-- Go `MockNotifier.Notification`. -/
def MockNotifier.Notification (title description typez : String)
    (action : NotificationType) : NewNotification :=
  let identifier := MockNotifier.GenerateIdentifier
  { Id := identifier, Title := title, Description := description,
    Type_ := typez, Action := action }

end notification

open notification (NewNotification NotificationType)

/-! ## `emitter` package -/

namespace emitter

def ObjectAddUpdate : String := "object_add_update"
def ObjectRemoveUpdate : String := "object_remove_update"
def ObjectFailed : String := "object_failed"
def NotificationMessage : String := "notification_message"
def ProgressMessage : String := "progress_message"

end emitter

/-! ## `object` package: data -/

/-- Go struct `Object`; the `Attributes` map is an association list with
unique keys. -/
structure Object where
  ParentID : String := ""
  Name : String := ""
  Id : String := ""
  ContentType : String := ""
  Attributes : List (String × String) := []
  Size : Nat := 0
  CreatedAt : Int := 0
  deriving DecidableEq, Repr

/-- Go map assignment `m[k] = v`. -/
def mapSet (m : List (String × String)) (k v : String) : List (String × String) :=
  match m with
  | [] => [(k, v)]
  | (k0, v0) :: rest => if k0 = k then (k, v) :: rest else (k0, v0) :: mapSet rest k v

/-- Go map lookup `m[k]` with the comma-ok result. -/
def mapGet (m : List (String × String)) (k : String) : Option String :=
  match m with
  | [] => none
  | (k0, v0) :: rest => if k0 = k then some v0 else mapGet rest k

/-- The `bearer.Token` of the storage SDK, reduced to what the executor
observes: an identity and the result of `VerifySignature()`. -/
structure BearerTok where
  name : String
  VerifySignature : Bool
  deriving DecidableEq, Repr

/-- Modelled from the spec: the `tokens` package is not among the sources.  The
credential is "polymorphic over two variants", the delegated `*tokens.BearerToken`
and the session-scoped `*tokens.PrivateBearerToken`; the source reads the field
`BearerToken *bearer.Token` of both, which may be nil.  `other` is every other
value of the interface `tokens.Token`. -/
inductive Token where
  | BearerToken (inner : Option BearerTok)
  | PrivateBearerToken (inner : Option BearerTok)
  | other
  deriving DecidableEq, Repr

/-- The header `hdr` and options `opts` handed to `slicer.InitPut`. -/
structure PutRequest where
  ContainerID : String
  OwnerID : String
  CreationEpoch : Nat
  Attributes : List (String × String)
  ObjectPayloadLimit : Nat
  CurrentNeoFSEpoch : Nat
  BearerToken : BearerTok
  HomomorphicChecksum : Bool
  deriving DecidableEq, Repr

/-- Calls that leave the executor, in the order they are made. -/
inductive Effect where
  /-- `Pool.ObjectHead(ctx, cnrID, objID, gateSigner, prmHead)` -/
  | ObjectHead (cnr obj : String) (tok : BearerTok)
  /-- `Pool.ObjectSearchInit(ctx, cnrID, gateSigner, prmList)` -/
  | ObjectSearchInit (cnr : String) (tok : BearerTok)
  /-- `Pool.ObjectDelete(ctx, cnrID, objID, gateSigner, prmDelete)` -/
  | ObjectDelete (cnr obj : String) (tok : BearerTok)
  /-- `Pool.ObjectGetInit(ctx, cnrID, objID, gateSigner, getInit)` -/
  | ObjectGetInit (cnr obj : String) (tok : BearerTok)
  /-- `Pool.RawClient()` -/
  | RawClient
  /-- `sdkCli.NetworkInfo(ctx, ...)` -/
  | NetworkInfo
  /-- `slicer.InitPut(ctx, sdkCli, hdr, gateSigner, opts)` -/
  | InitPut (req : PutRequest)
  /-- `payloadWriter.Close()` -/
  | WriterClose
  /-- `p.Read(buf)` returning `n` -/
  | Read (n : Nat)
  /-- `p.Write(chunk)`; `remote` tells whether the sink is the remote payload writer -/
  | Write (remote : Bool) (chunk : List Nat)
  /-- `ObjectEmitter.Emit(ctx, topic, obj)` -/
  | Emit (topic : String) (obj : Object)
  /-- `actionChan <- n` -/
  | Send (n : NewNotification)
  deriving DecidableEq, Repr

/-- One result of the stream's `Read(buf)`: the `n = data.length` bytes it put
at the front of `buf`, and the error it returned. -/
structure ReadResult where
  data : List Nat
  err : Option GoError
  deriving DecidableEq, Repr

/-- The local duplex stream: the results its successive `Read` calls deliver
and the error each `Write` returns. -/
structure Stream where
  reads : List ReadResult
  write : List Effect → List Nat → Option GoError

/-- The object `hdr` answered by `Pool.ObjectHead`, by its accessors. -/
structure Header where
  ID : Option String
  PayloadSize : Nat
  Attributes : List (String × String)
  PayloadChecksum : String
  deriving DecidableEq, Repr

/-- The reader answered by `Pool.ObjectSearchInit`: the identifiers its stream
delivers and the error that ends the stream (`none` for a regular end). -/
structure SearchReader where
  ids : List String
  final : Option GoError
  deriving DecidableEq, Repr

/-- The answer of `sdkCli.NetworkInfo`, by its accessors. -/
structure NetInfo where
  MaxObjectSize : Nat
  CurrentEpoch : Nat
  HomomorphicHashingDisabled : Bool
  deriving DecidableEq, Repr

/-- The connection pool `*pool.Pool`, its raw client and the payload writer the
client opens, as oracles over the history. -/
structure Pool where
  ObjectHead : List Effect → String → String → BearerTok → Except GoError Header
  ObjectSearchInit : List Effect → String → BearerTok → Except GoError SearchReader
  ObjectDelete : List Effect → String → String → BearerTok → Option GoError
  ObjectGetInit : List Effect → String → String → BearerTok → Except GoError Header
  RawClient : List Effect → Option GoError
  NetworkInfo : List Effect → Except GoError NetInfo
  InitPut : List Effect → PutRequest → Option GoError
  WriterWrite : List Effect → List Nat → Option GoError
  WriterClose : List Effect → Option GoError
  WriterID : List Effect → String

/-- The gate account `*wallet.Account`. -/
structure Account where
  Address : String
  deriving DecidableEq, Repr

/-- Dynamic type of the field `ReadWriter io.ReadWriter`. -/
inductive ReadWriterValue where
  | DualStream (ds : Stream)
  | other (s : Stream)

/-- Dynamic type of the field `WriteCloser io.WriteCloser`. -/
inductive WriteCloserValue where
  | nil
  | PayloadWriter
  | other
  deriving DecidableEq, Repr

/-- Go struct `ObjectParameter`. -/
structure ObjectParameter where
  ContainerId : String
  Id : String
  Description : String
  PublicKey : String
  GateAccount : Option Account
  Pl : Pool
  ReadWriter : ReadWriterValue
  WriteCloser : WriteCloserValue
  ObjectEmitter : List Effect → String → Object → Option GoError
  Attrs : List (String × String)
  ActionOperation : Nat
  ExpiryEpoch : Nat

namespace ObjectParameter

def Name (o : ObjectParameter) : String := o.Description
def Operation (o : ObjectParameter) : Nat := o.ActionOperation
def Epoch (o : ObjectParameter) : Nat := o.ExpiryEpoch
def ParentID (o : ObjectParameter) : String := o.ContainerId
def ID (o : ObjectParameter) : String := o.Id
def Pool (o : ObjectParameter) : Pool := o.Pl
def Attributes (o : ObjectParameter) : List (String × String) := o.Attrs

def ForUser (o : ObjectParameter) : Except GoError Account :=
  match o.GateAccount with
  | some gA => .ok gA
  | none => .error (.New "no gate wallet for object")

end ObjectParameter

/-- Any implementation of `payload.Parameters` other than `ObjectParameter`,
by the results of the methods the executor calls. -/
structure ForeignParameters where
  ID : String
  ParentID : String
  ForUser : Except GoError Account
  Pool : Pool
  stream : Stream

/-- The interface value `p payload.Parameters`. -/
inductive Parameters where
  | ObjectParameter (params : ObjectParameter)
  | other (f : ForeignParameters)

namespace Parameters

def ID : Parameters → String
  | .ObjectParameter o => o.ID
  | .other f => f.ID

def ParentID : Parameters → String
  | .ObjectParameter o => o.ParentID
  | .other f => f.ParentID

def ForUser : Parameters → Except GoError Account
  | .ObjectParameter o => o.ForUser
  | .other f => f.ForUser

def Pool : Parameters → Pool
  | .ObjectParameter o => o.Pool
  | .other f => f.Pool

/-- The stream behind `p.Read` and `p.Write`. -/
def stream : Parameters → Stream
  | .ObjectParameter o =>
    match o.ReadWriter with
    | .DualStream ds => ds
    | .other s => s
  | .other f => f.stream

end Parameters

/-- What the package takes from outside the repository's sources: identifier
decoding of the storage SDK (the result is the decoded identifier in its
`String()` form), the clock, and the message constants of the `utils` package. -/
structure Env where
  oidDecodeString : String → Except GoError String
  cidDecodeString : String → Except GoError String
  nowUnix : Int
  ErrorNoToken : String
  ErrorNoID : String

/-- Go struct `ObjectCaller`: the embedded `notification.Notifier`, by its
method `Notification`. -/
structure ObjectCaller where
  Notification : String → String → String → NotificationType → NewNotification

def payloadChecksumHeader : String := "payload_checksum"
def payloadFileType : String := "filetype"

/-- Attribute keys of the storage SDK (`object.Attribute...`). -/
def AttributeTimestamp : String := "Timestamp"
def AttributeContentType : String := "Content-Type"
def AttributeFileName : String := "FileName"
def AttributeExpirationEpoch : String := "__NEOFS__EXPIRATION_EPOCH"
def AttributeFilePath : String := "FilePath"

/-- Go `time.Time{}.Unix()`. -/
def zeroTimeUnix : Int := -62135596800

/-! ## `strconv.ParseInt(s, 10, 64)` -/

namespace strconv

def maxUint64 : Nat := 2 ^ 64 - 1

/-- The digit loop of `ParseUint(s, 10, 64)`: `none` is a syntax error,
`some none` a range error. -/
def parseUintLoop : List Char → Nat → Option (Option Nat)
  | [], n => some (some n)
  | c :: cs, n =>
    if 48 ≤ c.toNat ∧ c.toNat ≤ 57 then
      let d := c.toNat - 48
      if n ≥ maxUint64 / 10 + 1 then some none
      else
        let n1 := n * 10 + d
        if n1 > maxUint64 then some none else parseUintLoop cs n1
    else none

/-- Go `strconv.ParseInt(s, 10, 64)`. -/
def ParseInt (s : String) : Except GoError Int :=
  match s.data with
  | [] => .error (.NumError "ParseInt" s "invalid syntax")
  | c :: cs =>
    let neg := c = '-'
    let digits := if c = '+' ∨ c = '-' then cs else c :: cs
    match digits with
    | [] => .error (.NumError "ParseInt" s "invalid syntax")
    | _ =>
      match parseUintLoop digits 0 with
      | none => .error (.NumError "ParseInt" s "invalid syntax")
      | some r =>
        let un := r.getD maxUint64
        let cutoff := 2 ^ 63
        if ¬ neg ∧ un ≥ cutoff then .error (.NumError "ParseInt" s "value out of range")
        else if neg ∧ un > cutoff then .error (.NumError "ParseInt" s "value out of range")
        else .ok (if neg then - (un : Int) else (un : Int))

end strconv

/-! ## `object` package: operations -/

/-- The credential test written out in `Head`, `InitReader`, `InitWriter` and
`Create`: `token.(*tokens.BearerToken)`, else `token.(*tokens.PrivateBearerToken)`,
else the error; the token held by the wrapper is then dereferenced. -/
def bearerOrPrivate (token : Token) (noToken : String) : Res BearerTok :=
  match token with
  | .BearerToken (some tok) => .ok tok
  | .BearerToken none => .panicked
  | .PrivateBearerToken (some tok) => .ok tok
  | .PrivateBearerToken none => .panicked
  | .other => .error (.New noToken)

/-- The credential test written out in `Delete` and `List`:
`token.(*tokens.BearerToken)`, else the error. -/
def bearerOnly (token : Token) : Res BearerTok :=
  match token with
  | .BearerToken (some tok) => .ok tok
  | .BearerToken none => .panicked
  | _ => .error (.New "no bearer token provided")

/-- The attribute loop of `Head` (`for _, v := range hdr.Attributes()`). -/
def Head.attributes : List (String × String) → Object → Except GoError Object
  | [], localObject => .ok localObject
  | (k, v) :: rest, localObject =>
    if k = AttributeTimestamp then
      match strconv.ParseInt v with
      | .error err => .error err
      | .ok timestampInt =>
        Head.attributes rest
          { localObject with CreatedAt := timestampInt,
                             Attributes := mapSet localObject.Attributes k v }
    else if k = AttributeContentType then
      Head.attributes rest
        { localObject with ContentType := v, Attributes := mapSet localObject.Attributes k v }
    else if k = AttributeFileName then
      Head.attributes rest
        { localObject with Name := v, Attributes := mapSet localObject.Attributes k v }
    else if k = AttributeExpirationEpoch then
      -- nothing yet
      Head.attributes rest { localObject with Attributes := mapSet localObject.Attributes k v }
    else if k = AttributeFilePath then
      -- nothing yet
      Head.attributes rest { localObject with Attributes := mapSet localObject.Attributes k v }
    else
      Head.attributes rest { localObject with Attributes := mapSet localObject.Attributes k v }

/-- Go `(*ObjectCaller).Head`. -/
def ObjectCaller.Head (env : Env) (_o : ObjectCaller) (p : Parameters) (token : Token)
    (tr : List Effect) : Outcome × List Effect :=
  match env.oidDecodeString p.ID with
  | .error err => (.returned (some err), tr)
  | .ok objID =>
  match env.cidDecodeString p.ParentID with
  | .error err => (.returned (some err), tr)
  | .ok cnrID =>
  match p.ForUser with
  | .error err => (.returned (some err), tr)
  | .ok _gA =>
  match bearerOrPrivate token env.ErrorNoToken with
  | .error err => (.returned (some err), tr)
  | .panicked => (.panicked, tr)
  | .ok tok =>
  match p with
  | .other _ => (.panicked, tr)              -- `p.(ObjectParameter)` inside `fmt.Println`
  | .ObjectParameter params =>
  let tr1 := tr ++ [Effect.ObjectHead cnrID objID tok]
  match p.Pool.ObjectHead tr cnrID objID tok with
  | .error err => (.returned (some err), tr1)
  | .ok hdr =>
  match hdr.ID with
  | none => (.returned (some (.New env.ErrorNoID)), tr1)
  | some id =>
  let localObject : Object :=
    { ParentID := cnrID, Id := id, Size := hdr.PayloadSize, CreatedAt := zeroTimeUnix,
      Attributes := [] }
  match Head.attributes hdr.Attributes localObject with
  | .error err => (.returned (some err), tr1)
  | .ok localObject =>
  let localObject : Object :=
    { localObject with
      Attributes := mapSet localObject.Attributes payloadChecksumHeader hdr.PayloadChecksum }
  (.returned (params.ObjectEmitter tr1 emitter.ObjectAddUpdate localObject),
    tr1 ++ [Effect.Emit emitter.ObjectAddUpdate localObject])

/-- Go `(*ObjectCaller).Delete`. -/
def ObjectCaller.Delete (env : Env) (o : ObjectCaller) (p : Parameters) (token : Token)
    (tr : List Effect) : Outcome × List Effect :=
  match env.oidDecodeString p.ID with
  | .error err => (.returned (some err), tr)
  | .ok objID =>
  match env.cidDecodeString p.ParentID with
  | .error err => (.returned (some err), tr)
  | .ok cnrID =>
  match p.ForUser with
  | .error err => (.returned (some err), tr)
  | .ok _gA =>
  match p with
  | .other _ => (.returned (some (.New "no object parameters")), tr)
  | .ObjectParameter _params =>
  match bearerOnly token with
  | .error err => (.returned (some err), tr)
  | .panicked => (.panicked, tr)
  | .ok tok =>
  let tr1 := tr ++ [Effect.ObjectDelete cnrID objID tok]
  match p.Pool.ObjectDelete tr cnrID objID tok with
  | some err =>
    (.returned (some err),
      tr1 ++ [Effect.Send (o.Notification "delete failed"
        ("object " ++ p.ID ++ " failed to delete " ++ err.Error)
        notification.Success .ActionNotification)])
  | none =>
    let localObject : Object := { ParentID := p.ParentID, Id := p.ID }
    let tr2 := tr1 ++ [Effect.Emit emitter.ObjectRemoveUpdate localObject]
    (.returned none,
      tr2 ++ [Effect.Send (o.Notification "delete complete"
        ("object " ++ p.ID ++ " deleted")
        notification.Success .ActionNotification)])

/-- The call `init.Iterate(func(id oid.ID) bool {...})` of `List`, with the
closure of the source inlined: for each identifier the stream delivers the
closure calls `o.Head(wg, ctx, p, actionChan, token)` and returns `true`
(stop) after recording the error when it fails.  The result is the value of
`iterationError` once `Iterate` has returned `final`. -/
def ListObjects.iterate (env : Env) (o : ObjectCaller) (p : Parameters) (token : Token)
    (final : Option GoError) : List String → List Effect → Outcome × List Effect
  | [], tr => (.returned final, tr)
  | _id :: rest, tr =>
    match ObjectCaller.Head env o p token tr with
    | (.returned none, tr1) => ListObjects.iterate env o p token final rest tr1
    | (.returned (some metaError), tr1) => (.returned (some metaError), tr1)
    | (out, tr1) => (out, tr1)

/-- Go `(*ObjectCaller).List`. -/
def ObjectCaller.ListObjects (env : Env) (o : ObjectCaller) (p : Parameters) (token : Token)
    (tr : List Effect) : Outcome × List Effect :=
  match env.cidDecodeString p.ParentID with
  | .error err => (.returned (some err), tr)
  | .ok cnrID =>
  match p.ForUser with
  | .error err => (.returned (some err), tr)
  | .ok _gA =>
  match bearerOnly token with
  | .error err => (.returned (some err), tr)
  | .panicked => (.panicked, tr)
  | .ok tok =>
  let tr1 := tr ++ [Effect.ObjectSearchInit cnrID tok]
  match p.Pool.ObjectSearchInit tr cnrID tok with
  | .error err => (.returned (some err), tr1)
  | .ok init => ListObjects.iterate env o p token init.final init.ids tr1

/-- Go `InitReader`. -/
def InitReader (env : Env) (params : ObjectParameter) (token : Token)
    (tr : List Effect) : Res Header × List Effect :=
  match env.oidDecodeString params.ID with
  | .error err => (.error err, tr)
  | .ok objID =>
  match env.cidDecodeString params.ParentID with
  | .error err => (.error err, tr)
  | .ok cnrID =>
  match params.ForUser with
  | .error err => (.error err, tr)
  | .ok _gA =>
  match bearerOrPrivate token "no bearer token provided" with
  | .error err => (.error err, tr)
  | .panicked => (.panicked, tr)
  | .ok tok =>
  let tr1 := tr ++ [Effect.ObjectGetInit cnrID objID tok]
  match params.Pool.ObjectGetInit tr cnrID objID tok with
  | .error err => (.error err, tr1)
  | .ok dstObject => (.ok dstObject, tr1)

/-- Go `make([]byte, 1024)`. -/
def newBuf : List Nat := List.replicate 1024 0

/-- The buffer after a `Read` that put `data` at its front. -/
def fillBuf (buf data : List Nat) : List Nat := data ++ buf.drop data.length

/-- The `for` loop of `Read` (lines 370-400) followed by its `return nil`.
`id` is `p.ID()`, `write` is `p.Write`; the head of the list is the result of
the next `p.Read(buf)`.  The slice `buf[:n]` panics when `n` exceeds the
capacity of the buffer. -/
def Read.loop (o : ObjectCaller) (id : String) (write : List Effect → List Nat → Option GoError) :
    List ReadResult → List Nat → List Effect → Outcome × List Effect
  | [], _, tr => (.running, tr)
  | r :: rest, buf, tr =>
    let n := r.data.length
    let tr1 := tr ++ [Effect.Read n]
    if buf.length < n then (.panicked, tr1)
    else
      let buf1 := fillBuf buf r.data
      let chunk := buf1.take n
      let w : Option GoError × List Effect :=
        if 0 < n then (write tr1 chunk, tr1 ++ [Effect.Write false chunk]) else (none, tr1)
      match w with
      | (some err, tr2) =>
        (.returned (some err),
          tr2 ++ [Effect.Send (o.Notification "failed to write to buffer" err.Error
            notification.Error .ActionNotification)])
      | (none, tr2) =>
        match r.err with
        | none => Read.loop o id write rest buf1 tr2
        | some .EOF =>
          (.returned none,
            tr2 ++ [Effect.Send (o.Notification "download complete!"
              ("object " ++ id ++ " completed") notification.Success .ActionNotification)])
        | some err =>
          (.returned (some err),
            tr2 ++ [Effect.Send (o.Notification "error" err.Error
              notification.Error .ActionNotification)])

/-- Go `ObjectCaller.Read`. -/
def ObjectCaller.Read (o : ObjectCaller) (p : Parameters) (_token : Token)
    (tr : List Effect) : Outcome × List Effect :=
  Read.loop o p.ID p.stream.write p.stream.reads newBuf tr

/-- Go `InitWriter`.  The second component is `*p` after the call. -/
def InitWriter (env : Env) (p : ObjectParameter) (token : Token)
    (tr : List Effect) : Res WriteCloserValue × ObjectParameter × List Effect :=
  match env.cidDecodeString p.ParentID with
  | .error err => (.error err, p, tr)
  | .ok cnrID =>
  match p.ForUser with
  | .error err => (.error err, p, tr)
  | .ok _gA =>
  let tr1 := tr ++ [Effect.RawClient]
  match p.Pool.RawClient tr with
  | some err => (.error err, p, tr1)
  | none =>
  let userID := p.PublicKey
  let tr2 := tr1 ++ [Effect.NetworkInfo]
  match p.Pool.NetworkInfo tr1 with
  | .error err => (.error (.Wrap "network info: " err), p, tr2)
  | .ok ni =>
  match bearerOrPrivate token "no bearer token provided" with
  | .error err => (.error err, p, tr2)
  | .panicked => (.panicked, p, tr2)
  | .ok bearerToken =>
  let timestampAttr : String × String := (AttributeTimestamp, toString env.nowUnix)
  let p1 : ObjectParameter := { p with Attrs := p.Attrs ++ [timestampAttr] }
  let req : PutRequest :=
    { ContainerID := cnrID, OwnerID := userID, CreationEpoch := ni.CurrentEpoch,
      Attributes := p1.Attrs, ObjectPayloadLimit := ni.MaxObjectSize,
      CurrentNeoFSEpoch := ni.CurrentEpoch, BearerToken := bearerToken,
      HomomorphicChecksum := !ni.HomomorphicHashingDisabled }
  let tr3 := tr2 ++ [Effect.InitPut req]
  match p.Pool.InitPut tr2 req with
  | some err => (.error err, p1, tr3)
  | none => (.ok .PayloadWriter, { p1 with WriteCloser := .PayloadWriter }, tr3)

/-- The `for` loop of `Create` (lines 495-520).  `none` is the `break` on
end-of-stream; `remote` tells whether `p.Write` reaches the payload writer. -/
def Create.loop (o : ObjectCaller) (write : List Effect → List Nat → Option GoError)
    (remote : Bool) :
    List ReadResult → List Nat → List Effect → Option Outcome × List Effect
  | [], _, tr => (some .running, tr)
  | r :: rest, buf, tr =>
    let n := r.data.length
    let tr1 := tr ++ [Effect.Read n]
    if buf.length < n then (some .panicked, tr1)
    else
      let buf1 := fillBuf buf r.data
      let chunk := buf1.take n
      let w : Option GoError × List Effect :=
        if 0 < n then (write tr1 chunk, tr1 ++ [Effect.Write remote chunk]) else (none, tr1)
      match w with
      | (some err, tr2) =>
        (some (.returned (some err)),
          tr2 ++ [Effect.Send (o.Notification "failed to write to buffer" err.Error
            notification.Error .ActionNotification)])
      | (none, tr2) =>
        match r.err with
        | none => Create.loop o write remote rest buf1 tr2
        | some .EOF => (none, tr2)
        | some err =>
          (some (.returned (some err)),
            tr2 ++ [Effect.Send (o.Notification "error" err.Error
              notification.Error .ActionNotification)])

/-- Lines 522-578 of `Create`: what follows the transfer loop.  `objectParameters`
is `none` when the type assertion of line 479 failed (the variable then holds
the zero value, whose `WriteCloser` is nil). -/
def Create.finish (o : ObjectCaller) (p : Parameters) (objectParameters : Option ObjectParameter)
    (token : Token) (tr : List Effect) : Outcome × List Effect :=
  match bearerOrPrivate token "no bearer token provided" with
  | .error err => (.returned (some err), tr)
  | .panicked => (.panicked, tr)
  | .ok bearerToken =>
  if !bearerToken.VerifySignature then
    (.returned (some (.New "TOKEN IS NOT VERIFIED!!!!")), tr)
  else
    let uploadFailed : Outcome × List Effect :=
      (.returned (some (.New "could retriever the writer.")),
        tr ++ [Effect.Send (o.Notification "upload failed"
          ("object " ++ p.ID ++ " failed to upload") notification.Error .ActionNotification)])
    match objectParameters with
    | none => uploadFailed
    | some objectParameters =>
    match objectParameters.WriteCloser with
    | .nil => uploadFailed
    | .other => uploadFailed
    | .PayloadWriter =>
      let tr1 := tr ++ [Effect.WriterClose]
      match objectParameters.Pl.WriterClose tr with
      | some err => (.returned (some err), tr1)
      | none =>
        let objectParameters : ObjectParameter :=
          { objectParameters with Id := objectParameters.Pl.WriterID tr1 }
        let localObject : Object :=
          { ParentID := p.ParentID, Id := objectParameters.Pl.WriterID tr1 }
        let tr2 := tr1 ++ [Effect.Emit emitter.ObjectAddUpdate localObject]
        (.returned none,
          tr2 ++ [Effect.Send (o.Notification "upload complete!"
            ("object " ++ objectParameters.Id ++ " completed")
            notification.Success .ActionNotification)])

/-- Lines 493-578 of `Create`: the transfer loop and what follows it. -/
def Create.transfer (o : ObjectCaller) (p : Parameters) (objectParameters : Option ObjectParameter)
    (s : Stream) (remote : Bool) (token : Token) (tr : List Effect) : Outcome × List Effect :=
  match Create.loop o s.write remote s.reads newBuf tr with
  | (some out, tr1) => (out, tr1)
  | (none, tr1) => Create.finish o p objectParameters token tr1

/-- Go `ObjectCaller.Create`. -/
def ObjectCaller.Create (env : Env) (o : ObjectCaller) (p : Parameters) (token : Token)
    (tr : List Effect) : Outcome × List Effect :=
  match p with
  | .ObjectParameter params =>
    match InitWriter env params token tr with
    | (.error err, _, tr1) => (.returned (some err), tr1)
    | (.panicked, _, tr1) => (.panicked, tr1)
    | (.ok _objectWriteCloser, objectParameters, tr1) =>
      match objectParameters.ReadWriter with
      | .DualStream ds =>
        -- `ds.Writer = objectWriteCloser`
        Create.transfer o p (some objectParameters)
          { reads := ds.reads, write := objectParameters.Pl.WriterWrite } true token tr1
      | .other _ => (.returned none, tr1)      -- `return err` with `err == nil`
  | .other f => Create.transfer o p none f.stream false token tr

/-! ## Reading a history -/

/-- The chunks passed to `Write`, in call order. -/
def writesOf : List Effect → List (List Nat)
  | [] => []
  | .Write _ chunk :: rest => chunk :: writesOf rest
  | _ :: rest => writesOf rest

/-- The records sent on the action channel, in order. -/
def sendsOf : List Effect → List NewNotification
  | [] => []
  | .Send n :: rest => n :: sendsOf rest
  | _ :: rest => sendsOf rest

/-- The calls of the event emitter, in order. -/
def emitsOf : List Effect → List (String × Object)
  | [] => []
  | .Emit topic obj :: rest => (topic, obj) :: emitsOf rest
  | _ :: rest => emitsOf rest

/-- The calls that go to the remote network: the pool's object calls, the
network-info query, opening the payload writer, and writing to or closing it. -/
def Effect.isNetwork : Effect → Bool
  | .ObjectHead _ _ _ => true
  | .ObjectSearchInit _ _ => true
  | .ObjectDelete _ _ _ => true
  | .ObjectGetInit _ _ _ => true
  | .NetworkInfo => true
  | .InitPut _ => true
  | .WriterClose => true
  | .Write remote _ => remote
  | _ => false

/-- What the claims say the chunked transfer does with a list of read results:
one `Read` per result, followed by one `Write` of exactly the bytes read when
there are any. -/
def transferEffects (remote : Bool) : List ReadResult → List Effect
  | [] => []
  | r :: rest =>
    (if r.data = [] then [Effect.Read 0]
     else [Effect.Read r.data.length, Effect.Write remote r.data])
      ++ transferEffects remote rest

/-! ## Concrete collaborators used by the examples -/

/-- The caller whose notifier is the repository's `MockNotifier`. -/
def mockCaller : ObjectCaller := { Notification := notification.MockNotifier.Notification }

/-- A stand-in for `DecodeString`: the empty string and strings containing `!`
do not decode. -/
def demoDecode (s : String) : Except GoError String :=
  if s.data = [] ∨ '!' ∈ s.data then .error (.New "decode: invalid identifier") else .ok s

def demoEnv : Env :=
  { oidDecodeString := demoDecode, cidDecodeString := demoDecode, nowUnix := 1700000000,
    ErrorNoToken := "no token", ErrorNoID := "no id" }

def demoTok : BearerTok := { name := "delegated", VerifySignature := true }

/-- A remote on which every call succeeds; a search finds the objects `A` and `B`. -/
def demoPool : Pool :=
  { ObjectHead := fun _ _ obj _ =>
      .ok { ID := some obj, PayloadSize := 3, Attributes := [], PayloadChecksum := "SHA256:00" }
    ObjectSearchInit := fun _ _ _ => .ok { ids := ["A", "B"], final := none }
    ObjectDelete := fun _ _ _ _ => none
    ObjectGetInit := fun _ _ obj _ =>
      .ok { ID := some obj, PayloadSize := 3, Attributes := [], PayloadChecksum := "SHA256:00" }
    RawClient := fun _ => none
    NetworkInfo := fun _ =>
      .ok { MaxObjectSize := 4096, CurrentEpoch := 7, HomomorphicHashingDisabled := true }
    InitPut := fun _ _ => none
    WriterWrite := fun _ _ => none
    WriterClose := fun _ => none
    WriterID := fun _ => "NEW" }

/-- A remote that refuses every delete. -/
def refusingPool : Pool :=
  { demoPool with ObjectDelete := fun _ _ _ _ => some (.New "object not found") }

/-- A stream that delivers `[1, 2, 3]`, then nothing, then `[4]` with
end-of-stream, and accepts every write. -/
def demoStream : Stream :=
  { reads := [⟨[1, 2, 3], none⟩, ⟨[], none⟩, ⟨[4], some .EOF⟩], write := fun _ _ => none }

/-- Parameters for object `X` of container `C` on the given pool. -/
def demoParams (pl : Pool) (id : String) (rw : ReadWriterValue) : ObjectParameter :=
  { ContainerId := "C", Id := id, Description := "demo", PublicKey := "owner",
    GateAccount := some { Address := "gate" }, Pl := pl, ReadWriter := rw,
    WriteCloser := .nil, ObjectEmitter := fun _ _ _ => none, Attrs := [],
    ActionOperation := 0, ExpiryEpoch := 0 }

/-! ## `pool` package -/

/-- Go `TokenExpiryValue`; `currentEpoch + roughEpochs` is `uint64` addition. -/
def TokenExpiryValue (pl : Pool) (roughEpochs : Nat) (tr : List Effect) :
    (Nat × Nat × Option GoError) × List Effect :=
  let tr1 := tr ++ [Effect.NetworkInfo]
  match pl.NetworkInfo tr with
  | .error err => ((0, 0, some err), tr1)
  | .ok info =>
    let currentEpoch := info.CurrentEpoch
    let expire := (currentEpoch + roughEpochs) % 2 ^ 64
    ((currentEpoch, expire, none), tr1)

/-! ## `notification` package: the persisting emitter -/

namespace notification

/-- One call `DB.Create(bucket, key, value)` of the persistence store. -/
structure StoreCall where
  bucket : String
  key : String
  value : String
  deriving DecidableEq, Repr

/-- The interface `database.Store`, by its method `Create`, as an oracle over
the calls made so far. -/
structure Store where
  Create : List StoreCall → String → String → String → Option GoError

/-- Dynamic type of the payload `p any` handed to `Emit`. -/
inductive Payload where
  | NewNotification (n : NewNotification)
  | Object (o : Object)
  | other

/-- What `Emit` takes from outside the repository's sources: the bucket name of
the `database` package, the message constants of the `utils` package, and
`json.Marshal` on a `NewNotification`. -/
structure EmitEnv where
  NotificationBucket : String
  ErrorNoNotification : String
  ErrorNoDatabase : String
  Marshal : NewNotification → Except GoError String

/-- Go struct `MockNotificationEvent`; a nil `DB` is `none`. -/
structure MockNotificationEvent where
  Name : String
  DB : Option Store

/-- Go `MockNotificationEvent.Emit`. -/
def MockNotificationEvent.Emit (env : EmitEnv) (m : MockNotificationEvent) (_message : String)
    (p : Payload) (calls : List StoreCall) : Option GoError × List StoreCall :=
  match p with
  | .NewNotification actualPayload =>
    match m.DB with
    | none => (some (.New env.ErrorNoDatabase), calls)
    | some db =>
      match env.Marshal actualPayload with
      | .error err => (some err, calls)
      | .ok byt =>
        -- `if m.DB != nil` holds here
        match db.Create calls env.NotificationBucket actualPayload.Id byt with
        | some err => (some err, calls ++ [⟨env.NotificationBucket, actualPayload.Id, byt⟩])
        | none => (none, calls ++ [⟨env.NotificationBucket, actualPayload.Id, byt⟩])
  | _ => (some (.New env.ErrorNoNotification), calls)

end notification

/-! ## Reading an attribute list -/

/-- The value of the last occurrence of key `k` in an attribute list. -/
def lastValue : List (String × String) → String → Option String
  | [], _ => none
  | (k0, v0) :: rest, k =>
    match lastValue rest k with
    | some v => some v
    | none => if k0 = k then some v0 else none

/-- The number written by a list of decimal digits, continuing from `acc`;
`none` when a character is not one of `0`..`9`. -/
def digitsValue : List Char → Nat → Option Nat
  | [], acc => some acc
  | c :: cs, acc =>
    if 48 ≤ c.toNat ∧ c.toNat ≤ 57 then digitsValue cs (acc * 10 + (c.toNat - 48)) else none

/-- The integer a string denotes as a decimal integer: an optional sign
followed by at least one decimal digit. -/
def decimalValue (s : String) : Option Int :=
  match s.data with
  | [] => none
  | c :: cs =>
    if c = '-' then
      (if cs = [] then none else (digitsValue cs 0).map (fun (u : Nat) => - (u : Int)))
    else if c = '+' then
      (if cs = [] then none else (digitsValue cs 0).map (fun (u : Nat) => (u : Int)))
    else (digitsValue (c :: cs) 0).map (fun (u : Nat) => (u : Int))

/-- The number of `payloadWriter.Close()` calls in a history. -/
def closesOf : List Effect → Nat
  | [] => 0
  | .WriterClose :: rest => closesOf rest + 1
  | _ :: rest => closesOf rest

/-! ## `notification` package: the dispatch

The channel, the context and the listener goroutine of a `MockNotifier` are a
state, and what the Go scheduler decides (which `select` case fires, when the
producer runs) is a list of steps.  Channel operations follow the language:
a send on a closed channel and the close of a closed channel panic, a receive
from a closed channel yields `!ok`, an unbuffered send is handed over at the
matching receive. -/

namespace notification

/-- Go struct `MockNotifier`, by the embedded `emitter.Emitter`: an oracle over
the calls of `Emit` made so far.  Channel and context are in `DispatchState`. -/
structure MockNotifier where
  Emit : List (String × NewNotification) → String → NewNotification → Option GoError

/-- The goroutine started by `ListenAndEmit`. -/
inductive ListenerState where
  | notStarted
  | running
  | ended
  deriving DecidableEq, Repr

/-- State of one dispatch: `closed` tells whether `notificationCh` has been
closed, `cancelled` whether `ctx.Done()` is closed, `sending` holds the records
of the `QueueNotification` calls blocked in their send (oldest first), and
`emitted` the calls `m.Emit(m.ctx, topic, record)` made by the listener. -/
structure DispatchState where
  closed : Bool
  cancelled : Bool
  sending : List NewNotification
  listener : ListenerState
  emitted : List (String × NewNotification)
  deriving DecidableEq, Repr

/-- How a call on the notifier ends: it returns, it panics, or it stays
blocked in a channel operation. -/
inductive CallResult where
  | returned
  | panicked
  | blocked
  deriving DecidableEq, Repr

/-- Go `NewMockNotifier`: a fresh open channel; `cancelled` tells whether the
context handed in is already cancelled. -/
def NewMockNotifier (cancelled : Bool) : DispatchState :=
  { closed := false, cancelled := cancelled, sending := [], listener := .notStarted,
    emitted := [] }

/-- Go `MockNotifier.End`: `m.cancelFunc()`, then the deferred
`close(m.notificationCh)`.  The close makes every send blocked on the channel
panic, so the records of those sends never enter the channel. -/
def MockNotifier.End (s : DispatchState) : CallResult × DispatchState :=
  let s1 := { s with cancelled := true }
  if s1.closed then (.panicked, s1)
  else (.returned, { s1 with closed := true, sending := [] })

/-- Go `MockNotifier.QueueNotification`: `m.notificationCh <- notification`.
On an open channel the call stays blocked in the send until the listener
receives the record. -/
def MockNotifier.QueueNotification (s : DispatchState) (notification : NewNotification) :
    CallResult × DispatchState :=
  if s.closed then (.panicked, s)
  else (.blocked, { s with sending := s.sending ++ [notification] })

/-- The cases of the `select` in the listener. -/
inductive SelectCase where
  | notification
  | ticker
  | done
  deriving DecidableEq, Repr

/-- One iteration of the `for { select {...} }` of the listener goroutine, for
the case the scheduler picks.  A case that is not ready leaves the state as it
is. -/
def ListenAndEmit.iteration (m : MockNotifier) (c : SelectCase) (s : DispatchState) :
    DispatchState :=
  match s.listener with
  | .running =>
    match c with
    | .notification =>
      if s.closed then { s with listener := .ended }
      else
        match s.sending with
        | [] => s
        | not :: rest =>
          let emitted := s.emitted ++ [(emitter.NotificationMessage, not)]
          match m.Emit s.emitted emitter.NotificationMessage not with
          | some _ => { s with sending := rest, emitted := emitted, listener := .ended }
          | none => { s with sending := rest, emitted := emitted }
    | .ticker => s
    | .done => if s.cancelled then { s with listener := .ended } else s
  | _ => s

/-- Go `MockNotifier.ListenAndEmit`: `m.wg.Add(1)` and the start of the
listener goroutine. -/
def MockNotifier.ListenAndEmit (s : DispatchState) : DispatchState :=
  { s with listener := .running }

/-- What can happen next in a dispatch with a single producer: the producer
calls `QueueNotification` with its next record, the listener runs one `select`
iteration, the context is cancelled from outside, or `End` is called. -/
inductive Step where
  | queue
  | select (c : SelectCase)
  | cancel
  | endCall
  deriving DecidableEq, Repr

/-- One step of the dispatch together with its single producer; the second
component lists the records the producer has still to queue. -/
def step (m : MockNotifier) (st : Step) (x : DispatchState × List NewNotification) :
    DispatchState × List NewNotification :=
  match st with
  | .queue =>
    match x.2 with
    | [] => x
    | n :: rest =>
      match x.1.sending with
      | _ :: _ => x                          -- still blocked in its previous send
      | [] =>
        match MockNotifier.QueueNotification x.1 n with
        | (.panicked, s1) => (s1, [])        -- the producer has panicked
        | (_, s1) => (s1, rest)
  | .select c => (ListenAndEmit.iteration m c x.1, x.2)
  | .cancel => ({ x.1 with cancelled := true }, x.2)
  | .endCall =>
    match x.1.closed, x.1.sending with
    | false, _ :: _ => ((MockNotifier.End x.1).2, [])   -- the blocked producer panics
    | _, _ => ((MockNotifier.End x.1).2, x.2)

/-- A sequence of steps. -/
def run (m : MockNotifier) : List Step → DispatchState × List NewNotification →
    DispatchState × List NewNotification
  | [], x => x
  | st :: rest, x => run m rest (step m st x)

/-- The invariant of a dispatch whose single producer set out to queue
`records`: the records handed to the emitter, then those blocked in their
send, then those still to be queued make up `records` in order (a producer that
panicked on the closed channel has dropped the rest of them); every call of
the emitter is on the notification topic; and a listener that has ended saw
the context cancelled, or the channel closed, or its last `Emit` fail. -/
def DispatchInv (m : MockNotifier) (records : List NewNotification)
    (x : DispatchState × List NewNotification) : Prop :=
  (∃ dropped, records = x.1.emitted.map (·.2) ++ x.1.sending ++ x.2 ++ dropped
      ∧ (x.1.closed = false → dropped = []))
  ∧ (∀ c ∈ x.1.emitted, c.1 = emitter.NotificationMessage)
  ∧ (x.1.listener = .ended →
      x.1.cancelled = true ∨ x.1.closed = true
      ∨ ∃ pre n e, x.1.emitted = pre ++ [(emitter.NotificationMessage, n)]
          ∧ m.Emit pre emitter.NotificationMessage n = some e)

/-- The schedule in which the producer queues a record and the listener
receives it at once, record after record. -/
def handOver : List NewNotification → List Step
  | [] => []
  | _ :: rest => Step.queue :: Step.select .notification :: handOver rest

end notification

/-! ## More concrete collaborators -/

/-- A pool whose header for any object carries the given attributes. -/
def headerPool (attrs : List (String × String)) : Pool :=
  { demoPool with
    ObjectHead := fun _ _ obj _ =>
      .ok { ID := some obj, PayloadSize := 3, Attributes := attrs,
            PayloadChecksum := "SHA256:00" } }

def unverifiedTok : BearerTok := { name := "forged", VerifySignature := false }

def demoNotification (title : String) : NewNotification :=
  notification.MockNotifier.Notification title "" notification.Info .ActionToast

/-- A store that accepts everything, and a serialisation standing for
`json.Marshal`. -/
def demoStore : notification.Store := { Create := fun _ _ _ _ => none }

def demoEmitEnv : notification.EmitEnv :=
  { NotificationBucket := "notifications", ErrorNoNotification := "no notification",
    ErrorNoDatabase := "no database",
    Marshal := fun n => .ok ("json:" ++ n.Id ++ ":" ++ n.Title) }

/-- A notifier whose emitter accepts everything. -/
def demoNotifier : notification.MockNotifier := { Emit := fun _ _ _ => none }

/-! ## The writes of a transfer -/

/-- Tells whether every `Write` the chunked transfer makes for the reads `pre`,
starting at history `tr`, succeeds. -/
def writesAccepted (write : List Effect → List Nat → Option GoError) (remote : Bool) :
    List ReadResult → List Effect → Bool
  | [], _ => true
  | r :: rest, tr =>
    (r.data.isEmpty || (write (tr ++ [Effect.Read r.data.length]) r.data).isNone)
      && writesAccepted write remote rest (tr ++ transferEffects remote [r])

/-- Parameters of a type other than `ObjectParameter`, naming object `X` of
container `C`. -/
def demoForeign : ForeignParameters :=
  { ID := "X", ParentID := "C", ForUser := .ok { Address := "gate" }, Pool := demoPool,
    stream := demoStream }

/-- A stream that delivers `[1, 2, 3]`, then `[4]` with end-of-stream, and
whose every write fails. -/
def refusingStream : Stream :=
  { reads := [⟨[1, 2, 3], none⟩, ⟨[4], some .EOF⟩], write := fun _ _ => some (.New "disk full") }

set_option maxRecDepth 100000

/-! ## Lemmas on histories and on the buffer -/

theorem writesOf_append (a b : List Effect) : writesOf (a ++ b) = writesOf a ++ writesOf b := by
  induction a with
  | nil => rfl
  | cons e a ih => cases e <;> simp [writesOf, ih]

theorem sendsOf_append (a b : List Effect) : sendsOf (a ++ b) = sendsOf a ++ sendsOf b := by
  induction a with
  | nil => rfl
  | cons e a ih => cases e <;> simp [sendsOf, ih]

theorem emitsOf_append (a b : List Effect) : emitsOf (a ++ b) = emitsOf a ++ emitsOf b := by
  induction a with
  | nil => rfl
  | cons e a ih => cases e <;> simp [emitsOf, ih]

theorem fillBuf_length (buf data : List Nat) (h : data.length ≤ buf.length) :
    (fillBuf buf data).length = buf.length := by
  simp [fillBuf]; omega

theorem fillBuf_take (buf data : List Nat) : (fillBuf buf data).take data.length = data := by
  simp [fillBuf]

theorem newBuf_length : newBuf.length = 1024 := List.length_replicate 1024 0

/-- One iteration of the loop of `Read`, by the result of the read. -/
theorem readLoop_cons (o : ObjectCaller) (id : String)
    (write : List Effect → List Nat → Option GoError) (r : ReadResult)
    (rest : List ReadResult) (buf : List Nat) (tr : List Effect)
    (h : r.data.length ≤ buf.length) :
    Read.loop o id write (r :: rest) buf tr =
      match (if r.data = [] then none else write (tr ++ [Effect.Read r.data.length]) r.data) with
      | some err =>
        (.returned (some err), tr ++ [Effect.Read r.data.length, Effect.Write false r.data,
          Effect.Send (o.Notification "failed to write to buffer" err.Error
            notification.Error .ActionNotification)])
      | none =>
        let tr2 := tr ++ (if r.data = [] then [Effect.Read 0]
                          else [Effect.Read r.data.length, Effect.Write false r.data])
        match r.err with
        | none => Read.loop o id write rest (fillBuf buf r.data) tr2
        | some .EOF =>
          (.returned none, tr2 ++ [Effect.Send (o.Notification "download complete!"
              ("object " ++ id ++ " completed") notification.Success .ActionNotification)])
        | some err =>
          (.returned (some err), tr2 ++ [Effect.Send (o.Notification "error" err.Error
              notification.Error .ActionNotification)]) := by
  rw [Read.loop]
  simp only [fillBuf_take]
  rw [if_neg (by omega)]
  obtain ⟨d, e⟩ := r
  by_cases hd : d = []
  · subst hd
    rcases e with _ | e
    · simp
    · cases e <;> simp
  · have hpos : 0 < d.length := List.length_pos.mpr hd
    simp only [hpos, hd, if_true, if_false]
    cases hw : write (tr ++ [Effect.Read d.length]) d
    · rcases e with _ | e
      · simp
      · cases e <;> simp
    · simp


/-- One iteration of the loop of `Create`, by the result of the read. -/
theorem createLoop_cons (o : ObjectCaller)
    (write : List Effect → List Nat → Option GoError) (remote : Bool) (r : ReadResult)
    (rest : List ReadResult) (buf : List Nat) (tr : List Effect)
    (h : r.data.length ≤ buf.length) :
    Create.loop o write remote (r :: rest) buf tr =
      match (if r.data = [] then none else write (tr ++ [Effect.Read r.data.length]) r.data) with
      | some err =>
        (some (.returned (some err)),
          tr ++ [Effect.Read r.data.length, Effect.Write remote r.data,
            Effect.Send (o.Notification "failed to write to buffer" err.Error
              notification.Error .ActionNotification)])
      | none =>
        let tr2 := tr ++ (if r.data = [] then [Effect.Read 0]
                          else [Effect.Read r.data.length, Effect.Write remote r.data])
        match r.err with
        | none => Create.loop o write remote rest (fillBuf buf r.data) tr2
        | some .EOF => (none, tr2)
        | some err =>
          (some (.returned (some err)),
            tr2 ++ [Effect.Send (o.Notification "error" err.Error
              notification.Error .ActionNotification)]) := by
  rw [Create.loop]
  simp only [fillBuf_take]
  rw [if_neg (by omega)]
  obtain ⟨d, e⟩ := r
  by_cases hd : d = []
  · subst hd
    rcases e with _ | e
    · simp
    · cases e <;> simp
  · have hpos : 0 < d.length := List.length_pos.mpr hd
    simp only [hpos, hd, if_true, if_false]
    cases hw : write (tr ++ [Effect.Read d.length]) d
    · rcases e with _ | e
      · simp
      · cases e <;> simp
    · simp

theorem transferEffects_append (remote : Bool) (a b : List ReadResult) :
    transferEffects remote (a ++ b) = transferEffects remote a ++ transferEffects remote b := by
  induction a with
  | nil => rfl
  | cons r a ih => simp [transferEffects, ih]

theorem writesOf_transferEffects (remote : Bool) (rs : List ReadResult) :
    writesOf (transferEffects remote rs) =
      (rs.filter (fun r => decide (0 < r.data.length))).map (·.data) := by
  induction rs with
  | nil => rfl
  | cons r rs ih =>
    by_cases hd : r.data = []
    · simp [transferEffects, hd, writesOf_append, writesOf, ih]
    · have hpos : 0 < r.data.length := List.length_pos.mpr hd
      simp [transferEffects, hd, hpos, writesOf, ih]

theorem flatten_writesOf_transferEffects (remote : Bool) (rs : List ReadResult) :
    (writesOf (transferEffects remote rs)).flatten = (rs.map (·.data)).flatten := by
  induction rs with
  | nil => rfl
  | cons r rs ih =>
    by_cases hd : r.data = []
    · simp [transferEffects, hd, writesOf_append, writesOf, ih]
    · simp [transferEffects, hd, writesOf, ih]

/-- The loop of `Read` on a script that ends with end-of-stream, all writes succeeding. -/
theorem readLoop_eof (o : ObjectCaller) (id : String)
    (write : List Effect → List Nat → Option GoError) (hw : ∀ h c, write h c = none)
    (last : List Nat) :
    ∀ (pre : List ReadResult) (buf : List Nat) (tr : List Effect),
      (∀ r ∈ pre, r.err = none) → (∀ r ∈ pre, r.data.length ≤ buf.length) →
      last.length ≤ buf.length →
      Read.loop o id write (pre ++ [⟨last, some .EOF⟩]) buf tr =
        (.returned none,
          tr ++ transferEffects false (pre ++ [⟨last, some .EOF⟩]) ++
            [Effect.Send (o.Notification "download complete!"
              ("object " ++ id ++ " completed") notification.Success .ActionNotification)]) := by
  intro pre
  induction pre with
  | nil =>
    intro buf tr _ _ hl
    rw [List.nil_append, readLoop_cons o id write _ _ buf tr hl]
    simp [hw, transferEffects]
  | cons r pre ih =>
    intro buf tr hnil hcap hl
    have hr : r.data.length ≤ buf.length := hcap r (List.mem_cons_self _ _)
    rw [List.cons_append, readLoop_cons o id write _ _ buf tr hr]
    have he : r.err = none := hnil r (List.mem_cons_self _ _)
    simp only [hw, he, ite_self]
    rw [ih (fillBuf buf r.data) _ (fun x hx => hnil x (List.mem_cons_of_mem _ hx))
      (fun x hx => by rw [fillBuf_length buf r.data hr]; exact hcap x (List.mem_cons_of_mem _ hx))
      (by rw [fillBuf_length buf r.data hr]; exact hl)]
    simp [transferEffects, List.append_assoc]

/-- The loop of `Create` on a script that ends with end-of-stream, all writes succeeding. -/
theorem createLoop_eof (o : ObjectCaller)
    (write : List Effect → List Nat → Option GoError) (remote : Bool)
    (hw : ∀ h c, write h c = none) (last : List Nat) :
    ∀ (pre : List ReadResult) (buf : List Nat) (tr : List Effect),
      (∀ r ∈ pre, r.err = none) → (∀ r ∈ pre, r.data.length ≤ buf.length) →
      last.length ≤ buf.length →
      Create.loop o write remote (pre ++ [⟨last, some .EOF⟩]) buf tr =
        (none, tr ++ transferEffects remote (pre ++ [⟨last, some .EOF⟩])) := by
  intro pre
  induction pre with
  | nil =>
    intro buf tr _ _ hl
    rw [List.nil_append, createLoop_cons o write remote _ _ buf tr hl]
    simp [hw, transferEffects]
  | cons r pre ih =>
    intro buf tr hnil hcap hl
    have hr : r.data.length ≤ buf.length := hcap r (List.mem_cons_self _ _)
    rw [List.cons_append, createLoop_cons o write remote _ _ buf tr hr]
    have he : r.err = none := hnil r (List.mem_cons_self _ _)
    simp only [hw, he, ite_self]
    rw [ih (fillBuf buf r.data) _ (fun x hx => hnil x (List.mem_cons_of_mem _ hx))
      (fun x hx => by rw [fillBuf_length buf r.data hr]; exact hcap x (List.mem_cons_of_mem _ hx))
      (by rw [fillBuf_length buf r.data hr]; exact hl)]
    simp [transferEffects, List.append_assoc]


/-- The loop of `Read` never calls the event emitter. -/
theorem readLoop_emits (o : ObjectCaller) (id : String)
    (write : List Effect → List Nat → Option GoError) :
    ∀ (rs : List ReadResult) (buf : List Nat) (tr : List Effect),
      emitsOf (Read.loop o id write rs buf tr).2 = emitsOf tr := by
  intro rs
  induction rs with
  | nil => intro buf tr; rfl
  | cons r rs ih =>
    intro buf tr
    by_cases h : r.data.length ≤ buf.length
    · rw [readLoop_cons o id write r rs buf tr h]
      obtain ⟨d, e⟩ := r
      by_cases hd : d = []
      · subst hd
        rcases e with _ | e
        · simp [ih, emitsOf_append, emitsOf]
        · cases e <;> simp [emitsOf_append, emitsOf]
      · simp only [hd, if_false]
        cases hw : write (tr ++ [Effect.Read d.length]) d
        · rcases e with _ | e
          · simp [ih, emitsOf_append, emitsOf]
          · cases e <;> simp [emitsOf_append, emitsOf]
        · simp [emitsOf_append, emitsOf]
    · rw [Read.loop, if_pos (by omega)]
      simp [emitsOf_append, emitsOf]

/-- Every chunk the loop of `Read` writes fits the buffer. -/
theorem readLoop_chunks (o : ObjectCaller) (id : String)
    (write : List Effect → List Nat → Option GoError) :
    ∀ (rs : List ReadResult) (buf : List Nat) (tr : List Effect),
      (∀ c ∈ writesOf tr, c.length ≤ buf.length) →
      ∀ c ∈ writesOf (Read.loop o id write rs buf tr).2, c.length ≤ buf.length := by
  intro rs
  induction rs with
  | nil => intro buf tr htr; exact htr
  | cons r rs ih =>
    intro buf tr htr
    by_cases h : r.data.length ≤ buf.length
    · rw [readLoop_cons o id write r rs buf tr h]
      have hfl := fillBuf_length buf r.data h
      obtain ⟨d, e⟩ := r
      have step : ∀ c ∈ writesOf (tr ++ (if d = [] then [Effect.Read 0]
          else [Effect.Read d.length, Effect.Write false d])), c.length ≤ buf.length := by
        intro c hc
        by_cases hd : d = []
        · simp [hd, writesOf_append, writesOf] at hc; exact htr c hc
        · simp [hd, writesOf_append, writesOf] at hc
          rcases hc with hc | hc
          · exact htr c hc
          · subst hc; exact h
      have stepW : ∀ x, ∀ c ∈ writesOf (tr ++ [Effect.Read d.length, Effect.Write false d,
          Effect.Send x]), c.length ≤ buf.length := by
        intro x c hc
        simp [writesOf_append, writesOf] at hc
        rcases hc with hc | hc
        · exact htr c hc
        · subst hc; exact h
      have stepS : ∀ x, ∀ c ∈ writesOf ((tr ++ (if d = [] then [Effect.Read 0]
          else [Effect.Read d.length, Effect.Write false d])) ++ [Effect.Send x]),
          c.length ≤ buf.length := by
        intro x c hc
        rw [writesOf_append] at hc
        simp only [writesOf, List.append_nil] at hc
        exact step c hc
      cases hw : (if d = [] then none else write (tr ++ [Effect.Read d.length]) d) with
      | some err => exact stepW _
      | none =>
        rcases e with _ | e
        · simp only
          intro c hc
          have := ih (fillBuf buf d) _ (by rw [hfl]; exact step) c hc
          rwa [hfl] at this
        · cases e <;> exact stepS _
    · rw [Read.loop, if_pos (by omega)]
      intro c hc
      simp [writesOf_append, writesOf] at hc
      exact htr c hc


/-- Every chunk the loop of `Create` writes fits the buffer. -/
theorem createLoop_chunks (o : ObjectCaller)
    (write : List Effect → List Nat → Option GoError) (remote : Bool) :
    ∀ (rs : List ReadResult) (buf : List Nat) (tr : List Effect),
      (∀ c ∈ writesOf tr, c.length ≤ buf.length) →
      ∀ c ∈ writesOf (Create.loop o write remote rs buf tr).2, c.length ≤ buf.length := by
  intro rs
  induction rs with
  | nil => intro buf tr htr; exact htr
  | cons r rs ih =>
    intro buf tr htr
    by_cases h : r.data.length ≤ buf.length
    · rw [createLoop_cons o write remote r rs buf tr h]
      have hfl := fillBuf_length buf r.data h
      obtain ⟨d, e⟩ := r
      have step : ∀ c ∈ writesOf (tr ++ (if d = [] then [Effect.Read 0]
          else [Effect.Read d.length, Effect.Write remote d])), c.length ≤ buf.length := by
        intro c hc
        by_cases hd : d = []
        · simp [hd, writesOf_append, writesOf] at hc; exact htr c hc
        · simp [hd, writesOf_append, writesOf] at hc
          rcases hc with hc | hc
          · exact htr c hc
          · subst hc; exact h
      have stepW : ∀ x, ∀ c ∈ writesOf (tr ++ [Effect.Read d.length, Effect.Write remote d,
          Effect.Send x]), c.length ≤ buf.length := by
        intro x c hc
        simp [writesOf_append, writesOf] at hc
        rcases hc with hc | hc
        · exact htr c hc
        · subst hc; exact h
      have stepS : ∀ x, ∀ c ∈ writesOf ((tr ++ (if d = [] then [Effect.Read 0]
          else [Effect.Read d.length, Effect.Write remote d])) ++ [Effect.Send x]),
          c.length ≤ buf.length := by
        intro x c hc
        rw [writesOf_append] at hc
        simp only [writesOf, List.append_nil] at hc
        exact step c hc
      cases hw : (if d = [] then none else write (tr ++ [Effect.Read d.length]) d) with
      | some err => exact stepW _
      | none =>
        rcases e with _ | e
        · simp only
          intro c hc
          have := ih (fillBuf buf d) _ (by rw [hfl]; exact step) c hc
          rwa [hfl] at this
        · cases e
          · exact step
          all_goals exact stepS _
    · rw [Create.loop, if_pos (by omega)]
      intro c hc
      simp [writesOf_append, writesOf] at hc
      exact htr c hc

/-- A returning loop of `Read` has sent exactly one notification, which agrees
with the value returned. -/
theorem readLoop_returned (o : ObjectCaller) (id : String)
    (write : List Effect → List Nat → Option GoError) :
    ∀ (rs : List ReadResult) (buf : List Nat) (tr : List Effect) (r : Option GoError),
      (Read.loop o id write rs buf tr).1 = .returned r →
      ∃ n, sendsOf (Read.loop o id write rs buf tr).2 = sendsOf tr ++ [n] ∧
        ((r = none ∧
            n = o.Notification "download complete!" ("object " ++ id ++ " completed")
              notification.Success .ActionNotification ∧
            ∃ d, (⟨d, some .EOF⟩ : ReadResult) ∈ rs) ∨
         (∃ e, r = some e ∧
            ((n = o.Notification "error" e.Error notification.Error .ActionNotification ∧
                e ≠ .EOF ∧ ∃ d, (⟨d, some e⟩ : ReadResult) ∈ rs) ∨
             (n = o.Notification "failed to write to buffer" e.Error notification.Error
                  .ActionNotification ∧
                ∃ h c, write h c = some e)))) := by
  intro rs
  induction rs with
  | nil => intro buf tr r h; simp [Read.loop] at h
  | cons x rs ih =>
    intro buf tr r
    by_cases h : x.data.length ≤ buf.length
    · rw [readLoop_cons o id write x rs buf tr h]
      obtain ⟨d, e⟩ := x
      cases hw : (if d = [] then none else write (tr ++ [Effect.Read d.length]) d) with
      | some err =>
        intro hr
        simp only [Outcome.returned.injEq] at hr
        subst hr
        have hd : d ≠ [] := by
          intro hd; simp [hd] at hw
        simp only [hd, if_false] at hw
        refine ⟨_, ?_, Or.inr ⟨err, rfl, Or.inr ⟨rfl, _, _, hw⟩⟩⟩
        simp [sendsOf_append, sendsOf]
      | none =>
        have hs : sendsOf (tr ++ (if d = [] then [Effect.Read 0]
            else [Effect.Read d.length, Effect.Write false d])) = sendsOf tr := by
          by_cases hd : d = [] <;> simp [hd, sendsOf_append, sendsOf]
        rcases e with _ | e
        · simp only
          intro hr
          obtain ⟨n, hn, hcase⟩ := ih _ _ r hr
          refine ⟨n, by rw [hn, hs], ?_⟩
          rcases hcase with ⟨h1, h2, d1, hd1⟩ | ⟨e1, h1, hcase⟩
          · exact Or.inl ⟨h1, h2, d1, List.mem_cons_of_mem _ hd1⟩
          · refine Or.inr ⟨e1, h1, ?_⟩
            rcases hcase with ⟨h2, h3, d1, hd1⟩ | h2
            · exact Or.inl ⟨h2, h3, d1, List.mem_cons_of_mem _ hd1⟩
            · exact Or.inr h2
        · cases e with
          | EOF =>
            intro hr
            simp only [Outcome.returned.injEq] at hr
            subst hr
            refine ⟨_, ?_, Or.inl ⟨rfl, rfl, d, List.mem_cons_self _ _⟩⟩
            rw [sendsOf_append, hs]; rfl
          | New t =>
            intro hr
            simp only [Outcome.returned.injEq] at hr
            subst hr
            refine ⟨_, ?_, Or.inr ⟨_, rfl, Or.inl ⟨rfl, by simp, d, List.mem_cons_self _ _⟩⟩⟩
            rw [sendsOf_append, hs]; rfl
          | NumError a b c =>
            intro hr
            simp only [Outcome.returned.injEq] at hr
            subst hr
            refine ⟨_, ?_, Or.inr ⟨_, rfl, Or.inl ⟨rfl, by simp, d, List.mem_cons_self _ _⟩⟩⟩
            rw [sendsOf_append, hs]; rfl
          | Wrap a b =>
            intro hr
            simp only [Outcome.returned.injEq] at hr
            subst hr
            refine ⟨_, ?_, Or.inr ⟨_, rfl, Or.inl ⟨rfl, by simp, d, List.mem_cons_self _ _⟩⟩⟩
            rw [sendsOf_append, hs]; rfl
    · rw [Read.loop, if_pos (by omega)]
      intro hr; simp at hr


/-- The loop of `Read` runs through reads without error whose writes succeed. -/
theorem readLoop_pre (o : ObjectCaller) (id : String)
    (write : List Effect → List Nat → Option GoError) (tail : List ReadResult) :
    ∀ (pre : List ReadResult) (buf : List Nat) (tr : List Effect),
      (∀ r ∈ pre, r.err = none) → (∀ r ∈ pre, r.data.length ≤ buf.length) →
      writesAccepted write false pre tr = true →
      ∃ buf2, buf2.length = buf.length ∧
        Read.loop o id write (pre ++ tail) buf tr =
          Read.loop o id write tail buf2 (tr ++ transferEffects false pre) := by
  intro pre
  induction pre with
  | nil => intro buf tr _ _ _; exact ⟨buf, rfl, by simp [transferEffects]⟩
  | cons r pre ih =>
    intro buf tr hnil hcap hacc
    have hr : r.data.length ≤ buf.length := hcap r (List.mem_cons_self _ _)
    have he : r.err = none := hnil r (List.mem_cons_self _ _)
    simp only [writesAccepted, Bool.and_eq_true, Bool.or_eq_true, List.isEmpty_iff,
      Option.isNone_iff_eq_none] at hacc
    obtain ⟨hw, hrest⟩ := hacc
    have hcase : (if r.data = [] then none else write (tr ++ [Effect.Read r.data.length]) r.data)
        = none := by
      rcases hw with hd | hw
      · simp [hd]
      · simp [hw]
    obtain ⟨buf2, hlen, heq⟩ := ih (fillBuf buf r.data) (tr ++ transferEffects false [r])
      (fun x hx => hnil x (List.mem_cons_of_mem _ hx))
      (fun x hx => by rw [fillBuf_length buf r.data hr]; exact hcap x (List.mem_cons_of_mem _ hx))
      hrest
    refine ⟨buf2, by rw [hlen, fillBuf_length buf r.data hr], ?_⟩
    rw [List.cons_append, readLoop_cons o id write r _ buf tr hr]
    simp only [hcase, he]
    have ht : transferEffects false [r] = (if r.data = [] then [Effect.Read 0]
        else [Effect.Read r.data.length, Effect.Write false r.data]) := by
      simp [transferEffects]
    rw [ht] at heq
    rw [heq]
    simp [transferEffects, List.append_assoc]

/-- The loop of `Create` runs through reads without error whose writes succeed. -/
theorem createLoop_pre (o : ObjectCaller)
    (write : List Effect → List Nat → Option GoError) (remote : Bool)
    (tail : List ReadResult) :
    ∀ (pre : List ReadResult) (buf : List Nat) (tr : List Effect),
      (∀ r ∈ pre, r.err = none) → (∀ r ∈ pre, r.data.length ≤ buf.length) →
      writesAccepted write remote pre tr = true →
      ∃ buf2, buf2.length = buf.length ∧
        Create.loop o write remote (pre ++ tail) buf tr =
          Create.loop o write remote tail buf2 (tr ++ transferEffects remote pre) := by
  intro pre
  induction pre with
  | nil => intro buf tr _ _ _; exact ⟨buf, rfl, by simp [transferEffects]⟩
  | cons r pre ih =>
    intro buf tr hnil hcap hacc
    have hr : r.data.length ≤ buf.length := hcap r (List.mem_cons_self _ _)
    have he : r.err = none := hnil r (List.mem_cons_self _ _)
    simp only [writesAccepted, Bool.and_eq_true, Bool.or_eq_true, List.isEmpty_iff,
      Option.isNone_iff_eq_none] at hacc
    obtain ⟨hw, hrest⟩ := hacc
    have hcase : (if r.data = [] then none else write (tr ++ [Effect.Read r.data.length]) r.data)
        = none := by
      rcases hw with hd | hw
      · simp [hd]
      · simp [hw]
    obtain ⟨buf2, hlen, heq⟩ := ih (fillBuf buf r.data) (tr ++ transferEffects remote [r])
      (fun x hx => hnil x (List.mem_cons_of_mem _ hx))
      (fun x hx => by rw [fillBuf_length buf r.data hr]; exact hcap x (List.mem_cons_of_mem _ hx))
      hrest
    refine ⟨buf2, by rw [hlen, fillBuf_length buf r.data hr], ?_⟩
    rw [List.cons_append, createLoop_cons o write remote r _ buf tr hr]
    simp only [hcase, he]
    have ht : transferEffects remote [r] = (if r.data = [] then [Effect.Read 0]
        else [Effect.Read r.data.length, Effect.Write remote r.data]) := by
      simp [transferEffects]
    rw [ht] at heq
    rw [heq]
    simp [transferEffects, List.append_assoc]

/-! ## C2, C3: the chunked transfer of `Read` and `Create` -/

/-- C2: on a stream whose reads return no error until a last one returns
end-of-stream (each read within the 1024-byte buffer, as `io.Reader` requires)
and whose writes all succeed, the loop of `Read` and the loop of `Create`
perform exactly one `Write` after each read that returned bytes, passing
exactly those bytes, in read order: the chunks written are the non-empty reads,
their concatenation is the concatenation of everything read (the bytes that
came with end-of-stream included).  On any stream at all every chunk written
has at most 1024 bytes, and a read of 0 bytes without error writes nothing and
the loop goes on with the next read. -/
theorem chunked_transfer_writes_what_it_reads
    (o : ObjectCaller) (id : String) (write : List Effect → List Nat → Option GoError)
    (remote : Bool) (pre : List ReadResult) (last : List Nat) (tr : List Effect)
    (hnil : ∀ r ∈ pre, r.err = none)
    (hcap : ∀ r ∈ pre, r.data.length ≤ 1024) (hlast : last.length ≤ 1024)
    (hw : ∀ h c, write h c = none) :
    Read.loop o id write (pre ++ [ReadResult.mk last (some .EOF)]) newBuf tr =
        (.returned none,
          tr ++ transferEffects false (pre ++ [ReadResult.mk last (some .EOF)]) ++
            [Effect.Send (o.Notification "download complete!"
              ("object " ++ id ++ " completed") notification.Success .ActionNotification)])
    ∧ Create.loop o write remote (pre ++ [ReadResult.mk last (some .EOF)]) newBuf tr =
        (none, tr ++ transferEffects remote (pre ++ [ReadResult.mk last (some .EOF)]))
    ∧ writesOf (transferEffects remote (pre ++ [ReadResult.mk last (some .EOF)])) =
        ((pre ++ [ReadResult.mk last (some .EOF)]).filter (fun r => decide (0 < r.data.length))).map (·.data)
    ∧ (writesOf (transferEffects remote (pre ++ [ReadResult.mk last (some .EOF)]))).flatten =
        ((pre ++ [ReadResult.mk last (some .EOF)]).map (·.data)).flatten
    ∧ (∀ (w : List Effect → List Nat → Option GoError) (rs : List ReadResult),
        (∀ c ∈ writesOf (Read.loop o id w rs newBuf []).2, c.length ≤ 1024) ∧
        (∀ c ∈ writesOf (Create.loop o w remote rs newBuf []).2, c.length ≤ 1024))
    ∧ (∀ (w : List Effect → List Nat → Option GoError) (rest : List ReadResult)
        (buf : List Nat) (tr0 : List Effect),
        Read.loop o id w (⟨[], none⟩ :: rest) buf tr0 =
          Read.loop o id w rest buf (tr0 ++ [Effect.Read 0]) ∧
        Create.loop o w remote (⟨[], none⟩ :: rest) buf tr0 =
          Create.loop o w remote rest buf (tr0 ++ [Effect.Read 0])) := by
  refine ⟨?_, ?_, writesOf_transferEffects _ _, flatten_writesOf_transferEffects _ _, ?_, ?_⟩
  · exact readLoop_eof o id write hw last pre newBuf tr hnil
      (by rw [newBuf_length]; exact hcap) (by rw [newBuf_length]; exact hlast)
  · exact createLoop_eof o write remote hw last pre newBuf tr hnil
      (by rw [newBuf_length]; exact hcap) (by rw [newBuf_length]; exact hlast)
  · intro w rs
    constructor
    · have := readLoop_chunks o id w rs newBuf [] (by simp [writesOf])
      rwa [newBuf_length] at this
    · have := createLoop_chunks o w remote rs newBuf [] (by simp [writesOf])
      rwa [newBuf_length] at this
  · intro w rest buf tr0
    constructor
    · rw [readLoop_cons o id w _ rest buf tr0 (by simp)]
      simp [fillBuf]
    · rw [createLoop_cons o w remote _ rest buf tr0 (by simp)]
      simp [fillBuf]

/-- C2 at `demoStream`: two chunks are written, `[1, 2, 3]` and `[4]`. -/
theorem chunked_transfer_writes_what_it_reads_witness :
    (∀ r ∈ [(⟨[1, 2, 3], none⟩ : ReadResult), ⟨[], none⟩], r.err = none)
    ∧ (∀ r ∈ [(⟨[1, 2, 3], none⟩ : ReadResult), ⟨[], none⟩], r.data.length ≤ 1024)
    ∧ [4].length ≤ 1024
    ∧ writesOf (Read.loop mockCaller "X" (fun _ _ => none)
        ([⟨[1, 2, 3], none⟩, ⟨[], none⟩] ++ [⟨[4], some .EOF⟩]) newBuf []).2 = [[1, 2, 3], [4]] := by
  have h := chunked_transfer_writes_what_it_reads mockCaller "X" (fun _ _ => none) false
    [⟨[1, 2, 3], none⟩, ⟨[], none⟩] [4] [] (by decide) (by decide) (by decide) (fun _ _ => rfl)
  refine ⟨by decide, by decide, by decide, ?_⟩
  rw [h.1]
  decide

/-- C3: `Read` never calls the event emitter.  Whenever it returns it has sent
exactly one notification: the success record "download complete!" when it
returns nil, which happens only after a read returned end-of-stream; otherwise
an error record whose description is the message of the error returned, that
error being a read error other than end-of-stream or the error of a `Write`.
And `Read` does return, with exactly these effects: after any reads without
error whose writes succeeded, a read returning end-of-stream (its bytes, if
any, written successfully) ends `Read` with nil and the success record; a read
returning any other error `e` ends it with `e` and the error record of `e`; a
failing `Write` ends it with the write error and its error record. -/
theorem read_sends_exactly_one_notification
    (o : ObjectCaller) (p : Parameters) (token : Token) (tr : List Effect) :
    emitsOf (o.Read p token tr).2 = emitsOf tr
    ∧ (∀ r, (o.Read p token tr).1 = .returned r →
        ∃ n, sendsOf (o.Read p token tr).2 = sendsOf tr ++ [n] ∧
          ((r = none ∧
              n = o.Notification "download complete!" ("object " ++ p.ID ++ " completed")
                notification.Success .ActionNotification ∧
              ∃ d, (⟨d, some .EOF⟩ : ReadResult) ∈ p.stream.reads) ∨
           (∃ e, r = some e ∧
              ((n = o.Notification "error" e.Error notification.Error .ActionNotification ∧
                  e ≠ .EOF ∧ ∃ d, (⟨d, some e⟩ : ReadResult) ∈ p.stream.reads) ∨
               (n = o.Notification "failed to write to buffer" e.Error notification.Error
                    .ActionNotification ∧
                  ∃ h c, p.stream.write h c = some e)))))
    ∧ (∀ (pre : List ReadResult) (d : List Nat) (rest : List ReadResult),
        p.stream.reads = pre ++ ⟨d, some .EOF⟩ :: rest →
        (∀ r ∈ pre, r.err = none) → (∀ r ∈ pre, r.data.length ≤ 1024) → d.length ≤ 1024 →
        writesAccepted p.stream.write false (pre ++ [⟨d, some .EOF⟩]) tr = true →
        o.Read p token tr =
          (.returned none,
            tr ++ transferEffects false (pre ++ [⟨d, some .EOF⟩]) ++
              [Effect.Send (o.Notification "download complete!"
                ("object " ++ p.ID ++ " completed") notification.Success .ActionNotification)]))
    ∧ (∀ (pre : List ReadResult) (d : List Nat) (e : GoError) (rest : List ReadResult),
        p.stream.reads = pre ++ ⟨d, some e⟩ :: rest → e ≠ .EOF →
        (∀ r ∈ pre, r.err = none) → (∀ r ∈ pre, r.data.length ≤ 1024) → d.length ≤ 1024 →
        writesAccepted p.stream.write false (pre ++ [⟨d, some e⟩]) tr = true →
        o.Read p token tr =
          (.returned (some e),
            tr ++ transferEffects false (pre ++ [⟨d, some e⟩]) ++
              [Effect.Send (o.Notification "error" e.Error
                notification.Error .ActionNotification)]))
    ∧ (∀ (pre : List ReadResult) (d : List Nat) (x : Option GoError) (e : GoError)
        (rest : List ReadResult),
        p.stream.reads = pre ++ ⟨d, x⟩ :: rest →
        (∀ r ∈ pre, r.err = none) → (∀ r ∈ pre, r.data.length ≤ 1024) → d.length ≤ 1024 →
        writesAccepted p.stream.write false pre tr = true → d ≠ [] →
        p.stream.write (tr ++ transferEffects false pre ++ [Effect.Read d.length]) d = some e →
        o.Read p token tr =
          (.returned (some e),
            tr ++ transferEffects false pre ++ [Effect.Read d.length, Effect.Write false d,
              Effect.Send (o.Notification "failed to write to buffer" e.Error
                notification.Error .ActionNotification)])) := by
  have hsplit : ∀ (pre : List ReadResult) (r : ReadResult) (t : List Effect),
      writesAccepted p.stream.write false (pre ++ [r]) t = true →
      writesAccepted p.stream.write false pre t = true ∧
        (r.data = [] ∨
          p.stream.write (t ++ transferEffects false pre ++ [Effect.Read r.data.length]) r.data
            = none) := by
    intro pre
    induction pre with
    | nil =>
      intro r t h
      simpa [writesAccepted, transferEffects] using h
    | cons a pre ih =>
      intro r t h
      simp only [List.cons_append, writesAccepted, Bool.and_eq_true] at h
      obtain ⟨ha, hrest⟩ := h
      obtain ⟨h1, h2⟩ := ih r _ hrest
      refine ⟨by simp only [writesAccepted, Bool.and_eq_true]; exact ⟨ha, h1⟩, ?_⟩
      have ht : t ++ transferEffects false (a :: pre)
          = t ++ transferEffects false [a] ++ transferEffects false pre := by
        rw [List.append_assoc, ← transferEffects_append]; rfl
      rw [ht]; exact h2
  refine ⟨readLoop_emits _ _ _ _ _ _, readLoop_returned _ _ _ _ _ _, ?_, ?_, ?_⟩
  · intro pre d rest hreads hnil hcap hlen hacc
    obtain ⟨hpre, hwr⟩ := hsplit pre _ tr hacc
    obtain ⟨buf2, hb, heq⟩ := readLoop_pre o p.ID p.stream.write (⟨d, some .EOF⟩ :: rest)
      pre newBuf tr hnil (by simpa [newBuf_length] using hcap) hpre
    unfold ObjectCaller.Read
    rw [hreads, heq,
      readLoop_cons o p.ID p.stream.write _ rest buf2 _ (by rw [hb, newBuf_length]; exact hlen),
      transferEffects_append]
    rcases hwr with hd | hwr
    · simp only at hd; subst hd; simp [transferEffects]
    · by_cases hd : d = []
      · subst hd; simp [transferEffects]
      · simp only [List.append_assoc] at hwr; simp [hd, hwr, transferEffects]
  · intro pre d e rest hreads he hnil hcap hlen hacc
    obtain ⟨hpre, hwr⟩ := hsplit pre _ tr hacc
    obtain ⟨buf2, hb, heq⟩ := readLoop_pre o p.ID p.stream.write (⟨d, some e⟩ :: rest)
      pre newBuf tr hnil (by simpa [newBuf_length] using hcap) hpre
    unfold ObjectCaller.Read
    rw [hreads, heq,
      readLoop_cons o p.ID p.stream.write _ rest buf2 _ (by rw [hb, newBuf_length]; exact hlen),
      transferEffects_append]
    have hcase : (if d = [] then none
        else p.stream.write (tr ++ transferEffects false pre ++ [Effect.Read d.length]) d)
        = none := by
      rcases hwr with hd | hwr
      · simp only at hd; simp [hd]
      · simp only at hwr; rw [hwr]; simp
    simp only [hcase]
    cases e with
    | EOF => exact absurd rfl he
    | New t => by_cases hd : d = [] <;> simp [hd, transferEffects]
    | NumError a b c => by_cases hd : d = [] <;> simp [hd, transferEffects]
    | Wrap a b => by_cases hd : d = [] <;> simp [hd, transferEffects]
  · intro pre d x e rest hreads hnil hcap hlen hpre hd hwr
    obtain ⟨buf2, hb, heq⟩ := readLoop_pre o p.ID p.stream.write (⟨d, x⟩ :: rest)
      pre newBuf tr hnil (by simpa [newBuf_length] using hcap) hpre
    unfold ObjectCaller.Read
    rw [hreads, heq,
      readLoop_cons o p.ID p.stream.write _ rest buf2 _ (by rw [hb, newBuf_length]; exact hlen)]
    simp only [List.append_assoc] at hwr
    simp [hd, hwr]

/-- C3 at `demoStream`: `Read` returns nil, having written the two non-empty
chunks and sent one success record; at `refusingStream` it returns the error
of the first write, having sent one error record. -/
theorem read_sends_exactly_one_notification_witness :
    mockCaller.Read (.ObjectParameter (demoParams demoPool "X" (.other demoStream)))
        (.BearerToken (some demoTok)) [] =
      (.returned none,
        [Effect.Read 3, Effect.Write false [1, 2, 3], Effect.Read 0, Effect.Read 1,
          Effect.Write false [4],
          Effect.Send (mockCaller.Notification "download complete!" "object X completed"
            notification.Success .ActionNotification)])
    ∧ mockCaller.Read (.ObjectParameter (demoParams demoPool "X" (.other refusingStream)))
        (.BearerToken (some demoTok)) [] =
      (.returned (some (.New "disk full")),
        [Effect.Read 3, Effect.Write false [1, 2, 3],
          Effect.Send (mockCaller.Notification "failed to write to buffer" "disk full"
            notification.Error .ActionNotification)]) := by
  have h := (read_sends_exactly_one_notification mockCaller
    (.ObjectParameter (demoParams demoPool "X" (.other demoStream)))
    (.BearerToken (some demoTok)) []).2.2.1 [⟨[1, 2, 3], none⟩, ⟨[], none⟩] [4] [] rfl
    (by decide) (by decide) (by decide) (by decide)
  have h2 := (read_sends_exactly_one_notification mockCaller
    (.ObjectParameter (demoParams demoPool "X" (.other refusingStream)))
    (.BearerToken (some demoTok)) []).2.2.2.2 [] [1, 2, 3] none (.New "disk full")
    [⟨[4], some .EOF⟩] rfl (by decide) (by decide) (by decide) (by decide) (by decide) rfl
  refine ⟨?_, ?_⟩
  · rw [h]; rfl
  · rw [h2]; rfl

/-! ## C1: `List` -/

/-- The iteration of `List` does not look at the identifiers the search
delivers: only their number matters. -/
theorem listObjects_iterate_ignores_ids (env : Env) (o : ObjectCaller) (p : Parameters)
    (token : Token) (final : Option GoError) :
    ∀ (ids ids2 : List String) (tr : List Effect), ids.length = ids2.length →
      ListObjects.iterate env o p token final ids tr =
        ListObjects.iterate env o p token final ids2 tr := by
  intro ids
  induction ids with
  | nil =>
    intro ids2 tr h
    cases ids2 with
    | nil => rfl
    | cons a l => simp at h
  | cons a ids ih =>
    intro ids2 tr h
    cases ids2 with
    | nil => simp at h
    | cons b l =>
      simp only [ListObjects.iterate]
      rcases hH : ObjectCaller.Head env o p token tr with ⟨out, tr1⟩
      cases out with
      | returned r =>
        cases r with
        | none => exact ih l tr1 (by simpa using h)
        | some e => rfl
      | panicked => rfl
      | running => rfl

/-- C1 (the code departs from the claim): the search of container `C` finds the
objects `A` and `B`, and the parameters name object `X`.  `List` returns nil
having emitted two `object_add_update` events, both for the pair `(C, X)`;
`Head` was never called on `(C, A)` or on `(C, B)`.  With the object identifier
of the parameters left empty, `List` returns the decode error of `Head` after
the search and emits nothing. -/
theorem list_heads_parameter_object_not_found_ids :
    (mockCaller.ListObjects demoEnv
        (.ObjectParameter (demoParams demoPool "X" (.other demoStream)))
        (.BearerToken (some demoTok)) []).1 = .returned none
    ∧ (emitsOf (mockCaller.ListObjects demoEnv
        (.ObjectParameter (demoParams demoPool "X" (.other demoStream)))
        (.BearerToken (some demoTok)) []).2).map (fun e => (e.1, e.2.ParentID, e.2.Id)) =
        [("object_add_update", "C", "X"), ("object_add_update", "C", "X")]
    ∧ Effect.ObjectHead "C" "A" demoTok ∉ (mockCaller.ListObjects demoEnv
        (.ObjectParameter (demoParams demoPool "X" (.other demoStream)))
        (.BearerToken (some demoTok)) []).2
    ∧ Effect.ObjectHead "C" "B" demoTok ∉ (mockCaller.ListObjects demoEnv
        (.ObjectParameter (demoParams demoPool "X" (.other demoStream)))
        (.BearerToken (some demoTok)) []).2
    ∧ mockCaller.ListObjects demoEnv
        (.ObjectParameter (demoParams demoPool "" (.other demoStream)))
        (.BearerToken (some demoTok)) [] =
      (.returned (some (.New "decode: invalid identifier")),
        [Effect.ObjectSearchInit "C" demoTok]) := by
  decide

/-! ## C4, C5: `Delete` -/

/-- `Delete` once validation has passed and the credential is a delegated token. -/
theorem delete_after_validation (env : Env) (o : ObjectCaller) (params : ObjectParameter)
    (tok : BearerTok) (tr : List Effect) (objID cnrID : String) (gA : Account)
    (hoid : env.oidDecodeString params.Id = .ok objID)
    (hcid : env.cidDecodeString params.ContainerId = .ok cnrID)
    (hacc : params.GateAccount = some gA) :
    o.Delete env (.ObjectParameter params) (.BearerToken (some tok)) tr =
      match params.Pl.ObjectDelete tr cnrID objID tok with
      | some err =>
        (.returned (some err),
          tr ++ [Effect.ObjectDelete cnrID objID tok,
            Effect.Send (o.Notification "delete failed"
              ("object " ++ params.Id ++ " failed to delete " ++ err.Error)
              notification.Success .ActionNotification)])
      | none =>
        (.returned none,
          tr ++ [Effect.ObjectDelete cnrID objID tok,
            Effect.Emit emitter.ObjectRemoveUpdate
              { ParentID := params.ContainerId, Id := params.Id },
            Effect.Send (o.Notification "delete complete"
              ("object " ++ params.Id ++ " deleted")
              notification.Success .ActionNotification)]) := by
  simp only [ObjectCaller.Delete, Parameters.ID, Parameters.ParentID, Parameters.ForUser,
    Parameters.Pool, ObjectParameter.ID, ObjectParameter.ParentID, ObjectParameter.ForUser,
    ObjectParameter.Pool, hoid, hcid, hacc, bearerOnly]
  cases params.Pl.ObjectDelete tr cnrID objID tok <;> simp

/-- C4 as stated fails: with an object identifier that does not decode `Delete`
returns the decode error and nothing has been sent on the action channel. -/
theorem delete_invalid_id_sends_nothing :
    mockCaller.Delete demoEnv
        (.ObjectParameter (demoParams demoPool "bad!" (.other demoStream)))
        (.BearerToken (some demoTok)) [] =
      (.returned (some (.New "decode: invalid identifier")), [])
    ∧ sendsOf (mockCaller.Delete demoEnv
        (.ObjectParameter (demoParams demoPool "bad!" (.other demoStream)))
        (.BearerToken (some demoTok)) []).2 = [] := by
  decide

/-- C4 (amended): when both identifiers decode, the gate account is present,
the parameters are an `ObjectParameter` and the credential is a delegated
`BearerToken` holding a token, `Delete` returns and exactly one notification
has been sent on the action channel by then, whatever the remote answers. -/
theorem delete_sends_exactly_one_notification_after_validation
    (env : Env) (o : ObjectCaller) (params : ObjectParameter)
    (tok : BearerTok) (tr : List Effect) (objID cnrID : String) (gA : Account)
    (hoid : env.oidDecodeString params.Id = .ok objID)
    (hcid : env.cidDecodeString params.ContainerId = .ok cnrID)
    (hacc : params.GateAccount = some gA) :
    ∃ r n,
      (o.Delete env (.ObjectParameter params) (.BearerToken (some tok)) tr).1 = .returned r
      ∧ sendsOf (o.Delete env (.ObjectParameter params) (.BearerToken (some tok)) tr).2 =
          sendsOf tr ++ [n] := by
  rw [delete_after_validation env o params tok tr objID cnrID gA hoid hcid hacc]
  cases params.Pl.ObjectDelete tr cnrID objID tok with
  | some err =>
    exact ⟨some err, o.Notification "delete failed"
      ("object " ++ params.Id ++ " failed to delete " ++ err.Error)
      notification.Success .ActionNotification, rfl, by simp [sendsOf_append, sendsOf]⟩
  | none =>
    exact ⟨none, o.Notification "delete complete" ("object " ++ params.Id ++ " deleted")
      notification.Success .ActionNotification, rfl, by simp [sendsOf_append, sendsOf]⟩

/-- C4 (amended) on a remote that refuses the delete and on one that performs it. -/
theorem delete_sends_exactly_one_notification_after_validation_witness :
    demoEnv.oidDecodeString (demoParams refusingPool "X" (.other demoStream)).Id = .ok "X"
    ∧ demoEnv.cidDecodeString (demoParams refusingPool "X" (.other demoStream)).ContainerId
        = .ok "C"
    ∧ (demoParams refusingPool "X" (.other demoStream)).GateAccount = some { Address := "gate" }
    ∧ ∃ r n,
      (mockCaller.Delete demoEnv
        (.ObjectParameter (demoParams refusingPool "X" (.other demoStream)))
        (.BearerToken (some demoTok)) []).1 = .returned r
      ∧ sendsOf (mockCaller.Delete demoEnv
        (.ObjectParameter (demoParams refusingPool "X" (.other demoStream)))
        (.BearerToken (some demoTok)) []).2 = sendsOf [] ++ [n] :=
  ⟨rfl, rfl, rfl,
    delete_sends_exactly_one_notification_after_validation demoEnv mockCaller
      (demoParams refusingPool "X" (.other demoStream)) demoTok [] "X" "C" { Address := "gate" }
      rfl rfl rfl⟩

/-- C5 (the code departs from the claim): both identifiers decode, the
credential is a delegated token and the remote refuses the delete with
"object not found".  `Delete` returns that error, emits nothing and sends one
notification titled "delete failed" whose severity tag is `success`, not
`error`. -/
theorem delete_failure_is_tagged_success :
    mockCaller.Delete demoEnv
        (.ObjectParameter (demoParams refusingPool "X" (.other demoStream)))
        (.BearerToken (some demoTok)) [] =
      (.returned (some (.New "object not found")),
        [Effect.ObjectDelete "C" "X" demoTok,
          Effect.Send
            { Id := notification.MockNotifier.GenerateIdentifier,
              Title := "delete failed",
              Description := "object X failed to delete object not found",
              Type_ := "success",
              Action := .ActionNotification }])
    ∧ notification.Success = "success" ∧ notification.Error = "error"
    ∧ (sendsOf (mockCaller.Delete demoEnv
        (.ObjectParameter (demoParams refusingPool "X" (.other demoStream)))
        (.BearerToken (some demoTok)) []).2).map (·.Type_) = [notification.Success]
    ∧ emitsOf (mockCaller.Delete demoEnv
        (.ObjectParameter (demoParams refusingPool "X" (.other demoStream)))
        (.BearerToken (some demoTok)) []).2 = [] := by
  decide

/-! ## C6: `Create` returning nil -/

/-- C6 (the code departs from the claim): the parameters are an `ObjectParameter`
whose `ReadWriter` is not a `*readwriter.DualStream`.  `InitWriter` opens the
payload writer, and `Create` then returns nil (line 489 returns the nil `err`)
without closing the writer, without emitting an event and without sending a
notification; nothing was read from the stream. -/
theorem create_returns_nil_without_closing_writer :
    (mockCaller.Create demoEnv
        (.ObjectParameter (demoParams demoPool "X" (.other demoStream)))
        (.BearerToken (some demoTok)) []).1 = .returned none
    ∧ ((mockCaller.Create demoEnv
        (.ObjectParameter (demoParams demoPool "X" (.other demoStream)))
        (.BearerToken (some demoTok)) []).2).map
          (fun e => match e with
            | .RawClient => "RawClient"
            | .NetworkInfo => "NetworkInfo"
            | .InitPut _ => "InitPut"
            | .WriterClose => "WriterClose"
            | .Emit _ _ => "Emit"
            | .Send _ => "Send"
            | _ => "other") = ["RawClient", "NetworkInfo", "InitPut"]
    ∧ Effect.WriterClose ∉ (mockCaller.Create demoEnv
        (.ObjectParameter (demoParams demoPool "X" (.other demoStream)))
        (.BearerToken (some demoTok)) []).2
    ∧ emitsOf (mockCaller.Create demoEnv
        (.ObjectParameter (demoParams demoPool "X" (.other demoStream)))
        (.BearerToken (some demoTok)) []).2 = []
    ∧ sendsOf (mockCaller.Create demoEnv
        (.ObjectParameter (demoParams demoPool "X" (.other demoStream)))
        (.BearerToken (some demoTok)) []).2 = [] := by
  decide

/-! ## Lemmas on `InitWriter` and `Create` -/

/-- `InitWriter` sends nothing on the action channel. -/
theorem initWriter_sends (env : Env) (p : ObjectParameter) (token : Token) (tr : List Effect) :
    sendsOf (InitWriter env p token tr).2.2 = sendsOf tr := by
  unfold InitWriter
  cases env.cidDecodeString p.ParentID with
  | error e => rfl
  | ok cnr =>
    cases p.ForUser with
    | error e => rfl
    | ok gA =>
      dsimp only
      cases p.Pool.RawClient tr with
      | some e => simp [sendsOf_append, sendsOf]
      | none =>
        dsimp only
        cases p.Pool.NetworkInfo (tr ++ [Effect.RawClient]) with
        | error e => simp [sendsOf_append, sendsOf]
        | ok ni =>
          dsimp only
          cases bearerOrPrivate token "no bearer token provided" with
          | error e => simp [sendsOf_append, sendsOf]
          | panicked => simp [sendsOf_append, sendsOf]
          | ok bt =>
            dsimp only
            split <;> simp [sendsOf_append, sendsOf]

/-- `InitWriter` with a credential of neither kind, validation having passed:
the credential is examined after the network-info query. -/
theorem initWriter_other (env : Env) (p : ObjectParameter) (tr : List Effect)
    (cnrID : String) (gA : Account) (ni : NetInfo)
    (hcid : env.cidDecodeString p.ContainerId = .ok cnrID)
    (hacc : p.GateAccount = some gA)
    (hraw : p.Pl.RawClient tr = none)
    (hni : p.Pl.NetworkInfo (tr ++ [Effect.RawClient]) = .ok ni) :
    InitWriter env p .other tr =
      (.error (.New "no bearer token provided"), p, tr ++ [Effect.RawClient, Effect.NetworkInfo]) := by
  simp [InitWriter, ObjectParameter.ParentID, ObjectParameter.ForUser, ObjectParameter.Pool,
    hcid, hacc, hraw, hni, bearerOrPrivate]

/-- `InitWriter` never opens a payload writer for a credential of neither kind. -/
theorem initWriter_other_no_put (env : Env) (p : ObjectParameter) (tr : List Effect) :
    (∀ w, (InitWriter env p .other tr).1 ≠ .ok w)
    ∧ (∀ req, Effect.InitPut req ∈ (InitWriter env p .other tr).2.2 → Effect.InitPut req ∈ tr) := by
  unfold InitWriter
  cases env.cidDecodeString p.ParentID with
  | error e => simp
  | ok cnr =>
    cases p.ForUser with
    | error e => simp
    | ok gA =>
      dsimp only
      cases p.Pool.RawClient tr with
      | some e => simp
      | none =>
        dsimp only
        cases p.Pool.NetworkInfo (tr ++ [Effect.RawClient]) with
        | error e => simp
        | ok ni => simp [bearerOrPrivate]

/-- What the loop of `Create` has sent when it ends. -/
theorem createLoop_sends (o : ObjectCaller)
    (write : List Effect → List Nat → Option GoError) (remote : Bool) :
    ∀ (rs : List ReadResult) (buf : List Nat) (tr : List Effect),
      (∀ tr1, Create.loop o write remote rs buf tr = (none, tr1) → sendsOf tr1 = sendsOf tr)
      ∧ (∀ r tr1, Create.loop o write remote rs buf tr = (some (.returned r), tr1) →
          ∃ e t, r = some e ∧
            sendsOf tr1 = sendsOf tr ++
              [o.Notification t e.Error notification.Error .ActionNotification]) := by
  intro rs
  induction rs with
  | nil => intro buf tr; simp [Create.loop]
  | cons x rs ih =>
    intro buf tr
    by_cases h : x.data.length ≤ buf.length
    · rw [createLoop_cons o write remote x rs buf tr h]
      obtain ⟨d, e⟩ := x
      have hs : sendsOf (tr ++ (if d = [] then [Effect.Read 0]
          else [Effect.Read d.length, Effect.Write remote d])) = sendsOf tr := by
        by_cases hd : d = [] <;> simp [hd, sendsOf_append, sendsOf]
      cases hw : (if d = [] then none else write (tr ++ [Effect.Read d.length]) d) with
      | some err =>
        refine ⟨by simp, ?_⟩
        intro r tr1 hr
        simp only [Prod.mk.injEq, Option.some.injEq, Outcome.returned.injEq] at hr
        obtain ⟨h1, h2⟩ := hr
        subst h1; subst h2
        exact ⟨err, "failed to write to buffer", rfl, by simp [sendsOf_append, sendsOf]⟩
      | none =>
        rcases e with _ | e
        · dsimp only
          obtain ⟨ih1, ih2⟩ := ih (fillBuf buf d) (tr ++ (if d = [] then [Effect.Read 0]
            else [Effect.Read d.length, Effect.Write remote d]))
          constructor
          · intro tr1 h1; rw [ih1 tr1 h1, hs]
          · intro r tr1 h1
            obtain ⟨e1, t, he, hsend⟩ := ih2 r tr1 h1
            exact ⟨e1, t, he, by rw [hsend, hs]⟩
        · cases e with
          | EOF =>
            dsimp only
            constructor
            · intro tr1 h1
              simp only [Prod.mk.injEq, true_and] at h1
              rw [← h1, hs]
            · intro r tr1 h1; simp at h1
          | New a =>
            dsimp only
            refine ⟨by simp, ?_⟩
            intro r tr1 hr
            simp only [Prod.mk.injEq, Option.some.injEq, Outcome.returned.injEq] at hr
            obtain ⟨h1, h2⟩ := hr
            subst h1; subst h2
            exact ⟨_, "error", rfl, by rw [sendsOf_append, hs]; rfl⟩
          | NumError a b c =>
            dsimp only
            refine ⟨by simp, ?_⟩
            intro r tr1 hr
            simp only [Prod.mk.injEq, Option.some.injEq, Outcome.returned.injEq] at hr
            obtain ⟨h1, h2⟩ := hr
            subst h1; subst h2
            exact ⟨_, "error", rfl, by rw [sendsOf_append, hs]; rfl⟩
          | Wrap a b =>
            dsimp only
            refine ⟨by simp, ?_⟩
            intro r tr1 hr
            simp only [Prod.mk.injEq, Option.some.injEq, Outcome.returned.injEq] at hr
            obtain ⟨h1, h2⟩ := hr
            subst h1; subst h2
            exact ⟨_, "error", rfl, by rw [sendsOf_append, hs]; rfl⟩
    · rw [Create.loop, if_pos (by omega)]
      simp

/-- What `Create` has sent once the part after its loop returns. -/
theorem createFinish_sends (o : ObjectCaller) (p : Parameters)
    (objectParameters : Option ObjectParameter) (token : Token) (tr : List Effect)
    (r : Option GoError)
    (h : (Create.finish o p objectParameters token tr).1 = .returned r) :
    sendsOf (Create.finish o p objectParameters token tr).2 = sendsOf tr
    ∨ (r = none ∧ ∃ d, sendsOf (Create.finish o p objectParameters token tr).2 =
        sendsOf tr ++ [o.Notification "upload complete!" d notification.Success
          .ActionNotification])
    ∨ (∃ e t d, r = some e ∧ sendsOf (Create.finish o p objectParameters token tr).2 =
        sendsOf tr ++ [o.Notification t d notification.Error .ActionNotification]) := by
  unfold Create.finish at h ⊢
  cases hb : bearerOrPrivate token "no bearer token provided" with
  | error e => exact Or.inl rfl
  | panicked => exact Or.inl rfl
  | ok bt =>
    rw [hb] at h
    dsimp only at h ⊢
    by_cases hv : bt.VerifySignature = true
    · simp only [hv, Bool.not_true, Bool.false_eq_true, if_false] at h ⊢
      have failed : ∀ (res : Outcome × List Effect),
          res = (.returned (some (.New "could retriever the writer.")),
            tr ++ [Effect.Send (o.Notification "upload failed"
              ("object " ++ p.ID ++ " failed to upload") notification.Error
              .ActionNotification)]) →
          res.1 = .returned r →
          (sendsOf res.2 = sendsOf tr
            ∨ (r = none ∧ ∃ d, sendsOf res.2 =
                sendsOf tr ++ [o.Notification "upload complete!" d notification.Success
                  .ActionNotification])
            ∨ (∃ e t d, r = some e ∧ sendsOf res.2 =
                sendsOf tr ++ [o.Notification t d notification.Error .ActionNotification])) := by
        intro res hres hr
        subst hres
        simp only [Outcome.returned.injEq] at hr
        exact Or.inr (Or.inr ⟨_, "upload failed", "object " ++ p.ID ++ " failed to upload",
          hr.symm, by simp [sendsOf_append, sendsOf]⟩)
      cases objectParameters with
      | none => exact failed _ rfl h
      | some op =>
        dsimp only at h ⊢
        cases hwc : op.WriteCloser with
        | nil => rw [hwc] at h; exact failed _ rfl h
        | other => rw [hwc] at h; exact failed _ rfl h
        | PayloadWriter =>
          rw [hwc] at h
          dsimp only at h ⊢
          cases hc : op.Pl.WriterClose tr with
          | some err => exact Or.inl (by simp [sendsOf_append, sendsOf])
          | none =>
            rw [hc] at h
            simp only [Outcome.returned.injEq] at h
            exact Or.inr (Or.inl ⟨h.symm,
              "object " ++ op.Pl.WriterID (tr ++ [Effect.WriterClose]) ++ " completed",
              by simp [sendsOf_append, sendsOf]⟩)
    · simp only [Bool.not_eq_true] at hv
      simp [hv]

/-- What `Create` has sent once its loop and what follows it return. -/
theorem createTransfer_sends (o : ObjectCaller) (p : Parameters)
    (objectParameters : Option ObjectParameter) (s : Stream) (remote : Bool)
    (token : Token) (tr : List Effect) (r : Option GoError)
    (h : (Create.transfer o p objectParameters s remote token tr).1 = .returned r) :
    sendsOf (Create.transfer o p objectParameters s remote token tr).2 = sendsOf tr
    ∨ (r = none ∧ ∃ d, sendsOf (Create.transfer o p objectParameters s remote token tr).2 =
        sendsOf tr ++ [o.Notification "upload complete!" d notification.Success
          .ActionNotification])
    ∨ (∃ e t d, r = some e ∧
        sendsOf (Create.transfer o p objectParameters s remote token tr).2 =
        sendsOf tr ++ [o.Notification t d notification.Error .ActionNotification]) := by
  unfold Create.transfer at h ⊢
  obtain ⟨l1, l2⟩ := createLoop_sends o s.write remote s.reads newBuf tr
  rcases hl : Create.loop o s.write remote s.reads newBuf tr with ⟨out, tr1⟩
  rw [hl] at h
  cases out with
  | some out =>
    dsimp only at h ⊢
    subst h
    obtain ⟨e, t, he, hs⟩ := l2 r tr1 hl
    exact Or.inr (Or.inr ⟨e, t, e.Error, he, hs⟩)
  | none =>
    dsimp only at h ⊢
    have hs := l1 tr1 hl
    rcases createFinish_sends o p objectParameters token tr1 r h with h1 | ⟨h1, d, h2⟩ |
      ⟨e, t, d, h1, h2⟩
    · exact Or.inl (by rw [h1, hs])
    · exact Or.inr (Or.inl ⟨h1, d, by rw [h2, hs]⟩)
    · exact Or.inr (Or.inr ⟨e, t, d, h1, by rw [h2, hs]⟩)

/-- What a returning `Create` has sent. -/
theorem create_sends (env : Env) (o : ObjectCaller) (p : Parameters) (token : Token)
    (tr : List Effect) (r : Option GoError)
    (h : (o.Create env p token tr).1 = .returned r) :
    sendsOf (o.Create env p token tr).2 = sendsOf tr
    ∨ (r = none ∧ ∃ d, sendsOf (o.Create env p token tr).2 =
        sendsOf tr ++ [o.Notification "upload complete!" d notification.Success
          .ActionNotification])
    ∨ (∃ e t d, r = some e ∧ sendsOf (o.Create env p token tr).2 =
        sendsOf tr ++ [o.Notification t d notification.Error .ActionNotification]) := by
  unfold ObjectCaller.Create at h ⊢
  cases p with
  | other f => exact createTransfer_sends o _ none f.stream false token tr r h
  | ObjectParameter params =>
    dsimp only at h ⊢
    have hq := initWriter_sends env params token tr
    rcases hi : InitWriter env params token tr with ⟨res, op, tr1⟩
    rw [hi] at h hq
    dsimp only at hq
    cases res with
    | error e => exact Or.inl hq
    | panicked => exact Or.inl hq
    | ok w =>
      dsimp only at h ⊢
      cases hrw : op.ReadWriter with
      | other s => exact Or.inl hq
      | DualStream ds =>
        rw [hrw] at h
        dsimp only at h ⊢
        rcases createTransfer_sends o (.ObjectParameter params) (some op)
          { reads := ds.reads, write := op.Pl.WriterWrite } true token tr1 r h with
          h1 | ⟨h1, d, h2⟩ | ⟨e, t, d, h1, h2⟩
        · exact Or.inl (by rw [h1, hq])
        · exact Or.inr (Or.inl ⟨h1, d, by rw [h2, hq]⟩)
        · exact Or.inr (Or.inr ⟨e, t, d, h1, by rw [h2, hq]⟩)

/-- The writes for `pre ++ [r]` succeed exactly when those for `pre` do and the
write of the bytes of `r`, if any, does. -/
theorem writesAccepted_snoc (write : List Effect → List Nat → Option GoError) (remote : Bool)
    (r : ReadResult) :
    ∀ (pre : List ReadResult) (t : List Effect),
      writesAccepted write remote (pre ++ [r]) t = true →
      writesAccepted write remote pre t = true ∧
        (if r.data = [] then none
          else write (t ++ (transferEffects remote pre ++ [Effect.Read r.data.length])) r.data)
          = none := by
  intro pre
  induction pre with
  | nil =>
    intro t h
    simp only [List.nil_append, writesAccepted, Bool.and_true, Bool.or_eq_true,
      List.isEmpty_iff, Option.isNone_iff_eq_none] at h
    refine ⟨rfl, ?_⟩
    rcases h with h | h
    · simp [h]
    · by_cases hd : r.data = []
      · simp [hd]
      · simpa [hd, transferEffects] using h
  | cons a pre ih =>
    intro t h
    simp only [List.cons_append, writesAccepted, Bool.and_eq_true] at h
    obtain ⟨ha, hrest⟩ := h
    obtain ⟨h1, h2⟩ := ih _ hrest
    refine ⟨by simp only [writesAccepted, Bool.and_eq_true]; exact ⟨ha, h1⟩, ?_⟩
    have ht : t ++ (transferEffects remote (a :: pre) ++ [Effect.Read r.data.length])
        = t ++ transferEffects remote [a] ++
            (transferEffects remote pre ++ [Effect.Read r.data.length]) := by
      have : transferEffects remote (a :: pre)
          = transferEffects remote [a] ++ transferEffects remote pre := by
        rw [← transferEffects_append]; rfl
      rw [this]; simp only [List.append_assoc]
    rw [ht]; exact h2

/-- The loop of `Create` stops at the first failing `Write`. -/
theorem createLoop_write_error (o : ObjectCaller)
    (write : List Effect → List Nat → Option GoError) (remote : Bool)
    (pre : List ReadResult) (d : List Nat) (x : Option GoError) (rest : List ReadResult)
    (e : GoError) (tr : List Effect)
    (hnil : ∀ r ∈ pre, r.err = none) (hcap : ∀ r ∈ pre, r.data.length ≤ 1024)
    (hlen : d.length ≤ 1024) (hacc : writesAccepted write remote pre tr = true)
    (hd : d ≠ [])
    (hwr : write (tr ++ transferEffects remote pre ++ [Effect.Read d.length]) d = some e) :
    Create.loop o write remote (pre ++ ⟨d, x⟩ :: rest) newBuf tr =
      (some (.returned (some e)),
        tr ++ transferEffects remote pre ++ [Effect.Read d.length, Effect.Write remote d,
          Effect.Send (o.Notification "failed to write to buffer" e.Error
            notification.Error .ActionNotification)]) := by
  obtain ⟨buf2, hb, heq⟩ := createLoop_pre o write remote (⟨d, x⟩ :: rest)
    pre newBuf tr hnil (by simpa [newBuf_length] using hcap) hacc
  rw [heq, createLoop_cons o write remote _ rest buf2 _ (by rw [hb, newBuf_length]; exact hlen)]
  simp only [List.append_assoc] at hwr
  simp [hd, hwr]

/-- The loop of `Create` stops at the first read error other than end-of-stream. -/
theorem createLoop_read_error (o : ObjectCaller)
    (write : List Effect → List Nat → Option GoError) (remote : Bool)
    (pre : List ReadResult) (d : List Nat) (e : GoError) (rest : List ReadResult)
    (tr : List Effect) (he : e ≠ .EOF)
    (hnil : ∀ r ∈ pre, r.err = none) (hcap : ∀ r ∈ pre, r.data.length ≤ 1024)
    (hlen : d.length ≤ 1024)
    (hacc : writesAccepted write remote (pre ++ [⟨d, some e⟩]) tr = true) :
    Create.loop o write remote (pre ++ ⟨d, some e⟩ :: rest) newBuf tr =
      (some (.returned (some e)),
        tr ++ transferEffects remote (pre ++ [⟨d, some e⟩]) ++
          [Effect.Send (o.Notification "error" e.Error
            notification.Error .ActionNotification)]) := by
  obtain ⟨hpre, hcase⟩ := writesAccepted_snoc write remote _ pre tr hacc
  obtain ⟨buf2, hb, heq⟩ := createLoop_pre o write remote (⟨d, some e⟩ :: rest)
    pre newBuf tr hnil (by simpa [newBuf_length] using hcap) hpre
  rw [heq, createLoop_cons o write remote _ rest buf2 _ (by rw [hb, newBuf_length]; exact hlen),
    transferEffects_append]
  simp only [List.append_assoc] at hcase ⊢
  simp only [hcase]
  cases e with
  | EOF => exact absurd rfl he
  | New t => by_cases hd : d = [] <;> simp [hd, transferEffects]
  | NumError a b c => by_cases hd : d = [] <;> simp [hd, transferEffects]
  | Wrap a b => by_cases hd : d = [] <;> simp [hd, transferEffects]

/-- The loop of `Create` breaks at end-of-stream. -/
theorem createLoop_end_of_stream (o : ObjectCaller)
    (write : List Effect → List Nat → Option GoError) (remote : Bool)
    (pre : List ReadResult) (d : List Nat) (rest : List ReadResult)
    (tr : List Effect)
    (hnil : ∀ r ∈ pre, r.err = none) (hcap : ∀ r ∈ pre, r.data.length ≤ 1024)
    (hlen : d.length ≤ 1024)
    (hacc : writesAccepted write remote (pre ++ [⟨d, some .EOF⟩]) tr = true) :
    Create.loop o write remote (pre ++ ⟨d, some .EOF⟩ :: rest) newBuf tr =
      (none, tr ++ transferEffects remote (pre ++ [⟨d, some .EOF⟩])) := by
  obtain ⟨hpre, hcase⟩ := writesAccepted_snoc write remote _ pre tr hacc
  obtain ⟨buf2, hb, heq⟩ := createLoop_pre o write remote (⟨d, some .EOF⟩ :: rest)
    pre newBuf tr hnil (by simpa [newBuf_length] using hcap) hpre
  rw [heq, createLoop_cons o write remote _ rest buf2 _ (by rw [hb, newBuf_length]; exact hlen),
    transferEffects_append]
  simp only [List.append_assoc] at hcase ⊢
  simp only [hcase]
  by_cases hd : d = [] <;> simp [hd, transferEffects]

/-- A writer returned by `InitWriter` is the payload writer, stored in the
parameters. -/
theorem initWriter_ok (env : Env) (p : ObjectParameter) (token : Token) (tr : List Effect)
    (w : WriteCloserValue) (op : ObjectParameter) (tr1 : List Effect)
    (h : InitWriter env p token tr = (.ok w, op, tr1)) :
    op.WriteCloser = .PayloadWriter := by
  unfold InitWriter at h
  cases hc : env.cidDecodeString p.ParentID with
  | error err => simp [hc] at h
  | ok cnrID =>
    cases hf : p.ForUser with
    | error err => simp [hc, hf] at h
    | ok gA =>
      cases hr : p.Pool.RawClient tr with
      | some err => simp [hc, hf, hr] at h
      | none =>
        cases hn : p.Pool.NetworkInfo (tr ++ [Effect.RawClient]) with
        | error err => simp [hc, hf, hr, hn] at h
        | ok ni =>
          cases hb : bearerOrPrivate token "no bearer token provided" with
          | error err => simp [hc, hf, hr, hn, hb] at h
          | panicked => simp [hc, hf, hr, hn, hb] at h
          | ok bt =>
            simp only [hc, hf, hr, hn, hb] at h
            split at h
            · simp at h
            · simp only [Prod.mk.injEq] at h
              rw [← h.2.1]

/-! ## C7: the notifications of `Create` -/

/-- C7 as stated fails: with a credential of neither kind `Create` returns the
no-bearer-token error of `InitWriter` and nothing has been sent on the action
channel. -/
theorem create_unrecognized_credential_sends_nothing :
    (mockCaller.Create demoEnv
        (.ObjectParameter (demoParams demoPool "X" (.DualStream demoStream))) .other []).1 =
      .returned (some (.New "no bearer token provided"))
    ∧ sendsOf (mockCaller.Create demoEnv
        (.ObjectParameter (demoParams demoPool "X" (.DualStream demoStream))) .other []).2 = [] := by
  decide

/-- C7 (amended): when `InitWriter` fails (an unrecognized credential included)
`Create` returns its error and has sent nothing.  Once the writer is open on a
`DualStream`, or on parameters that need none, and after any reads without
error whose writes succeeded: a failing `Write` ends `Create` with the write
error and exactly one error record describing it; a read error other than
end-of-stream ends it with that error and exactly one error record describing
it; at end-of-stream with a credential that verifies, `Create` closes the
payload writer and, the close succeeding, emits the object and returns nil
with exactly one success record naming the identifier the writer assigned,
or, there being no payload writer, returns an error with exactly one error
record "upload failed". -/
theorem create_notifies_exactly_once_past_writer_setup
    (env : Env) (o : ObjectCaller) (token : Token) (tr : List Effect) :
    (∀ (params : ObjectParameter) (e : GoError),
        (InitWriter env params token tr).1 = .error e →
        o.Create env (.ObjectParameter params) token tr =
          (.returned (some e), (InitWriter env params token tr).2.2)
        ∧ sendsOf (InitWriter env params token tr).2.2 = sendsOf tr)
    ∧ (∀ (params op : ObjectParameter) (w : WriteCloserValue) (tr1 : List Effect)
        (ds : Stream) (pre : List ReadResult) (d : List Nat) (x : Option GoError)
        (rest : List ReadResult),
        InitWriter env params token tr = (.ok w, op, tr1) →
        op.ReadWriter = .DualStream ds →
        ds.reads = pre ++ ⟨d, x⟩ :: rest →
        (∀ r ∈ pre, r.err = none) → (∀ r ∈ pre, r.data.length ≤ 1024) → d.length ≤ 1024 →
        (∀ e, writesAccepted op.Pl.WriterWrite true pre tr1 = true → d ≠ [] →
          op.Pl.WriterWrite (tr1 ++ transferEffects true pre ++ [Effect.Read d.length]) d
            = some e →
          o.Create env (.ObjectParameter params) token tr =
            (.returned (some e),
              tr1 ++ transferEffects true pre ++
                [Effect.Read d.length, Effect.Write true d,
                  Effect.Send (o.Notification "failed to write to buffer" e.Error
                    notification.Error .ActionNotification)]))
        ∧ (∀ e, x = some e → e ≠ .EOF →
          writesAccepted op.Pl.WriterWrite true (pre ++ [⟨d, x⟩]) tr1 = true →
          o.Create env (.ObjectParameter params) token tr =
            (.returned (some e),
              tr1 ++ transferEffects true (pre ++ [⟨d, x⟩]) ++
                [Effect.Send (o.Notification "error" e.Error
                  notification.Error .ActionNotification)]))
        ∧ (∀ bt, x = some .EOF →
          writesAccepted op.Pl.WriterWrite true (pre ++ [⟨d, x⟩]) tr1 = true →
          bearerOrPrivate token "no bearer token provided" = .ok bt →
          bt.VerifySignature = true →
          op.Pl.WriterClose (tr1 ++ transferEffects true (pre ++ [⟨d, x⟩])) = none →
          o.Create env (.ObjectParameter params) token tr =
            (.returned none,
              tr1 ++ transferEffects true (pre ++ [⟨d, x⟩]) ++
                [Effect.WriterClose,
                  Effect.Emit emitter.ObjectAddUpdate
                    { ParentID := params.ParentID,
                      Id := op.Pl.WriterID
                        (tr1 ++ transferEffects true (pre ++ [⟨d, x⟩]) ++ [Effect.WriterClose]) },
                  Effect.Send (o.Notification "upload complete!"
                    ("object " ++ op.Pl.WriterID
                        (tr1 ++ transferEffects true (pre ++ [⟨d, x⟩]) ++ [Effect.WriterClose])
                      ++ " completed")
                    notification.Success .ActionNotification)])))
    ∧ (∀ (f : ForeignParameters) (pre : List ReadResult) (d : List Nat) (x : Option GoError)
        (rest : List ReadResult),
        f.stream.reads = pre ++ ⟨d, x⟩ :: rest →
        (∀ r ∈ pre, r.err = none) → (∀ r ∈ pre, r.data.length ≤ 1024) → d.length ≤ 1024 →
        (∀ e, writesAccepted f.stream.write false pre tr = true → d ≠ [] →
          f.stream.write (tr ++ transferEffects false pre ++ [Effect.Read d.length]) d
            = some e →
          o.Create env (.other f) token tr =
            (.returned (some e),
              tr ++ transferEffects false pre ++
                [Effect.Read d.length, Effect.Write false d,
                  Effect.Send (o.Notification "failed to write to buffer" e.Error
                    notification.Error .ActionNotification)]))
        ∧ (∀ e, x = some e → e ≠ .EOF →
          writesAccepted f.stream.write false (pre ++ [⟨d, x⟩]) tr = true →
          o.Create env (.other f) token tr =
            (.returned (some e),
              tr ++ transferEffects false (pre ++ [⟨d, x⟩]) ++
                [Effect.Send (o.Notification "error" e.Error
                  notification.Error .ActionNotification)]))
        ∧ (∀ bt, x = some .EOF →
          writesAccepted f.stream.write false (pre ++ [⟨d, x⟩]) tr = true →
          bearerOrPrivate token "no bearer token provided" = .ok bt →
          bt.VerifySignature = true →
          o.Create env (.other f) token tr =
            (.returned (some (.New "could retriever the writer.")),
              tr ++ transferEffects false (pre ++ [⟨d, x⟩]) ++
                [Effect.Send (o.Notification "upload failed"
                  ("object " ++ f.ID ++ " failed to upload")
                  notification.Error .ActionNotification)]))) := by
  refine ⟨?_, ?_, ?_⟩
  · intro params e hi
    have hq := initWriter_sends env params token tr
    rcases hw : InitWriter env params token tr with ⟨res, op, tr1⟩
    rw [hw] at hi hq
    dsimp only at hi hq
    subst hi
    simp only [ObjectCaller.Create, hw]
    exact ⟨trivial, hq⟩
  · intro params op w tr1 ds pre d x rest hiw hrw hreads hnil hcap hlen
    have hwc := initWriter_ok env params token tr w op tr1 hiw
    refine ⟨?_, ?_, ?_⟩
    · intro e hacc hd hwr
      simp only [ObjectCaller.Create, hiw, hrw, Create.transfer, hreads]
      rw [createLoop_write_error o op.Pl.WriterWrite true pre d x rest e tr1 hnil hcap hlen
        hacc hd hwr]
    · intro e hx he hacc
      subst hx
      simp only [ObjectCaller.Create, hiw, hrw, Create.transfer, hreads]
      rw [createLoop_read_error o op.Pl.WriterWrite true pre d e rest tr1 he hnil hcap hlen hacc]
    · intro bt hx hacc hb hv hc
      subst hx
      simp only [ObjectCaller.Create, hiw, hrw, Create.transfer, hreads]
      rw [createLoop_end_of_stream o op.Pl.WriterWrite true pre d rest tr1 hnil hcap hlen hacc]
      simp [Create.finish, hb, hv, hwc, hc, Parameters.ParentID]
  · intro f pre d x rest hreads hnil hcap hlen
    refine ⟨?_, ?_, ?_⟩
    · intro e hacc hd hwr
      simp only [ObjectCaller.Create, Create.transfer, Parameters.stream, hreads]
      rw [createLoop_write_error o f.stream.write false pre d x rest e tr hnil hcap hlen
        hacc hd hwr]
    · intro e hx he hacc
      subst hx
      simp only [ObjectCaller.Create, Create.transfer, hreads]
      rw [createLoop_read_error o f.stream.write false pre d e rest tr he hnil hcap hlen hacc]
    · intro bt hx hacc hb hv
      subst hx
      simp only [ObjectCaller.Create, Create.transfer, hreads]
      rw [createLoop_end_of_stream o f.stream.write false pre d rest tr hnil hcap hlen hacc]
      simp [Create.finish, hb, hv, Parameters.ID]

/-- C7 (amended) on the demonstration remote.  A complete upload: `Create`
returns nil, and after the setup of the writer its effects are the transfer of
the stream, the close, the event and the one success record.  Parameters that
are not an `ObjectParameter`: the stream is transferred and `Create` returns
an error with the one record "upload failed". -/
theorem create_notifies_exactly_once_past_writer_setup_witness :
    mockCaller.Create demoEnv
        (.ObjectParameter (demoParams demoPool "X" (.DualStream demoStream)))
        (.BearerToken (some demoTok)) [] =
      (.returned none,
        (InitWriter demoEnv (demoParams demoPool "X" (.DualStream demoStream))
            (.BearerToken (some demoTok)) []).2.2 ++
          [Effect.Read 3, Effect.Write true [1, 2, 3], Effect.Read 0, Effect.Read 1,
            Effect.Write true [4], Effect.WriterClose,
            Effect.Emit emitter.ObjectAddUpdate { ParentID := "C", Id := "NEW" },
            Effect.Send (mockCaller.Notification "upload complete!" "object NEW completed"
              notification.Success .ActionNotification)])
    ∧ mockCaller.Create demoEnv (.other demoForeign) (.BearerToken (some demoTok)) [] =
      (.returned (some (.New "could retriever the writer.")),
        [Effect.Read 3, Effect.Write false [1, 2, 3], Effect.Read 0, Effect.Read 1,
          Effect.Write false [4],
          Effect.Send (mockCaller.Notification "upload failed" "object X failed to upload"
            notification.Error .ActionNotification)]) := by
  have h := ((create_notifies_exactly_once_past_writer_setup demoEnv mockCaller
    (.BearerToken (some demoTok)) []).2.1
    (demoParams demoPool "X" (.DualStream demoStream))
    (InitWriter demoEnv (demoParams demoPool "X" (.DualStream demoStream))
      (.BearerToken (some demoTok)) []).2.1
    .PayloadWriter
    (InitWriter demoEnv (demoParams demoPool "X" (.DualStream demoStream))
      (.BearerToken (some demoTok)) []).2.2
    demoStream [⟨[1, 2, 3], none⟩, ⟨[], none⟩] [4] (some .EOF) []
    rfl rfl rfl (by decide) (by decide) (by decide)).2.2 demoTok rfl (by decide) rfl rfl rfl
  have h2 := ((create_notifies_exactly_once_past_writer_setup demoEnv mockCaller
    (.BearerToken (some demoTok)) []).2.2
    demoForeign [⟨[1, 2, 3], none⟩, ⟨[], none⟩] [4] (some .EOF) []
    rfl (by decide) (by decide) (by decide)).2.2 demoTok rfl (by decide) rfl rfl
  refine ⟨?_, ?_⟩
  · rw [h]; rfl
  · rw [h2]; rfl

/-! ## C8, C10: credentials of neither kind, and session credentials -/

/-- C8 as stated fails: with a credential of neither kind `InitWriter` returns
the no-bearer-token error after it has issued the network-info query. -/
theorem initWriter_queries_network_before_credential :
    (InitWriter demoEnv (demoParams demoPool "X" (.DualStream demoStream)) .other []).1 =
      .error (.New "no bearer token provided")
    ∧ (InitWriter demoEnv (demoParams demoPool "X" (.DualStream demoStream)) .other []).2.2 =
      [Effect.RawClient, Effect.NetworkInfo]
    ∧ Effect.NetworkInfo.isNetwork = true := by
  decide

/-- C8 (amended): for a credential that is neither a `BearerToken` nor a
`PrivateBearerToken`: `Head` and `List` on any parameters whose identifiers
decode and whose gate account is present, and `Delete` and `InitReader` on an
`ObjectParameter` of that kind, return the no-token / no-bearer-token error
without any call at all.  `InitWriter`, and `Create` on an `ObjectParameter`
through it, once the container identifier decodes and the gate account is
present, obtain the pool's `RawClient` and query the network info before they
test the credential: when both succeed they return the no-bearer-token error
after exactly these two calls; when `RawClient` fails they return its error
and when the network-info query fails they return its error wrapped, the
credential untested.  In no case do they get a writer or call `InitPut`. -/
theorem unrecognized_credential_is_rejected
    (env : Env) (o : ObjectCaller) (tr : List Effect) :
    (∀ (p : Parameters) (objID cnrID : String) (gA : Account),
        env.oidDecodeString p.ID = .ok objID → env.cidDecodeString p.ParentID = .ok cnrID →
        p.ForUser = .ok gA →
        o.Head env p .other tr = (.returned (some (.New env.ErrorNoToken)), tr))
    ∧ (∀ (p : Parameters) (cnrID : String) (gA : Account),
        env.cidDecodeString p.ParentID = .ok cnrID → p.ForUser = .ok gA →
        o.ListObjects env p .other tr =
          (.returned (some (.New "no bearer token provided")), tr))
    ∧ (∀ (params : ObjectParameter) (objID cnrID : String) (gA : Account),
        env.oidDecodeString params.Id = .ok objID →
        env.cidDecodeString params.ContainerId = .ok cnrID →
        params.GateAccount = some gA →
        o.Delete env (.ObjectParameter params) .other tr =
            (.returned (some (.New "no bearer token provided")), tr)
        ∧ InitReader env params .other tr = (.error (.New "no bearer token provided"), tr))
    ∧ (∀ (params : ObjectParameter) (cnrID : String) (gA : Account),
        env.cidDecodeString params.ContainerId = .ok cnrID →
        params.GateAccount = some gA →
        (∀ ni, params.Pl.RawClient tr = none →
          params.Pl.NetworkInfo (tr ++ [Effect.RawClient]) = .ok ni →
          InitWriter env params .other tr =
              (.error (.New "no bearer token provided"), params,
                tr ++ [Effect.RawClient, Effect.NetworkInfo])
          ∧ o.Create env (.ObjectParameter params) .other tr =
              (.returned (some (.New "no bearer token provided")),
                tr ++ [Effect.RawClient, Effect.NetworkInfo]))
        ∧ (∀ e, params.Pl.RawClient tr = some e →
          InitWriter env params .other tr = (.error e, params, tr ++ [Effect.RawClient])
          ∧ o.Create env (.ObjectParameter params) .other tr =
              (.returned (some e), tr ++ [Effect.RawClient]))
        ∧ (∀ e, params.Pl.RawClient tr = none →
          params.Pl.NetworkInfo (tr ++ [Effect.RawClient]) = .error e →
          InitWriter env params .other tr =
              (.error (.Wrap "network info: " e), params,
                tr ++ [Effect.RawClient, Effect.NetworkInfo])
          ∧ o.Create env (.ObjectParameter params) .other tr =
              (.returned (some (.Wrap "network info: " e)),
                tr ++ [Effect.RawClient, Effect.NetworkInfo])))
    ∧ (∀ (params : ObjectParameter),
        (∀ w, (InitWriter env params .other tr).1 ≠ .ok w)
        ∧ (∀ req, Effect.InitPut req ∈ (InitWriter env params .other tr).2.2 →
            Effect.InitPut req ∈ tr)
        ∧ (∃ e, (o.Create env (.ObjectParameter params) .other tr).1 = .returned (some e))
        ∧ (∀ req, Effect.InitPut req ∈ (o.Create env (.ObjectParameter params) .other tr).2 →
            Effect.InitPut req ∈ tr)) := by
  refine ⟨?_, ?_, ?_, ?_, ?_⟩
  · intro p objID cnrID gA hoid hcid hacc
    simp [ObjectCaller.Head, hoid, hcid, hacc, bearerOrPrivate]
  · intro p cnrID gA hcid hacc
    simp [ObjectCaller.ListObjects, hcid, hacc, bearerOnly]
  · intro params objID cnrID gA hoid hcid hacc
    constructor
    · simp [ObjectCaller.Delete, Parameters.ID, Parameters.ParentID, Parameters.ForUser,
        ObjectParameter.ID, ObjectParameter.ParentID, ObjectParameter.ForUser, hoid, hcid, hacc,
        bearerOnly]
    · simp [InitReader, ObjectParameter.ID, ObjectParameter.ParentID, ObjectParameter.ForUser,
        hoid, hcid, hacc, bearerOrPrivate]
  · intro params cnrID gA hcid hacc
    refine ⟨?_, ?_, ?_⟩
    · intro ni hraw hni
      have hw := initWriter_other env params tr cnrID gA ni hcid hacc hraw hni
      exact ⟨hw, by simp [ObjectCaller.Create, hw]⟩
    · intro e hraw
      have hw : InitWriter env params .other tr = (.error e, params, tr ++ [Effect.RawClient]) := by
        simp [InitWriter, ObjectParameter.ParentID, ObjectParameter.ForUser,
          ObjectParameter.Pool, hcid, hacc, hraw]
      exact ⟨hw, by simp [ObjectCaller.Create, hw]⟩
    · intro e hraw hni
      have hw : InitWriter env params .other tr =
          (.error (.Wrap "network info: " e), params,
            tr ++ [Effect.RawClient, Effect.NetworkInfo]) := by
        simp [InitWriter, ObjectParameter.ParentID, ObjectParameter.ForUser,
          ObjectParameter.Pool, hcid, hacc, hraw, hni]
      exact ⟨hw, by simp [ObjectCaller.Create, hw]⟩
  · intro params
    obtain ⟨h1, h2⟩ := initWriter_other_no_put env params tr
    refine ⟨h1, h2, ?_, ?_⟩
    · rcases hw : InitWriter env params .other tr with ⟨res, op, tr1⟩
      rw [hw] at h1
      cases res with
      | ok w => exact absurd rfl (h1 w)
      | error e => exact ⟨e, by simp [ObjectCaller.Create, hw]⟩
      | panicked =>
        exfalso
        have := hw
        unfold InitWriter at this
        cases hc : env.cidDecodeString params.ParentID with
        | error err => simp [hc] at this
        | ok c =>
          cases hf : params.ForUser with
          | error err => simp [hc, hf] at this
          | ok g =>
            cases hr : params.Pool.RawClient tr with
            | some err => simp [hc, hf, hr] at this
            | none =>
              cases hn : params.Pool.NetworkInfo (tr ++ [Effect.RawClient]) with
              | error err => simp [hc, hf, hr, hn] at this
              | ok ni => simp [hc, hf, hr, hn, bearerOrPrivate] at this
    · intro req hreq
      rcases hw : InitWriter env params .other tr with ⟨res, op, tr1⟩
      rw [hw] at h1 h2
      cases res with
      | ok w => exact absurd rfl (h1 w)
      | error e =>
        simp only [ObjectCaller.Create, hw] at hreq
        exact h2 req hreq
      | panicked =>
        simp only [ObjectCaller.Create, hw] at hreq
        exact h2 req hreq

/-- C8 (amended) on the demonstration remote: `Head` makes no call, `Create`
makes the two calls that precede the credential test. -/
theorem unrecognized_credential_is_rejected_witness :
    mockCaller.Head demoEnv
        (.ObjectParameter (demoParams demoPool "X" (.DualStream demoStream))) .other [] =
        (.returned (some (.New "no token")), [])
    ∧ mockCaller.Create demoEnv
        (.ObjectParameter (demoParams demoPool "X" (.DualStream demoStream))) .other [] =
        (.returned (some (.New "no bearer token provided")),
          [Effect.RawClient, Effect.NetworkInfo]) :=
  ⟨(unrecognized_credential_is_rejected demoEnv mockCaller []).1
      (.ObjectParameter (demoParams demoPool "X" (.DualStream demoStream))) "X" "C"
      { Address := "gate" } rfl rfl rfl,
    (((unrecognized_credential_is_rejected demoEnv mockCaller []).2.2.2.1
      (demoParams demoPool "X" (.DualStream demoStream)) "C" { Address := "gate" } rfl rfl).1
      { MaxObjectSize := 4096, CurrentEpoch := 7, HomomorphicHashingDisabled := true }
      rfl rfl).2⟩

/-- C10 as stated fails: given a session `PrivateBearerToken`, `InitWriter`
opens the payload writer with the token it holds. -/
theorem initWriter_opens_writer_for_private_bearer_token :
    (InitWriter demoEnv (demoParams demoPool "X" (.DualStream demoStream))
        (.PrivateBearerToken (some demoTok)) []).1 = .ok .PayloadWriter
    ∧ (InitWriter demoEnv (demoParams demoPool "X" (.DualStream demoStream))
        (.PrivateBearerToken (some demoTok)) []).2.2 =
      [Effect.RawClient, Effect.NetworkInfo,
        Effect.InitPut
          { ContainerID := "C", OwnerID := "owner", CreationEpoch := 7,
            Attributes := [("Timestamp", "1700000000")], ObjectPayloadLimit := 4096,
            CurrentNeoFSEpoch := 7, BearerToken := demoTok, HomomorphicChecksum := false }] := by
  decide

/-- C10 (amended): `InitWriter` treats a session `PrivateBearerToken` exactly as
a delegated `BearerToken` holding the same token; only a credential of neither
kind is refused: for it `InitWriter` never returns a writer and never calls
`slicer.InitPut`, and once validation, `RawClient` and the network-info query
have succeeded its error is the no-bearer-token error. -/
theorem initWriter_refuses_only_unrecognized_credentials
    (env : Env) (p : ObjectParameter) (t : Option BearerTok) (tr : List Effect) :
    InitWriter env p (.PrivateBearerToken t) tr = InitWriter env p (.BearerToken t) tr
    ∧ (∀ w, (InitWriter env p .other tr).1 ≠ .ok w)
    ∧ (∀ req, Effect.InitPut req ∈ (InitWriter env p .other tr).2.2 → Effect.InitPut req ∈ tr)
    ∧ (∀ cnrID gA ni, env.cidDecodeString p.ContainerId = .ok cnrID →
        p.GateAccount = some gA → p.Pl.RawClient tr = none →
        p.Pl.NetworkInfo (tr ++ [Effect.RawClient]) = .ok ni →
        (InitWriter env p .other tr).1 = .error (.New "no bearer token provided")) := by
  refine ⟨?_, (initWriter_other_no_put env p tr).1, (initWriter_other_no_put env p tr).2, ?_⟩
  · unfold InitWriter
    cases t <;> simp [bearerOrPrivate]
  · intro cnrID gA ni hcid hacc hraw hni
    rw [initWriter_other env p tr cnrID gA ni hcid hacc hraw hni]

/-- C10 (amended) on the demonstration remote. -/
theorem initWriter_refuses_only_unrecognized_credentials_witness :
    (InitWriter demoEnv (demoParams demoPool "X" (.DualStream demoStream)) .other []).1 =
      .error (.New "no bearer token provided") :=
  (initWriter_refuses_only_unrecognized_credentials demoEnv
    (demoParams demoPool "X" (.DualStream demoStream)) none []).2.2.2 "C" { Address := "gate" }
    { MaxObjectSize := 4096, CurrentEpoch := 7, HomomorphicHashingDisabled := true }
    rfl rfl rfl rfl

/-! ## C9: identifiers that do not decode -/

/-- C9 as stated fails: `Read` does not decode identifiers.  Given an object
identifier that does not decode, it reads the stream to its end, writes what it
read and returns nil. -/
theorem read_does_not_decode_identifiers :
    demoEnv.oidDecodeString "bad!" = .error (.New "decode: invalid identifier")
    ∧ mockCaller.Read (.ObjectParameter (demoParams demoPool "bad!" (.other demoStream)))
        (.BearerToken (some demoTok)) [] =
      (.returned none,
        [Effect.Read 3, Effect.Write false [1, 2, 3], Effect.Read 0, Effect.Read 1,
          Effect.Write false [4],
          Effect.Send
            { Id := notification.MockNotifier.GenerateIdentifier,
              Title := "download complete!",
              Description := "object bad! completed",
              Type_ := "success",
              Action := .ActionNotification }]) :=
  ⟨rfl, by decide⟩

/-- C9 (amended): the operations that decode an identifier return the decode
error before any call (the history is unchanged: no remote call, no read from
or write to the stream).  `Head`, `Delete` and `InitReader` decode the object
identifier and then the container identifier; `List`, `InitWriter`, and
`Create` on an `ObjectParameter` through `InitWriter`, decode the container
identifier.  (`Read` decodes nothing.) -/
theorem undecodable_identifier_is_rejected_before_any_call
    (env : Env) (o : ObjectCaller) (p : Parameters) (params : ObjectParameter)
    (token : Token) (tr : List Effect) (e : GoError) :
    (env.oidDecodeString p.ID = .error e →
        o.Head env p token tr = (.returned (some e), tr)
        ∧ o.Delete env p token tr = (.returned (some e), tr))
    ∧ (env.cidDecodeString p.ParentID = .error e →
        o.ListObjects env p token tr = (.returned (some e), tr)
        ∧ (∃ e1, (e1 = e ∨ env.oidDecodeString p.ID = .error e1)
            ∧ o.Head env p token tr = (.returned (some e1), tr)
            ∧ o.Delete env p token tr = (.returned (some e1), tr)))
    ∧ (env.oidDecodeString params.Id = .error e →
        InitReader env params token tr = (.error e, tr))
    ∧ (env.cidDecodeString params.ContainerId = .error e →
        (∃ e1, (e1 = e ∨ env.oidDecodeString params.Id = .error e1)
            ∧ InitReader env params token tr = (.error e1, tr))
        ∧ (InitWriter env params token tr).1 = .error e
        ∧ (InitWriter env params token tr).2.2 = tr
        ∧ o.Create env (.ObjectParameter params) token tr = (.returned (some e), tr)) := by
  refine ⟨?_, ?_, ?_, ?_⟩
  · intro h
    simp [ObjectCaller.Head, ObjectCaller.Delete, h]
  · intro h
    refine ⟨by simp [ObjectCaller.ListObjects, h], ?_⟩
    cases ho : env.oidDecodeString p.ID with
    | error e1 =>
      exact ⟨e1, Or.inr rfl, by simp [ObjectCaller.Head, ho], by simp [ObjectCaller.Delete, ho]⟩
    | ok objID =>
      exact ⟨e, Or.inl rfl, by simp [ObjectCaller.Head, ho, h],
        by simp [ObjectCaller.Delete, ho, h]⟩
  · intro h
    simp [InitReader, ObjectParameter.ID, h]
  · intro h
    have hw : InitWriter env params token tr = (.error e, params, tr) := by
      simp [InitWriter, ObjectParameter.ParentID, h]
    refine ⟨?_, by rw [hw], by rw [hw], by simp [ObjectCaller.Create, hw]⟩
    cases ho : env.oidDecodeString params.Id with
    | error e1 => exact ⟨e1, Or.inr rfl, by simp [InitReader, ObjectParameter.ID, ho]⟩
    | ok objID =>
      exact ⟨e, Or.inl rfl,
        by simp [InitReader, ObjectParameter.ID, ObjectParameter.ParentID, ho, h]⟩

/-- C9 (amended) on an object identifier that does not decode. -/
theorem undecodable_identifier_is_rejected_before_any_call_witness :
    demoEnv.oidDecodeString
        (Parameters.ObjectParameter (demoParams demoPool "bad!" (.other demoStream))).ID =
      .error (.New "decode: invalid identifier")
    ∧ mockCaller.Head demoEnv
        (.ObjectParameter (demoParams demoPool "bad!" (.other demoStream)))
        (.BearerToken (some demoTok)) [] =
      (.returned (some (.New "decode: invalid identifier")), [])
    ∧ mockCaller.Delete demoEnv
        (.ObjectParameter (demoParams demoPool "bad!" (.other demoStream)))
        (.BearerToken (some demoTok)) [] =
      (.returned (some (.New "decode: invalid identifier")), []) :=
  ⟨rfl,
    (undecodable_identifier_is_rejected_before_any_call demoEnv mockCaller
      (.ObjectParameter (demoParams demoPool "bad!" (.other demoStream)))
      (demoParams demoPool "bad!" (.other demoStream))
      (.BearerToken (some demoTok)) [] (.New "decode: invalid identifier")).1 rfl⟩

/-! ## C17: `TokenExpiryValue` -/

/-- C17: with a current epoch `e` and `roughEpochs = r` both below `2^64`,
`TokenExpiryValue` returns `(e, (e + r) mod 2^64, nil)` when the network-info
query succeeds and `(0, 0, err)` when it fails with `err`; the expiry returned
is at or after the current epoch exactly when `e + r < 2^64`, and strictly
before it when the addition wraps. -/
theorem tokenExpiryValue_wraps (pl : Pool) (r : Nat) (tr : List Effect) (hr : r < 2 ^ 64) :
    (∀ info, pl.NetworkInfo tr = .ok info → info.CurrentEpoch < 2 ^ 64 →
        (TokenExpiryValue pl r tr).1 =
            (info.CurrentEpoch, (info.CurrentEpoch + r) % 2 ^ 64, none)
        ∧ ((TokenExpiryValue pl r tr).1.1 ≤ (TokenExpiryValue pl r tr).1.2.1
            ↔ info.CurrentEpoch + r < 2 ^ 64)
        ∧ (2 ^ 64 ≤ info.CurrentEpoch + r →
            (TokenExpiryValue pl r tr).1.2.1 < (TokenExpiryValue pl r tr).1.1))
    ∧ (∀ err, pl.NetworkInfo tr = .error err →
        (TokenExpiryValue pl r tr).1 = (0, 0, some err)) := by
  constructor
  · intro info hinfo he
    have hval : (TokenExpiryValue pl r tr).1 =
        (info.CurrentEpoch, (info.CurrentEpoch + r) % 2 ^ 64, none) := by
      simp [TokenExpiryValue, hinfo]
    rw [hval]
    refine ⟨rfl, ?_, ?_⟩
    · show info.CurrentEpoch ≤ (info.CurrentEpoch + r) % 2 ^ 64 ↔ _
      constructor
      · intro hle
        by_contra hge
        have hge : 2 ^ 64 ≤ info.CurrentEpoch + r := Nat.le_of_not_lt hge
        have hmod : (info.CurrentEpoch + r) % 2 ^ 64 = info.CurrentEpoch + r - 2 ^ 64 := by
          rw [Nat.mod_eq_sub_mod hge, Nat.mod_eq_of_lt (by omega)]
        omega
      · intro hlt
        rw [Nat.mod_eq_of_lt hlt]
        omega
    · intro hge
      show (info.CurrentEpoch + r) % 2 ^ 64 < info.CurrentEpoch
      have hmod : (info.CurrentEpoch + r) % 2 ^ 64 = info.CurrentEpoch + r - 2 ^ 64 := by
        rw [Nat.mod_eq_sub_mod hge, Nat.mod_eq_of_lt (by omega)]
      omega
  · intro err herr
    simp [TokenExpiryValue, herr]

/-- C17 at epoch 7 with 10 epochs, and at the largest `roughEpochs`, where the
sum wraps to 6. -/
theorem tokenExpiryValue_wraps_witness :
    (10 : Nat) < 2 ^ 64
    ∧ (TokenExpiryValue demoPool 10 []).1 = (7, 17, none)
    ∧ (TokenExpiryValue demoPool (2 ^ 64 - 1) []).1 = (7, 6, none) := by
  refine ⟨by decide, ?_, ?_⟩
  · have h := (tokenExpiryValue_wraps demoPool 10 [] (by decide)).1
      { MaxObjectSize := 4096, CurrentEpoch := 7, HomomorphicHashingDisabled := true } rfl
      (by decide)
    rw [h.1]
    decide
  · decide

/-! ## C16: `MockNotificationEvent.Emit` -/

/-- C16: for a notification record `n` handed to `MockNotificationEvent.Emit`
(whose JSON serialisation `json.Marshal` yields, as it does for every such
record): without a store, `Emit` returns the no-database error and makes no
store call; with a store, it calls `Create` exactly once, with the notification
bucket, the key `n.Id` and the serialisation of `n`, and returns what `Create`
returns, hence nil exactly when `Create` succeeds.  A payload that is not a
notification record is refused with the no-notification error and without a
store call. -/
theorem emit_stores_record_once (env : notification.EmitEnv) (name message : String)
    (n : NewNotification) (byt : String) (calls : List notification.StoreCall)
    (hjson : env.Marshal n = .ok byt) :
    notification.MockNotificationEvent.Emit env { Name := name, DB := none } message
        (.NewNotification n) calls =
      (some (.New env.ErrorNoDatabase), calls)
    ∧ (∀ db : notification.Store,
        notification.MockNotificationEvent.Emit env { Name := name, DB := some db } message
            (.NewNotification n) calls =
          (db.Create calls env.NotificationBucket n.Id byt,
            calls ++ [⟨env.NotificationBucket, n.Id, byt⟩])
        ∧ ((notification.MockNotificationEvent.Emit env { Name := name, DB := some db } message
              (.NewNotification n) calls).1 = none
            ↔ db.Create calls env.NotificationBucket n.Id byt = none))
    ∧ (∀ (m : notification.MockNotificationEvent) (o : Object),
        notification.MockNotificationEvent.Emit env m message (.Object o) calls =
          (some (.New env.ErrorNoNotification), calls)
        ∧ notification.MockNotificationEvent.Emit env m message .other calls =
          (some (.New env.ErrorNoNotification), calls)) := by
  refine ⟨by simp [notification.MockNotificationEvent.Emit], ?_, ?_⟩
  · intro db
    have h : notification.MockNotificationEvent.Emit env { Name := name, DB := some db } message
        (.NewNotification n) calls =
          (db.Create calls env.NotificationBucket n.Id byt,
            calls ++ [⟨env.NotificationBucket, n.Id, byt⟩]) := by
      simp only [notification.MockNotificationEvent.Emit, hjson]
      cases db.Create calls env.NotificationBucket n.Id byt <;> rfl
    exact ⟨h, by rw [h]⟩
  · intro m o
    exact ⟨rfl, rfl⟩

/-- C16 on a store that accepts the record. -/
theorem emit_stores_record_once_witness :
    demoEmitEnv.Marshal (demoNotification "hello") =
      .ok "json:mock-notifier-94d9a4c7-9999-4055-a549-f51383edfe57:hello"
    ∧ notification.MockNotificationEvent.Emit demoEmitEnv
        { Name := "mock", DB := some demoStore } "notification_message"
        (.NewNotification (demoNotification "hello")) [] =
      (none,
        [⟨"notifications", "mock-notifier-94d9a4c7-9999-4055-a549-f51383edfe57",
          "json:mock-notifier-94d9a4c7-9999-4055-a549-f51383edfe57:hello"⟩]) :=
  ⟨rfl,
    ((emit_stores_record_once demoEmitEnv "mock" "notification_message"
      (demoNotification "hello")
      "json:mock-notifier-94d9a4c7-9999-4055-a549-f51383edfe57:hello"
      [] rfl).2.1 demoStore).1⟩

/-! ## C13: `Create` with a token that does not verify -/

theorem closesOf_append (a b : List Effect) : closesOf (a ++ b) = closesOf a + closesOf b := by
  induction a with
  | nil => simp [closesOf]
  | cons e a ih =>
    cases e <;> simp [closesOf, ih]
    omega

/-- `InitWriter` closes no writer and calls no emitter. -/
theorem initWriter_quiet (env : Env) (p : ObjectParameter) (token : Token) (tr : List Effect) :
    closesOf (InitWriter env p token tr).2.2 = closesOf tr
    ∧ emitsOf (InitWriter env p token tr).2.2 = emitsOf tr := by
  unfold InitWriter
  cases env.cidDecodeString p.ParentID with
  | error e => exact ⟨rfl, rfl⟩
  | ok cnr =>
    cases p.ForUser with
    | error e => exact ⟨rfl, rfl⟩
    | ok gA =>
      dsimp only
      cases p.Pool.RawClient tr with
      | some e => simp [closesOf_append, closesOf, emitsOf_append, emitsOf]
      | none =>
        dsimp only
        cases p.Pool.NetworkInfo (tr ++ [Effect.RawClient]) with
        | error e => simp [closesOf_append, closesOf, emitsOf_append, emitsOf]
        | ok ni =>
          dsimp only
          cases bearerOrPrivate token "no bearer token provided" with
          | error e => simp [closesOf_append, closesOf, emitsOf_append, emitsOf]
          | panicked => simp [closesOf_append, closesOf, emitsOf_append, emitsOf]
          | ok bt =>
            dsimp only
            split <;> simp [closesOf_append, closesOf, emitsOf_append, emitsOf]

/-- The loop of `Create` closes no writer and calls no emitter. -/
theorem createLoop_quiet (o : ObjectCaller)
    (write : List Effect → List Nat → Option GoError) (remote : Bool) :
    ∀ (rs : List ReadResult) (buf : List Nat) (tr : List Effect),
      closesOf (Create.loop o write remote rs buf tr).2 = closesOf tr
      ∧ emitsOf (Create.loop o write remote rs buf tr).2 = emitsOf tr := by
  intro rs
  induction rs with
  | nil => intro buf tr; exact ⟨rfl, rfl⟩
  | cons x rs ih =>
    intro buf tr
    by_cases h : x.data.length ≤ buf.length
    · rw [createLoop_cons o write remote x rs buf tr h]
      obtain ⟨d, e⟩ := x
      have hs : closesOf (tr ++ (if d = [] then [Effect.Read 0]
          else [Effect.Read d.length, Effect.Write remote d])) = closesOf tr
          ∧ emitsOf (tr ++ (if d = [] then [Effect.Read 0]
          else [Effect.Read d.length, Effect.Write remote d])) = emitsOf tr := by
        by_cases hd : d = [] <;>
          simp [hd, closesOf_append, closesOf, emitsOf_append, emitsOf]
      cases hw : (if d = [] then none else write (tr ++ [Effect.Read d.length]) d) with
      | some err => simp [closesOf_append, closesOf, emitsOf_append, emitsOf]
      | none =>
        rcases e with _ | e
        · dsimp only
          obtain ⟨i1, i2⟩ := ih (fillBuf buf d) (tr ++ (if d = [] then [Effect.Read 0]
            else [Effect.Read d.length, Effect.Write remote d]))
          exact ⟨by rw [i1, hs.1], by rw [i2, hs.2]⟩
        · cases e with
          | EOF => exact hs
          | New a =>
            dsimp only
            rw [closesOf_append, emitsOf_append, hs.1, hs.2]
            simp [closesOf, emitsOf]
          | NumError a b c =>
            dsimp only
            rw [closesOf_append, emitsOf_append, hs.1, hs.2]
            simp [closesOf, emitsOf]
          | Wrap a b =>
            dsimp only
            rw [closesOf_append, emitsOf_append, hs.1, hs.2]
            simp [closesOf, emitsOf]
    · rw [Create.loop, if_pos (by omega)]
      simp [closesOf_append, closesOf, emitsOf_append, emitsOf]

/-- With a resolved token that does not verify, the loop of `Create` and what
follows it close no writer and call no emitter. -/
theorem createTransfer_unverified (o : ObjectCaller) (p : Parameters)
    (objectParameters : Option ObjectParameter) (s : Stream) (remote : Bool)
    (token : Token) (tr : List Effect) (bt : BearerTok)
    (hb : bearerOrPrivate token "no bearer token provided" = .ok bt)
    (hv : bt.VerifySignature = false) :
    closesOf (Create.transfer o p objectParameters s remote token tr).2 = closesOf tr
    ∧ emitsOf (Create.transfer o p objectParameters s remote token tr).2 = emitsOf tr
    ∧ (∀ tr1, Create.loop o s.write remote s.reads newBuf tr = (none, tr1) →
        Create.transfer o p objectParameters s remote token tr =
          (.returned (some (.New "TOKEN IS NOT VERIFIED!!!!")), tr1)) := by
  have hq := createLoop_quiet o s.write remote s.reads newBuf tr
  have hf : ∀ tr1, Create.finish o p objectParameters token tr1 =
      (.returned (some (.New "TOKEN IS NOT VERIFIED!!!!")), tr1) := by
    intro tr1
    simp [Create.finish, hb, hv]
  unfold Create.transfer
  rcases hl : Create.loop o s.write remote s.reads newBuf tr with ⟨out, tr1⟩
  rw [hl] at hq
  cases out with
  | some out => exact ⟨hq.1, hq.2, by intro tr2 h; simp at h⟩
  | none =>
    dsimp only
    rw [hf tr1]
    refine ⟨hq.1, hq.2, ?_⟩
    intro tr2 h
    simp only [Prod.mk.injEq, true_and] at h
    rw [h]

/-- C13: when the resolved token does not verify, `Create` never calls the
payload writer's `Close` and never calls the event emitter, whatever else
happens; and when its transfer loop reaches end-of-stream, `Create` returns the
error "TOKEN IS NOT VERIFIED!!!!" with the history the loop left: for
parameters of another type the loop runs on their own stream, for an
`ObjectParameter` with a `DualStream` it runs after `InitWriter`, writing to
the payload writer. -/
theorem create_unverified_token_never_closes_writer
    (env : Env) (o : ObjectCaller) (p : Parameters) (token : Token) (tr : List Effect)
    (bt : BearerTok)
    (hb : bearerOrPrivate token "no bearer token provided" = .ok bt)
    (hv : bt.VerifySignature = false) :
    closesOf (o.Create env p token tr).2 = closesOf tr
    ∧ emitsOf (o.Create env p token tr).2 = emitsOf tr
    ∧ (∀ f tr1, p = .other f →
        Create.loop o f.stream.write false f.stream.reads newBuf tr = (none, tr1) →
        o.Create env p token tr = (.returned (some (.New "TOKEN IS NOT VERIFIED!!!!")), tr1))
    ∧ (∀ params w op tr0 ds tr1, p = .ObjectParameter params →
        InitWriter env params token tr = (.ok w, op, tr0) →
        op.ReadWriter = .DualStream ds →
        Create.loop o op.Pl.WriterWrite true ds.reads newBuf tr0 = (none, tr1) →
        o.Create env p token tr = (.returned (some (.New "TOKEN IS NOT VERIFIED!!!!")), tr1)) := by
  refine ⟨?_, ?_, ?_, ?_⟩
  · unfold ObjectCaller.Create
    cases p with
    | other f => exact (createTransfer_unverified o _ none f.stream false token tr bt hb hv).1
    | ObjectParameter params =>
      dsimp only
      have hq := (initWriter_quiet env params token tr).1
      rcases hi : InitWriter env params token tr with ⟨res, op, tr1⟩
      rw [hi] at hq
      dsimp only at hq
      cases res with
      | error e => exact hq
      | panicked => exact hq
      | ok w =>
        dsimp only
        cases hrw : op.ReadWriter with
        | other s => exact hq
        | DualStream ds =>
          dsimp only
          rw [(createTransfer_unverified o _ (some op) _ true token tr1 bt hb hv).1, hq]
  · unfold ObjectCaller.Create
    cases p with
    | other f => exact (createTransfer_unverified o _ none f.stream false token tr bt hb hv).2.1
    | ObjectParameter params =>
      dsimp only
      have hq := (initWriter_quiet env params token tr).2
      rcases hi : InitWriter env params token tr with ⟨res, op, tr1⟩
      rw [hi] at hq
      dsimp only at hq
      cases res with
      | error e => exact hq
      | panicked => exact hq
      | ok w =>
        dsimp only
        cases hrw : op.ReadWriter with
        | other s => exact hq
        | DualStream ds =>
          dsimp only
          rw [(createTransfer_unverified o _ (some op) _ true token tr1 bt hb hv).2.1, hq]
  · intro f tr1 hp hl
    subst hp
    simp only [ObjectCaller.Create]
    exact (createTransfer_unverified o _ none f.stream false token tr bt hb hv).2.2 tr1 hl
  · intro params w op tr0 ds tr1 hp hi hrw hl
    subst hp
    simp only [ObjectCaller.Create, hi, hrw]
    exact (createTransfer_unverified o _ (some op)
      { reads := ds.reads, write := op.Pl.WriterWrite } true token tr0 bt hb hv).2.2 tr1 hl

/-- C13 on a complete transfer with a forged token: the payload writer was
opened and written to, and never closed. -/
theorem create_unverified_token_never_closes_writer_witness :
    bearerOrPrivate (.BearerToken (some unverifiedTok)) "no bearer token provided"
      = .ok unverifiedTok
    ∧ unverifiedTok.VerifySignature = false
    ∧ (mockCaller.Create demoEnv
        (.ObjectParameter (demoParams demoPool "X" (.DualStream demoStream)))
        (.BearerToken (some unverifiedTok)) []).1 =
      .returned (some (.New "TOKEN IS NOT VERIFIED!!!!"))
    ∧ closesOf (mockCaller.Create demoEnv
        (.ObjectParameter (demoParams demoPool "X" (.DualStream demoStream)))
        (.BearerToken (some unverifiedTok)) []).2 = closesOf [] :=
  ⟨rfl, rfl, by decide,
    (create_unverified_token_never_closes_writer demoEnv mockCaller
      (.ObjectParameter (demoParams demoPool "X" (.DualStream demoStream)))
      (.BearerToken (some unverifiedTok)) [] unverifiedTok rfl rfl).1⟩

/-! ## C11, C12: `Head` -/

theorem maxUint64_eq : strconv.maxUint64 = 18446744073709551615 := by
  norm_num [strconv.maxUint64]

theorem digitsValue_ge : ∀ (cs : List Char) (acc n : Nat), digitsValue cs acc = some n → acc ≤ n := by
  intro cs
  induction cs with
  | nil => intro acc n h; simp [digitsValue] at h; omega
  | cons c cs ih =>
    intro acc n h
    rw [digitsValue] at h
    split at h
    · have := ih _ _ h
      omega
    · cases h

/-- The digit loop of `ParseUint` computes the value the digits denote, as long
as that value fits 64 bits. -/
theorem parseUintLoop_eq : ∀ (cs : List Char) (acc n : Nat),
    digitsValue cs acc = some n → n ≤ strconv.maxUint64 →
    strconv.parseUintLoop cs acc = some (some n) := by
  intro cs
  induction cs with
  | nil => intro acc n h _; simp [digitsValue] at h; simp [strconv.parseUintLoop, h]
  | cons c cs ih =>
    intro acc n h hn
    rw [digitsValue] at h
    rw [strconv.parseUintLoop]
    split at h
    · rename_i hc
      have hge := digitsValue_ge _ _ _ h
      rw [maxUint64_eq] at hn
      rw [if_pos hc]
      have h1 : ¬ (acc ≥ strconv.maxUint64 / 10 + 1) := by
        rw [maxUint64_eq]; omega
      have h2 : ¬ (acc * 10 + (c.toNat - 48) > strconv.maxUint64) := by
        rw [maxUint64_eq]; omega
      simp only [h1, h2, if_false]
      exact ih _ _ h (by rw [maxUint64_eq]; exact hn)
    · cases h

/-- `strconv.ParseInt` returns the value of a decimal integer that fits the
signed 64-bit range. -/
theorem parseInt_decimal (s : String) (n : Int) (h : decimalValue s = some n)
    (hlo : -(2 : Int) ^ 63 ≤ n) (hhi : n < (2 : Int) ^ 63) :
    strconv.ParseInt s = .ok n := by
  unfold decimalValue at h
  unfold strconv.ParseInt
  cases hd : s.data with
  | nil => rw [hd] at h; cases h
  | cons c cs =>
    rw [hd] at h
    dsimp only at h ⊢
    by_cases hm : c = '-'
    · subst hm
      simp only [if_true] at h
      by_cases hcs : cs = []
      · simp [hcs] at h
      · simp only [hcs, if_false, Option.map_eq_some'] at h
        obtain ⟨u, hu, hun⟩ := h
        have hu64 : u ≤ strconv.maxUint64 := by rw [maxUint64_eq]; omega
        have hl := parseUintLoop_eq cs 0 u hu hu64
        cases cs with
        | nil => exact absurd rfl hcs
        | cons c2 cs2 =>
          simp only [true_or, or_true, if_true, hl, Option.getD_some]
          have h1 : ¬ (¬ (('-' : Char) = '-') ∧ u ≥ 2 ^ 63) := by simp
          have h2 : ¬ ((('-' : Char) = '-') ∧ u > 2 ^ 63) := by
            intro hh; omega
          have h3 : ¬ (u > 2 ^ 63) := by omega
          simp [hun]
          omega
    · by_cases hp : c = '+'
      · subst hp
        simp only [hm, if_false, if_true] at h
        by_cases hcs : cs = []
        · simp [hcs] at h
        · simp only [hcs, if_false, Option.map_eq_some'] at h
          obtain ⟨u, hu, hun⟩ := h
          have hu64 : u ≤ strconv.maxUint64 := by rw [maxUint64_eq]; omega
          have hl := parseUintLoop_eq cs 0 u hu hu64
          cases cs with
          | nil => exact absurd rfl hcs
          | cons c2 cs2 =>
            simp only [true_or, if_true, hl, Option.getD_some]
            have h1 : ¬ (¬ (('+' : Char) = '-') ∧ u ≥ 2 ^ 63) := by
              intro hh; omega
            have h2 : ¬ ((('+' : Char) = '-') ∧ u > 2 ^ 63) := by
              intro hh; exact absurd hh.1 (by decide)
            have h3 : decide (('+' : Char) = '-') = false := by decide
            simp only [h1, h2, if_false]
            rw [if_neg (by decide), hun]
      · simp only [hm, hp, if_false, Option.map_eq_some'] at h
        obtain ⟨u, hu, hun⟩ := h
        have hu64 : u ≤ strconv.maxUint64 := by rw [maxUint64_eq]; omega
        have hl := parseUintLoop_eq (c :: cs) 0 u hu hu64
        simp only [hm, hp, or_self, if_false, hl, Option.getD_some]
        have h1 : ¬ (¬ (c = '-') ∧ u ≥ 2 ^ 63) := by
          intro hh; omega
        have h2 : ¬ ((c = '-') ∧ u > 2 ^ 63) := by
          intro hh; exact hm hh.1
        have h3 : decide (c = '-') = false := by simp [hm]
        have h4 : ¬ (u ≥ 2 ^ 63) := by omega
        simp [hun]
        omega

theorem mapGet_mapSet (m : List (String × String)) (k v k2 : String) :
    mapGet (mapSet m k v) k2 = if k = k2 then some v else mapGet m k2 := by
  induction m with
  | nil => simp [mapSet, mapGet]
  | cons kv m ih =>
    obtain ⟨k0, v0⟩ := kv
    by_cases h0 : k0 = k
    · subst h0
      by_cases h2 : k0 = k2 <;> simp [mapSet, mapGet, h2]
    · simp only [mapSet, h0, if_false, mapGet, ih]
      by_cases h2 : k0 = k2
      · subst h2
        simp [h0, Ne.symm h0]
      · simp [h2]

/-- One round of the attribute loop of `Head`, the timestamp (if this is one)
parsing to `t`. -/
theorem headAttributes_cons (k0 v0 : String) (rest : List (String × String)) (obj : Object)
    (t : Int) (hparse : k0 = AttributeTimestamp → strconv.ParseInt v0 = .ok t) :
    Head.attributes ((k0, v0) :: rest) obj =
      Head.attributes rest
        { obj with
          CreatedAt := if k0 = AttributeTimestamp then t else obj.CreatedAt,
          ContentType := if k0 = AttributeContentType then v0 else obj.ContentType,
          Name := if k0 = AttributeFileName then v0 else obj.Name,
          Attributes := mapSet obj.Attributes k0 v0 } := by
  rw [Head.attributes]
  by_cases h1 : k0 = AttributeTimestamp
  · have h2 : ¬ k0 = AttributeContentType := by rw [h1]; decide
    have h3 : ¬ k0 = AttributeFileName := by rw [h1]; decide
    simp only [h1, hparse h1, if_true]
    simp only [← h1, h2, h3, if_false]
  · simp only [h1, if_false]
    by_cases h2 : k0 = AttributeContentType
    · have h3 : ¬ k0 = AttributeFileName := by rw [h2]; decide
      simp only [h2, if_true]
      simp only [← h2, h3, if_false]
    · simp only [h2, if_false]
      by_cases h3 : k0 = AttributeFileName
      · simp only [h3, if_true]
      · simp only [h3, if_false, ite_self]

/-- The attribute loop of `Head` on a list whose timestamps are decimal
integers of the signed 64-bit range. -/
theorem headAttributes_spec :
    ∀ (A : List (String × String)) (obj : Object),
      (∀ kv ∈ A, kv.1 = AttributeTimestamp →
        ∃ n : Int, decimalValue kv.2 = some n ∧ -(2 : Int) ^ 63 ≤ n ∧ n < (2 : Int) ^ 63) →
      ∃ D, Head.attributes A obj = .ok D
        ∧ D.ParentID = obj.ParentID ∧ D.Id = obj.Id ∧ D.Size = obj.Size
        ∧ (lastValue A AttributeTimestamp = none → D.CreatedAt = obj.CreatedAt)
        ∧ (∀ v, lastValue A AttributeTimestamp = some v → decimalValue v = some D.CreatedAt)
        ∧ D.ContentType = (lastValue A AttributeContentType).getD obj.ContentType
        ∧ D.Name = (lastValue A AttributeFileName).getD obj.Name
        ∧ (∀ k, mapGet D.Attributes k =
            match lastValue A k with
            | some v => some v
            | none => mapGet obj.Attributes k) := by
  intro A
  induction A with
  | nil =>
    intro obj _
    exact ⟨obj, rfl, rfl, rfl, rfl, fun _ => rfl, by simp [lastValue], rfl, rfl,
      fun k => rfl⟩
  | cons kv rest ih =>
    intro obj hts
    obtain ⟨k0, v0⟩ := kv
    have hrest : ∀ kv ∈ rest, kv.1 = AttributeTimestamp →
        ∃ n : Int, decimalValue kv.2 = some n ∧ -(2 : Int) ^ 63 ≤ n ∧ n < (2 : Int) ^ 63 :=
      fun kv hkv => hts kv (List.mem_cons_of_mem _ hkv)
    -- the value this round stores in `CreatedAt`
    have ht : ∃ t : Int, (k0 = AttributeTimestamp → strconv.ParseInt v0 = .ok t)
        ∧ (k0 = AttributeTimestamp → decimalValue v0 = some t) := by
      by_cases h1 : k0 = AttributeTimestamp
      · obtain ⟨n, hn, hlo, hhi⟩ := hts (k0, v0) (List.mem_cons_self _ _) h1
        exact ⟨n, fun _ => parseInt_decimal v0 n hn hlo hhi, fun _ => hn⟩
      · exact ⟨0, fun h => absurd h h1, fun h => absurd h h1⟩
    obtain ⟨t, hparse, hdec⟩ := ht
    rw [headAttributes_cons k0 v0 rest obj t hparse]
    obtain ⟨D, hD, hP, hI, hS, hC0, hC1, hCT, hN, hA⟩ := ih _ hrest
    refine ⟨D, hD, hP, hI, hS, ?_, ?_, ?_, ?_, ?_⟩
    · intro hnone
      simp only [lastValue] at hnone
      cases hl : lastValue rest AttributeTimestamp with
      | some v => rw [hl] at hnone; cases hnone
      | none =>
        rw [hl] at hnone
        have hk : ¬ k0 = AttributeTimestamp := by
          intro hk; simp [hk] at hnone
        rw [hC0 hl]
        simp [hk]
    · intro v hv
      simp only [lastValue] at hv
      cases hl : lastValue rest AttributeTimestamp with
      | some v1 =>
        rw [hl] at hv
        simp only [Option.some.injEq] at hv
        subst hv
        exact hC1 v1 hl
      | none =>
        rw [hl] at hv
        by_cases hk : k0 = AttributeTimestamp
        · simp only [hk, if_true, Option.some.injEq] at hv
          subst hv
          rw [hC0 hl]
          simp only [hk, if_true]
          exact hdec hk
        · simp [hk] at hv
    · rw [hCT]
      simp only [lastValue]
      cases hl : lastValue rest AttributeContentType with
      | some v1 => simp
      | none => by_cases hk : k0 = AttributeContentType <;> simp [hk]
    · rw [hN]
      simp only [lastValue]
      cases hl : lastValue rest AttributeFileName with
      | some v1 => simp
      | none => by_cases hk : k0 = AttributeFileName <;> simp [hk]
    · intro k
      rw [hA k]
      simp only [lastValue]
      cases hl : lastValue rest k with
      | some v1 => rfl
      | none =>
        simp only [mapGet_mapSet]
        by_cases hk : k0 = k <;> simp [hk]

/-- The shapes of a run of `Head`: it stops before the remote call (with an
error or a panic), or it returns an error right after the remote call, or it
ends with its single `Emit` call, whose result it returns. -/
theorem head_cases (env : Env) (o : ObjectCaller) (p : Parameters) (token : Token)
    (tr : List Effect) :
    (∃ out, o.Head env p token tr = (out, tr) ∧ out ≠ .returned none)
    ∨ (∃ e cnr obj tok,
        o.Head env p token tr = (.returned (some e), tr ++ [Effect.ObjectHead cnr obj tok]))
    ∨ (∃ params cnr obj tok D, p = .ObjectParameter params
        ∧ o.Head env p token tr =
          (.returned (params.ObjectEmitter (tr ++ [Effect.ObjectHead cnr obj tok])
              emitter.ObjectAddUpdate D),
            tr ++ [Effect.ObjectHead cnr obj tok] ++ [Effect.Emit emitter.ObjectAddUpdate D])) := by
  unfold ObjectCaller.Head
  cases env.oidDecodeString p.ID with
  | error e => exact Or.inl ⟨_, rfl, by simp⟩
  | ok objID =>
    cases env.cidDecodeString p.ParentID with
    | error e => exact Or.inl ⟨_, rfl, by simp⟩
    | ok cnrID =>
      cases p.ForUser with
      | error e => exact Or.inl ⟨_, rfl, by simp⟩
      | ok gA =>
        cases bearerOrPrivate token env.ErrorNoToken with
        | error e => exact Or.inl ⟨_, rfl, by simp⟩
        | panicked => exact Or.inl ⟨_, rfl, by simp⟩
        | ok tok =>
          cases p with
          | other f => exact Or.inl ⟨_, rfl, by simp⟩
          | ObjectParameter params =>
            dsimp only
            cases (Parameters.ObjectParameter params).Pool.ObjectHead tr cnrID objID tok with
            | error e => exact Or.inr (Or.inl ⟨e, cnrID, objID, tok, rfl⟩)
            | ok hdr =>
              dsimp only
              cases hdr.ID with
              | none => exact Or.inr (Or.inl ⟨_, cnrID, objID, tok, rfl⟩)
              | some id =>
                dsimp only
                cases Head.attributes hdr.Attributes
                    { ParentID := cnrID, Id := id, Size := hdr.PayloadSize,
                      CreatedAt := zeroTimeUnix, Attributes := [] } with
                | error e => exact Or.inr (Or.inl ⟨e, cnrID, objID, tok, rfl⟩)
                | ok D =>
                  exact Or.inr (Or.inr ⟨params, cnrID, objID, tok, _, rfl, rfl⟩)

/-- `Head` once validation has passed and the remote has answered with a header. -/
theorem head_after_header (env : Env) (o : ObjectCaller) (params : ObjectParameter)
    (token : Token) (tok : BearerTok) (tr : List Effect) (objID cnrID : String) (gA : Account)
    (hdr : Header)
    (hoid : env.oidDecodeString params.Id = .ok objID)
    (hcid : env.cidDecodeString params.ContainerId = .ok cnrID)
    (hacc : params.GateAccount = some gA)
    (htok : bearerOrPrivate token env.ErrorNoToken = .ok tok)
    (hhead : params.Pl.ObjectHead tr cnrID objID tok = .ok hdr) :
    o.Head env (.ObjectParameter params) token tr =
      match hdr.ID with
      | none => (.returned (some (.New env.ErrorNoID)), tr ++ [Effect.ObjectHead cnrID objID tok])
      | some id =>
        match Head.attributes hdr.Attributes
            { ParentID := cnrID, Id := id, Size := hdr.PayloadSize,
              CreatedAt := zeroTimeUnix, Attributes := [] } with
        | .error err => (.returned (some err), tr ++ [Effect.ObjectHead cnrID objID tok])
        | .ok D =>
          (.returned (params.ObjectEmitter (tr ++ [Effect.ObjectHead cnrID objID tok])
              emitter.ObjectAddUpdate
              { D with Attributes :=
                  mapSet D.Attributes payloadChecksumHeader hdr.PayloadChecksum }),
            tr ++ [Effect.ObjectHead cnrID objID tok] ++
              [Effect.Emit emitter.ObjectAddUpdate
                { D with Attributes :=
                    mapSet D.Attributes payloadChecksumHeader hdr.PayloadChecksum }]) := by
  simp only [ObjectCaller.Head, Parameters.ID, Parameters.ParentID, Parameters.ForUser,
    Parameters.Pool, ObjectParameter.ID, ObjectParameter.ParentID, ObjectParameter.ForUser,
    ObjectParameter.Pool, hoid, hcid, hacc, htok, hhead]

/-- C11 as stated fails: the header's only timestamp attribute is the decimal
integer 9223372036854775808, which does not fit the signed 64-bit `CreatedAt`;
`Head` returns the range error of `strconv.ParseInt` and emits no descriptor. -/
theorem head_rejects_timestamp_beyond_int64 :
    decimalValue "9223372036854775808" = some 9223372036854775808
    ∧ mockCaller.Head demoEnv
        (.ObjectParameter (demoParams (headerPool [("Timestamp", "9223372036854775808")]) "X"
          (.other demoStream)))
        (.BearerToken (some demoTok)) [] =
      (.returned (some (.NumError "ParseInt" "9223372036854775808" "value out of range")),
        [Effect.ObjectHead "C" "X" demoTok])
    ∧ emitsOf (mockCaller.Head demoEnv
        (.ObjectParameter (demoParams (headerPool [("Timestamp", "9223372036854775808")]) "X"
          (.other demoStream)))
        (.BearerToken (some demoTok)) []).2 = [] := by
  decide

/-- C11 (amended): for every successful header response (identifier `i`, payload
size, checksum string and attribute list `A`) whose timestamp attributes are
decimal integers of the signed 64-bit range, `Head` makes one `Emit` call under
`object_add_update` and returns its result; the descriptor has `ParentID` the
container identifier, `Id = i`, `Size` the payload size; `CreatedAt` the value
of the last timestamp attribute of `A` (the zero time's Unix value without
one); `ContentType` and `Name` the value of the last content-type and
file-name attribute (empty without one); `Attributes` maps every key other
than `payload_checksum` to the value of its last occurrence in `A` (and holds
no other key), and `payload_checksum` to the checksum string. -/
theorem head_descriptor_from_header (env : Env) (o : ObjectCaller) (params : ObjectParameter)
    (token : Token) (tok : BearerTok) (tr : List Effect) (objID cnrID i : String) (gA : Account)
    (hdr : Header)
    (hoid : env.oidDecodeString params.Id = .ok objID)
    (hcid : env.cidDecodeString params.ContainerId = .ok cnrID)
    (hacc : params.GateAccount = some gA)
    (htok : bearerOrPrivate token env.ErrorNoToken = .ok tok)
    (hhead : params.Pl.ObjectHead tr cnrID objID tok = .ok hdr)
    (hid : hdr.ID = some i)
    (hts : ∀ kv ∈ hdr.Attributes, kv.1 = AttributeTimestamp →
      ∃ n : Int, decimalValue kv.2 = some n ∧ -(2 : Int) ^ 63 ≤ n ∧ n < (2 : Int) ^ 63) :
    ∃ D : Object,
      o.Head env (.ObjectParameter params) token tr =
        (.returned (params.ObjectEmitter (tr ++ [Effect.ObjectHead cnrID objID tok])
            emitter.ObjectAddUpdate D),
          tr ++ [Effect.ObjectHead cnrID objID tok] ++ [Effect.Emit emitter.ObjectAddUpdate D])
      ∧ D.ParentID = cnrID ∧ D.Id = i ∧ D.Size = hdr.PayloadSize
      ∧ (lastValue hdr.Attributes AttributeTimestamp = none → D.CreatedAt = zeroTimeUnix)
      ∧ (∀ v, lastValue hdr.Attributes AttributeTimestamp = some v →
          decimalValue v = some D.CreatedAt)
      ∧ D.ContentType = (lastValue hdr.Attributes AttributeContentType).getD ""
      ∧ D.Name = (lastValue hdr.Attributes AttributeFileName).getD ""
      ∧ (∀ k, k ≠ payloadChecksumHeader →
          mapGet D.Attributes k = lastValue hdr.Attributes k)
      ∧ mapGet D.Attributes payloadChecksumHeader = some hdr.PayloadChecksum := by
  obtain ⟨D0, hD, hP, hI, hS, hC0, hC1, hCT, hN, hA⟩ :=
    headAttributes_spec hdr.Attributes
      { ParentID := cnrID, Id := i, Size := hdr.PayloadSize, CreatedAt := zeroTimeUnix,
        Attributes := [] } hts
  let cks := mapSet D0.Attributes payloadChecksumHeader hdr.PayloadChecksum
  refine ⟨{ D0 with Attributes := cks }, ?_, hP, hI, hS, hC0, hC1, hCT, hN, ?_, ?_⟩
  · rw [head_after_header env o params token tok tr objID cnrID gA hdr hoid hcid hacc htok hhead]
    simp only [hid, hD]
  · intro k hk
    show mapGet (mapSet D0.Attributes payloadChecksumHeader hdr.PayloadChecksum) k = _
    rw [mapGet_mapSet, if_neg (Ne.symm hk), hA k]
    cases lastValue hdr.Attributes k <;> simp [mapGet]
  · show mapGet (mapSet D0.Attributes payloadChecksumHeader hdr.PayloadChecksum) _ = _
    rw [mapGet_mapSet, if_pos rfl]

/-- C11 (amended) on a header with two timestamps and a file name: the
descriptor carries the later timestamp. -/
theorem head_descriptor_from_header_witness :
    demoEnv.oidDecodeString "X" = .ok "X"
    ∧ demoEnv.cidDecodeString "C" = .ok "C"
    ∧ bearerOrPrivate (.BearerToken (some demoTok)) demoEnv.ErrorNoToken = .ok demoTok
    ∧ ∃ D : Object,
        emitsOf (mockCaller.Head demoEnv
          (.ObjectParameter (demoParams
            (headerPool [("Timestamp", "1700000000"), ("FileName", "a.txt"), ("Timestamp", "42")])
            "X" (.other demoStream)))
          (.BearerToken (some demoTok)) []).2 = [(emitter.ObjectAddUpdate, D)]
        ∧ D.Id = "X" ∧ D.Name = "a.txt" ∧ decimalValue "42" = some D.CreatedAt := by
  refine ⟨rfl, rfl, rfl, ?_⟩
  obtain ⟨D, hH, _, hI, _, _, hC, _, hN, _, _⟩ :=
    head_descriptor_from_header demoEnv mockCaller
      (demoParams
        (headerPool [("Timestamp", "1700000000"), ("FileName", "a.txt"), ("Timestamp", "42")])
        "X" (.other demoStream))
      (.BearerToken (some demoTok)) demoTok [] "X" "C" "X" { Address := "gate" }
      { ID := some "X", PayloadSize := 3,
        Attributes := [("Timestamp", "1700000000"), ("FileName", "a.txt"), ("Timestamp", "42")],
        PayloadChecksum := "SHA256:00" }
      rfl rfl rfl rfl rfl rfl
      (by
        intro kv hkv hk
        simp only [List.mem_cons, List.mem_singleton, List.not_mem_nil, or_false] at hkv
        rcases hkv with h | h | h
        · exact ⟨1700000000, by rw [h]; decide, by decide, by decide⟩
        · rw [h] at hk
          exact absurd hk (by decide)
        · exact ⟨42, by rw [h]; decide, by decide, by decide⟩)
  refine ⟨D, ?_, hI, ?_, hC "42" (by decide)⟩
  · rw [hH]
    simp [emitsOf_append, emitsOf]
  · rw [hN]
    decide

/-- The attribute loop of `Head` fails at the first timestamp that does not
parse. -/
theorem headAttributes_error (v : String) (e : GoError) (post : List (String × String))
    (hv : strconv.ParseInt v = .error e) :
    ∀ (pre : List (String × String)) (obj : Object),
      (∀ kv ∈ pre, kv.1 ≠ AttributeTimestamp) →
      Head.attributes (pre ++ (AttributeTimestamp, v) :: post) obj = .error e := by
  intro pre
  induction pre with
  | nil =>
    intro obj _
    simp [Head.attributes, hv]
  | cons kv pre ih =>
    intro obj hpre
    obtain ⟨k0, v0⟩ := kv
    have hk : ¬ k0 = AttributeTimestamp := hpre (k0, v0) (List.mem_cons_self _ _)
    rw [List.cons_append, headAttributes_cons k0 v0 _ obj 0 (fun h => absurd h hk)]
    exact ih _ (fun kv hkv => hpre kv (List.mem_cons_of_mem _ hkv))

/-- What `Head` leaves behind.  It never sends on the action channel.  When it
returns a non-nil error, either the event emitter has not been called, or the
error is the one returned by the single `Emit` call that ends `Head`, which
then failed.  When it panics the emitter has not been called.  A missing gate
account, a failure of the remote `ObjectHead` (access denial included), a
header without identifier and a timestamp attribute that does not parse each
make `Head` return that error without calling the emitter. -/
theorem head_sends_nothing_and_fails_before_emitting
    (env : Env) (o : ObjectCaller) (p : Parameters) (token : Token) (tr : List Effect) :
    sendsOf (o.Head env p token tr).2 = sendsOf tr
    ∧ (∀ e, (o.Head env p token tr).1 = .returned (some e) →
        emitsOf (o.Head env p token tr).2 = emitsOf tr
        ∨ ∃ params tr1 D, p = .ObjectParameter params
            ∧ (o.Head env p token tr).2 = tr1 ++ [Effect.Emit emitter.ObjectAddUpdate D]
            ∧ emitsOf tr1 = emitsOf tr
            ∧ params.ObjectEmitter tr1 emitter.ObjectAddUpdate D = some e)
    ∧ ((o.Head env p token tr).1 = .panicked → emitsOf (o.Head env p token tr).2 = emitsOf tr)
    ∧ (∀ objID cnrID e, env.oidDecodeString p.ID = .ok objID →
        env.cidDecodeString p.ParentID = .ok cnrID → p.ForUser = .error e →
        o.Head env p token tr = (.returned (some e), tr))
    ∧ (∀ params objID cnrID gA tok, p = .ObjectParameter params →
        env.oidDecodeString params.Id = .ok objID →
        env.cidDecodeString params.ContainerId = .ok cnrID →
        params.GateAccount = some gA →
        bearerOrPrivate token env.ErrorNoToken = .ok tok →
        (∀ e, params.Pl.ObjectHead tr cnrID objID tok = .error e →
          o.Head env p token tr =
            (.returned (some e), tr ++ [Effect.ObjectHead cnrID objID tok]))
        ∧ (∀ hdr, params.Pl.ObjectHead tr cnrID objID tok = .ok hdr → hdr.ID = none →
          o.Head env p token tr =
            (.returned (some (.New env.ErrorNoID)), tr ++ [Effect.ObjectHead cnrID objID tok]))
        ∧ (∀ hdr i pre v post e, params.Pl.ObjectHead tr cnrID objID tok = .ok hdr →
          hdr.ID = some i →
          hdr.Attributes = pre ++ (AttributeTimestamp, v) :: post →
          (∀ kv ∈ pre, kv.1 ≠ AttributeTimestamp) →
          strconv.ParseInt v = .error e →
          o.Head env p token tr =
            (.returned (some e), tr ++ [Effect.ObjectHead cnrID objID tok]))) := by
  refine ⟨?_, ?_, ?_, ?_, ?_⟩
  · rcases head_cases env o p token tr with ⟨out, h, _⟩ | ⟨e, c, ob, t, h⟩ |
      ⟨params, c, ob, t, D, _, h⟩
    · rw [h]
    · rw [h]; simp [sendsOf_append, sendsOf]
    · rw [h]; simp [sendsOf_append, sendsOf]
  · intro e he
    rcases head_cases env o p token tr with ⟨out, h, _⟩ | ⟨e1, c, ob, t, h⟩ |
      ⟨params, c, ob, t, D, hp, h⟩
    · rw [h]; exact Or.inl rfl
    · rw [h]; exact Or.inl (by simp [emitsOf_append, emitsOf])
    · rw [h] at he ⊢
      simp only [Outcome.returned.injEq] at he
      exact Or.inr ⟨params, _, D, hp, rfl, by simp [emitsOf_append, emitsOf], he⟩
  · intro hpan
    rcases head_cases env o p token tr with ⟨out, h, _⟩ | ⟨e1, c, ob, t, h⟩ |
      ⟨params, c, ob, t, D, hp, h⟩
    · rw [h]
    · rw [h] at hpan; simp at hpan
    · rw [h] at hpan; simp at hpan
  · intro objID cnrID e hoid hcid hacc
    simp [ObjectCaller.Head, hoid, hcid, hacc]
  · intro params objID cnrID gA tok hp hoid hcid hacc htok
    subst hp
    refine ⟨?_, ?_, ?_⟩
    · intro e hhead
      simp [ObjectCaller.Head, Parameters.ID, Parameters.ParentID, Parameters.ForUser,
        Parameters.Pool, ObjectParameter.ID, ObjectParameter.ParentID, ObjectParameter.ForUser,
        ObjectParameter.Pool, hoid, hcid, hacc, htok, hhead]
    · intro hdr hhead hid
      rw [head_after_header env o params token tok tr objID cnrID gA hdr hoid hcid hacc htok
        hhead]
      simp only [hid]
    · intro hdr i pre v post e hhead hid hA hpre hv
      rw [head_after_header env o params token tok tr objID cnrID gA hdr hoid hcid hacc htok
        hhead]
      simp only [hid, hA, headAttributes_error v e post hv pre _ hpre]

/-- C12: on parameters that are not an `ObjectParameter`, with identifiers that
decode, a gate account and a delegated credential, `Head` does not return the
error "no object parameters": it panics at the unchecked type assertion that
precedes the checked one, having called nothing and sent nothing.  `Delete`,
on the same input, returns that error. -/
theorem head_panics_on_foreign_parameters :
    mockCaller.Head demoEnv (.other demoForeign) (.BearerToken (some demoTok)) [] =
      (.panicked, [])
    ∧ mockCaller.Delete demoEnv (.other demoForeign) (.BearerToken (some demoTok)) [] =
      (.returned (some (.New "no object parameters")), []) := by
  decide

/-! ## C14, C15: the notification dispatch -/

/-- C14 as stated fails: on a running dispatch, after `End()` has returned, a
`QueueNotification` call panics (send on the closed channel), and so does a
second `End()` (close of the closed channel). -/
theorem queue_and_end_after_end_panic :
    (notification.MockNotifier.End
        (notification.MockNotifier.ListenAndEmit (notification.NewMockNotifier false))).1 =
      .returned
    ∧ (notification.MockNotifier.QueueNotification
        (notification.MockNotifier.End
          (notification.MockNotifier.ListenAndEmit (notification.NewMockNotifier false))).2
        (demoNotification "late")).1 = .panicked
    ∧ (notification.MockNotifier.End
        (notification.MockNotifier.End
          (notification.MockNotifier.ListenAndEmit (notification.NewMockNotifier false))).2).1 =
      .panicked := by
  decide

/-- C14 (amended): after `End()` has been invoked the channel is closed; every
subsequent `QueueNotification` call panics at once and leaves the dispatch as
it was, so its record never enters the channel and is never delivered; a
second `End()` panics as well.  Neither call blocks. -/
theorem queue_after_end_panics_and_delivers_nothing
    (m : notification.MockNotifier) (s : notification.DispatchState) (n : NewNotification) :
    (notification.MockNotifier.End s).2.closed = true
    ∧ notification.MockNotifier.QueueNotification (notification.MockNotifier.End s).2 n =
        (.panicked, (notification.MockNotifier.End s).2)
    ∧ notification.MockNotifier.End (notification.MockNotifier.End s).2 =
        (.panicked, (notification.MockNotifier.End s).2)
    ∧ (∀ (steps : List notification.Step) (rest : List NewNotification),
        notification.run m steps
            ((notification.MockNotifier.QueueNotification
              (notification.MockNotifier.End s).2 n).2, rest) =
          notification.run m steps ((notification.MockNotifier.End s).2, rest)) := by
  have hc : (notification.MockNotifier.End s).2.closed = true := by
    unfold notification.MockNotifier.End
    by_cases h : s.closed = true <;> simp [h]
  have hq : notification.MockNotifier.QueueNotification (notification.MockNotifier.End s).2 n =
      (.panicked, (notification.MockNotifier.End s).2) := by
    simp [notification.MockNotifier.QueueNotification, hc]
  refine ⟨hc, hq, ?_, ?_⟩
  · have hcan : (notification.MockNotifier.End s).2.cancelled = true := by
      unfold notification.MockNotifier.End
      by_cases h : s.closed = true <;> simp [h]
    rcases hs : (notification.MockNotifier.End s).2 with ⟨cl, ca, se, li, em⟩
    rw [hs] at hc hcan
    simp only at hc hcan
    subst hc; subst hcan
    simp [notification.MockNotifier.End]
  · intro steps rest
    rw [hq]

/-- The invariant holds when the listener has just been started. -/
theorem dispatchInv_init (m : notification.MockNotifier) (records : List NewNotification)
    (cancelled : Bool) :
    notification.DispatchInv m records
      (notification.MockNotifier.ListenAndEmit (notification.NewMockNotifier cancelled),
        records) := by
  refine ⟨⟨[], by simp [notification.MockNotifier.ListenAndEmit,
    notification.NewMockNotifier], fun _ => rfl⟩, ?_, ?_⟩
  · intro c hc
    simp [notification.MockNotifier.ListenAndEmit, notification.NewMockNotifier] at hc
  · intro h
    simp [notification.MockNotifier.ListenAndEmit, notification.NewMockNotifier] at h

/-- Every step keeps the invariant. -/
theorem dispatchInv_step (m : notification.MockNotifier) (records : List NewNotification)
    (st : notification.Step) (x : notification.DispatchState × List NewNotification)
    (h : notification.DispatchInv m records x) :
    notification.DispatchInv m records (notification.step m st x) := by
  obtain ⟨⟨cl, ca, se, li, em⟩, prog⟩ := x
  obtain ⟨⟨dropped, hrec, hdrop⟩, htopic, hend⟩ := h
  simp only at hrec hdrop htopic hend
  cases st with
  | queue =>
    cases prog with
    | nil => exact ⟨⟨dropped, hrec, hdrop⟩, htopic, hend⟩
    | cons n rest =>
      cases se with
      | cons a b => exact ⟨⟨dropped, hrec, hdrop⟩, htopic, hend⟩
      | nil =>
        cases cl with
        | true =>
          refine ⟨⟨n :: rest ++ dropped, ?_, ?_⟩, htopic, hend⟩
          · simpa [notification.step, notification.MockNotifier.QueueNotification] using hrec
          · intro hfalse
            simp [notification.step, notification.MockNotifier.QueueNotification] at hfalse
        | false =>
          refine ⟨⟨dropped, ?_, ?_⟩, htopic, hend⟩
          · simpa [notification.step, notification.MockNotifier.QueueNotification] using hrec
          · intro _
            exact hdrop rfl
  | cancel =>
    refine ⟨⟨dropped, hrec, hdrop⟩, htopic, ?_⟩
    intro _
    exact Or.inl rfl
  | endCall =>
    cases cl with
    | true =>
      refine ⟨⟨dropped, hrec, ?_⟩, htopic, ?_⟩
      · intro hfalse
        simp [notification.step, notification.MockNotifier.End] at hfalse
      · intro _
        exact Or.inl (by simp [notification.step, notification.MockNotifier.End])
    | false =>
      cases se with
      | nil =>
        refine ⟨⟨dropped, hrec, ?_⟩, htopic, ?_⟩
        · intro hfalse
          simp [notification.step, notification.MockNotifier.End] at hfalse
        · intro _
          exact Or.inl (by simp [notification.step, notification.MockNotifier.End])
      | cons a b =>
        refine ⟨⟨(a :: b) ++ prog ++ dropped, ?_, ?_⟩, htopic, ?_⟩
        · simpa [notification.step, notification.MockNotifier.End] using hrec
        · intro hfalse
          simp [notification.step, notification.MockNotifier.End] at hfalse
        · intro _
          exact Or.inl (by simp [notification.step, notification.MockNotifier.End])
  | select c =>
    cases li with
    | notStarted => exact ⟨⟨dropped, hrec, hdrop⟩, htopic, hend⟩
    | ended => exact ⟨⟨dropped, hrec, hdrop⟩, htopic, hend⟩
    | running =>
      cases c with
      | ticker => exact ⟨⟨dropped, hrec, hdrop⟩, htopic, hend⟩
      | done =>
        cases ca with
        | false => exact ⟨⟨dropped, hrec, hdrop⟩, htopic, hend⟩
        | true =>
          refine ⟨⟨dropped, hrec, hdrop⟩, htopic, ?_⟩
          intro _
          exact Or.inl rfl
      | notification =>
        cases cl with
        | true =>
          refine ⟨⟨dropped, hrec, hdrop⟩, htopic, ?_⟩
          intro _
          exact Or.inr (Or.inl rfl)
        | false =>
          cases se with
          | nil => exact ⟨⟨dropped, hrec, hdrop⟩, htopic, hend⟩
          | cons n rest =>
            have hrec2 : records =
                List.map (·.2) (em ++ [(emitter.NotificationMessage, n)]) ++ rest ++ prog
                  ++ dropped := by
              simpa using hrec
            have htopic2 : ∀ c ∈ em ++ [(emitter.NotificationMessage, n)],
                c.1 = emitter.NotificationMessage := by
              intro c hc
              rcases List.mem_append.mp hc with h1 | h1
              · exact htopic c h1
              · simp only [List.mem_singleton] at h1
                rw [h1]
            cases hemit : m.Emit em emitter.NotificationMessage n with
            | none =>
              simp only [notification.step, notification.ListenAndEmit.iteration, hemit]
              refine ⟨⟨dropped, hrec2, hdrop⟩, htopic2, ?_⟩
              intro hh
              simp at hh
            | some e =>
              simp only [notification.step, notification.ListenAndEmit.iteration, hemit]
              refine ⟨⟨dropped, hrec2, hdrop⟩, htopic2, ?_⟩
              intro _
              exact Or.inr (Or.inr ⟨em, n, e, rfl, hemit⟩)

/-- Every run keeps the invariant. -/
theorem dispatchInv_run (m : notification.MockNotifier) (records : List NewNotification) :
    ∀ (steps : List notification.Step) (x : notification.DispatchState × List NewNotification),
      notification.DispatchInv m records x →
      notification.DispatchInv m records (notification.run m steps x) := by
  intro steps
  induction steps with
  | nil => intro x h; exact h
  | cons st rest ih =>
    intro x h
    exact ih _ (dispatchInv_step m records st x h)

/-- With an emitter that accepts every record, handing the records over one by
one delivers all of them. -/
theorem run_handOver (m : notification.MockNotifier)
    (hm : ∀ h t n, m.Emit h t n = none) (cancelled : Bool) :
    ∀ (records : List NewNotification) (em : List (String × NewNotification)),
      notification.run m (notification.handOver records)
          ({ closed := false, cancelled := cancelled, sending := [], listener := .running,
             emitted := em }, records) =
        ({ closed := false, cancelled := cancelled, sending := [], listener := .running,
           emitted := em ++ records.map (fun n => (emitter.NotificationMessage, n)) }, []) := by
  intro records
  induction records with
  | nil => intro em; simp [notification.handOver, notification.run]
  | cons n rest ih =>
    intro em
    simp only [notification.handOver, notification.run, notification.step,
      notification.MockNotifier.QueueNotification, notification.ListenAndEmit.iteration,
      Bool.false_eq_true, if_false, List.nil_append, hm]
    rw [ih]
    simp

/-- C15: a single producer sets out to queue `records` in order on a dispatch
whose listener has been started.  Whatever the scheduler does (any sequence of
queue, select, cancel and end steps), the listener's calls of the emitter are
all on the `notification_message` topic and carry an initial segment of
`records`, in order: no record is delivered twice or out of turn and none is
skipped.  While the channel is open, the records delivered, the record blocked
in its send and the records still to be queued make up `records` exactly.  The
listener ends only on cancellation, on a closed channel, or when its last
`Emit` call failed.  With an emitter that accepts every record, handing the
records over one by one delivers all of them. -/
theorem listener_delivers_in_queue_order (m : notification.MockNotifier)
    (records : List NewNotification) (cancelled : Bool) (steps : List notification.Step) :
    (∃ rest, records =
        (notification.run m steps
          (notification.MockNotifier.ListenAndEmit (notification.NewMockNotifier cancelled),
            records)).1.emitted.map (·.2) ++ rest)
    ∧ (∀ c ∈ (notification.run m steps
          (notification.MockNotifier.ListenAndEmit (notification.NewMockNotifier cancelled),
            records)).1.emitted, c.1 = emitter.NotificationMessage)
    ∧ ((notification.run m steps
          (notification.MockNotifier.ListenAndEmit (notification.NewMockNotifier cancelled),
            records)).1.closed = false →
        records =
          (notification.run m steps
            (notification.MockNotifier.ListenAndEmit (notification.NewMockNotifier cancelled),
              records)).1.emitted.map (·.2)
          ++ (notification.run m steps
            (notification.MockNotifier.ListenAndEmit (notification.NewMockNotifier cancelled),
              records)).1.sending
          ++ (notification.run m steps
            (notification.MockNotifier.ListenAndEmit (notification.NewMockNotifier cancelled),
              records)).2)
    ∧ ((notification.run m steps
          (notification.MockNotifier.ListenAndEmit (notification.NewMockNotifier cancelled),
            records)).1.listener = .ended →
        (notification.run m steps
          (notification.MockNotifier.ListenAndEmit (notification.NewMockNotifier cancelled),
            records)).1.cancelled = true
        ∨ (notification.run m steps
          (notification.MockNotifier.ListenAndEmit (notification.NewMockNotifier cancelled),
            records)).1.closed = true
        ∨ ∃ pre n e,
            (notification.run m steps
              (notification.MockNotifier.ListenAndEmit (notification.NewMockNotifier cancelled),
                records)).1.emitted = pre ++ [(emitter.NotificationMessage, n)]
            ∧ m.Emit pre emitter.NotificationMessage n = some e)
    ∧ ((∀ h t n, m.Emit h t n = none) →
        notification.run m (notification.handOver records)
            (notification.MockNotifier.ListenAndEmit (notification.NewMockNotifier cancelled),
              records) =
          ({ closed := false, cancelled := cancelled, sending := [], listener := .running,
             emitted := records.map (fun n => (emitter.NotificationMessage, n)) }, [])) := by
  obtain ⟨⟨dropped, hrec, hdrop⟩, htopic, hend⟩ :=
    dispatchInv_run m records steps _ (dispatchInv_init m records cancelled)
  refine ⟨?_, htopic, ?_, hend, ?_⟩
  · rw [List.append_assoc, List.append_assoc] at hrec
    exact ⟨_, hrec⟩
  · intro hcl
    rw [hdrop hcl, List.append_nil] at hrec
    exact hrec
  · intro hm
    have h := run_handOver m hm cancelled records []
    simpa [notification.MockNotifier.ListenAndEmit, notification.NewMockNotifier] using h

/-- C15 on three records: the second select iteration is a tick, and the
context is cancelled before the third record is queued; the first two records
have been delivered, in order. -/
theorem listener_delivers_in_queue_order_witness :
    (notification.run demoNotifier
        [.queue, .select .notification, .queue, .select .ticker, .select .notification, .cancel,
          .select .done, .queue, .select .notification]
        (notification.MockNotifier.ListenAndEmit (notification.NewMockNotifier false),
          [demoNotification "N1", demoNotification "N2", demoNotification "N3"])).1.emitted =
      [("notification_message", demoNotification "N1"),
        ("notification_message", demoNotification "N2")]
    ∧ ∃ rest, [demoNotification "N1", demoNotification "N2", demoNotification "N3"] =
        (notification.run demoNotifier
          [.queue, .select .notification, .queue, .select .ticker, .select .notification,
            .cancel, .select .done, .queue, .select .notification]
          (notification.MockNotifier.ListenAndEmit (notification.NewMockNotifier false),
            [demoNotification "N1", demoNotification "N2", demoNotification "N3"])).1.emitted.map
          (·.2) ++ rest :=
  ⟨by decide,
    (listener_delivers_in_queue_order demoNotifier
      [demoNotification "N1", demoNotification "N2", demoNotification "N3"] false
      [.queue, .select .notification, .queue, .select .ticker, .select .notification, .cancel,
        .select .done, .queue, .select .notification]).1⟩

end Sdk
